import Mathlib

/-!
# LinkedinAutomation: human-behaviour simulation and session/login state machine

A shallow embedding of the Go packages `stealth`, `auth` and `config`, of the template
selection of `messaging`, and of the start and the connection-request phase of `main`.

Conventions of the embedding

* `time.Duration` is an `Int` number of nanoseconds.
* `math/rand` is a stream of raw draws `Rand = Nat → Nat` read through a call
  counter: the `k`-th call of the run consumes draw `k`.  `rand.Intn(n)` is the
  raw draw reduced modulo `n`, `rand.Float64()` is `u / 2^53` for the raw draw
  reduced modulo `2^53`, so every outcome of every draw is covered.
* `float64`: the scroll deltas of `HumanScroll` and `ScrollToElement` and the
  micro-corrections of `HumanMove` are computed over `ℚ` with the rounding
  `roundFloat64` (to nearest, ties to even, 53 bits) after every conversion and
  operation, and Go's `int` wraps modulo `2^64`.  The curve of `HumanMove`, which
  calls `math.Pow`, and the other procedures are written over a linearly ordered
  field `F` in exact arithmetic; all definitions are computable at `F = ℚ`.
* A Go `string` is a Lean `String` where the code only compares it, and a list of
  bytes where the code slices it.
* Effects on the browser are recorded as a trace of events, in program order; the
  `Must...` calls of the browser library are taken not to panic.
-/

namespace LinkedinAutomation

/-! ## Time and randomness -/

/-- Go `time.Duration`: a signed count of nanoseconds. -/
abbrev Duration := Int

/-- Go `time.Millisecond`. -/
def Millisecond : Duration := 1000000

/-- Go `time.Second`. -/
def Second : Duration := 1000 * Millisecond

/-- Go `time.Hour`. -/
def Hour : Duration := 3600 * Second

/-- The raw outcomes of the successive calls to `math/rand`. -/
abbrev Rand := Nat → Nat

/-- Go `rand.Intn(n)` at call number `k` (for `n > 0`): a value in `[0, n)`. -/
def Intn (rng : Rand) (k n : Nat) : Nat := rng k % n

/-- Go `rand.Float64()` at call number `k`: a value in `[0, 1)`. -/
def Float64 {F : Type} [LinearOrderedField F] (rng : Rand) (k : Nat) : F :=
  ((rng k % 2 ^ 53 : Nat) : F) / 2 ^ 53

/-! ## float64

Where a claim reads a computed `float64` value, every operation of the code is followed by
the rounding `roundFloat64`.  The exponent is not bounded: the values that the modelled
procedures compute stay within the normal range of `float64`, where no overflow or
underflow occurs. -/

/-- Rounding to the nearest integer, ties to the even one. -/
def roundHalfEven (y : ℚ) : Int :=
  if y - ⌊y⌋ < 1 / 2 then ⌊y⌋
  else if 1 / 2 < y - ⌊y⌋ then ⌊y⌋ + 1
  else if ⌊y⌋ % 2 = 0 then ⌊y⌋ else ⌊y⌋ + 1

/-- The `float64` nearest to the rational `x`, ties to even: with `2^e ≤ |x| < 2^(e+1)`,
the multiple of `2^(e-52)` nearest to `x` (53 significant bits). -/
def roundFloat64 (x : ℚ) : ℚ :=
  (roundHalfEven (x * 2 ^ (52 - Int.log 2 |x|)) : ℚ) / 2 ^ (52 - Int.log 2 |x|)

namespace stealth

/-- The `switch actionType` of `RandomizedTimingDelay`: the pair `(base, variance)`. -/
def timingProfile (actionType : String) : Nat × Nat :=
  if actionType = "click" then (300, 400)
  else if actionType = "type_char" then (80, 120)
  else if actionType = "think" then (800, 1200)
  else if actionType = "read" then (1500, 2000)
  else if actionType = "navigate" then (2000, 3000)
  else if actionType = "scroll" then (500, 800)
  else (400, 600)

/-- `RandomizedTimingDelay(actionType)`, drawing at call number `k`:
`time.Duration(base + rand.Intn(variance)) * time.Millisecond`. -/
def RandomizedTimingDelay (rng : Rand) (k : Nat) (actionType : String) : Duration × Nat :=
  let base := (timingProfile actionType).1
  let variance := (timingProfile actionType).2
  let delay := base + Intn rng k variance
  ((delay : Int) * Millisecond, k + 1)

/-- What `HumanMove`, `HumanScroll` and `ScrollToElement` do to the page and the clock. -/
inductive MouseEvent (F : Type) where
  /-- The call `page.Mouse.MustMoveTo(x, y)`. -/
  | moveTo (x y : F)
  /-- The call `page.Mouse.Scroll(dx, dy, steps)`. -/
  | scroll (dx dy : F) (steps : Nat)
  /-- The call `time.Sleep(d)`. -/
  | sleep (d : Duration)

/-- The waypoints of a trace: the arguments of its `MustMoveTo` calls, in order. -/
def waypoints {F : Type} : List (MouseEvent F) → List (F × F)
  | [] => []
  | MouseEvent.moveTo x y :: rest => (x, y) :: waypoints rest
  | _ :: rest => waypoints rest

/-- The vertical scroll deltas of a trace, in order. -/
def scrollDeltas {F : Type} : List (MouseEvent F) → List F
  | [] => []
  | MouseEvent.scroll _ dy _ :: rest => dy :: scrollDeltas rest
  | _ :: rest => scrollDeltas rest

section Mouse

variable {F : Type} [LinearOrderedField F]

/-- `easeInOutCubic(t)`: `4t³` below one half, `1 - (-2t+2)³/2` from there on. -/
def easeInOutCubic (t : F) : F :=
  if t < 1 / 2 then 4 * t * t * t else 1 - (-2 * t + 2) ^ 3 / 2

/-- One coordinate of the cubic Bézier point of `HumanMove` at parameter `eased`. -/
def bezier (eased p0 p1 p2 p3 : F) : F :=
  (1 - eased) ^ 3 * p0 + 3 * (1 - eased) ^ 2 * eased * p1 +
    3 * (1 - eased) * eased ^ 2 * p2 + eased ^ 3 * p3

/-- The sampling loop `for i := 0; i <= steps; i++` of `HumanMove`, with `remaining`
iterations left (so `i = steps + 1 - remaining`) and the next draw at call `k`. -/
def curveLoop (rng : Rand) (startX startY cp1X cp1Y cp2X cp2Y overshootX overshootY : F)
    (steps : Nat) : (remaining : Nat) → (k : Nat) → List (MouseEvent F) × Nat
  | 0, k => ([], k)
  | remaining + 1, k =>
    let i := steps - remaining
    let t : F := (i : F) / (steps : F)
    let eased := easeInOutCubic t
    let nx := bezier eased startX cp1X cp2X overshootX + (Float64 rng k - 1 / 2) * 2
    let ny := bezier eased startY cp1Y cp2Y overshootY + (Float64 rng (k + 1) - 1 / 2) * 2
    let delay := Intn rng (k + 2) 8 + 3
    let slow : Bool := decide ((i : Int) < 5 ∨ (i : Int) > (steps : Int) - 5)
    let delay' := if slow then delay + Intn rng (k + 3) 10 else delay
    let k' := if slow then k + 4 else k + 3
    let rest := curveLoop rng startX startY cp1X cp1Y cp2X cp2Y overshootX overshootY
      steps remaining k'
    (MouseEvent.moveTo nx ny :: MouseEvent.sleep ((delay' : Int) * Millisecond) :: rest.1, rest.2)

/-- The micro-correction loop `for j := 0; j < rand.Intn(3)+1; j++` of `HumanMove`: the
bound is drawn again at every test.  `fuel` bounds the number of tests; four are enough,
since the bound is at most 3.  `fl` is the rounding of one `float64` operation
(`roundFloat64` over the rationals, the identity for exact arithmetic); the subtraction,
the multiplication and the addition are rounded one by one, not fused. -/
def microLoop (fl : F → F) (rng : Rand) (targetX targetY : F) :
    (fuel : Nat) → (j : Nat) → (k : Nat) → List (MouseEvent F) × Nat
  | 0, _, k => ([], k)
  | fuel + 1, j, k =>
    if j < Intn rng k 3 + 1 then
      let corrX := fl (targetX + fl (fl (Float64 rng (k + 1) - 1 / 2) * 6))
      let corrY := fl (targetY + fl (fl (Float64 rng (k + 2) - 1 / 2) * 6))
      let pause : Duration := ((Intn rng (k + 3) 30 + 20 : Nat) : Int) * Millisecond
      let rest := microLoop fl rng targetX targetY fuel (j + 1) (k + 4)
      (MouseEvent.moveTo corrX corrY :: MouseEvent.sleep pause :: rest.1, rest.2)
    else ([], k + 1)

/-- `HumanMove(page, targetX, targetY)` with its first draw at call `k`: the trace of
mouse moves and sleeps, and the call counter afterwards.  The curve is computed in exact
arithmetic; the coordinates of the micro-corrections are rounded with `fl` after every
operation. -/
def HumanMove (fl : F → F) (rng : Rand) (k : Nat) (targetX targetY : F) :
    List (MouseEvent F) × Nat :=
  let startX : F := Float64 rng k * 100
  let startY : F := Float64 rng (k + 1) * 100
  let cp1X := startX + Float64 rng (k + 2) * (targetX - startX) * (3 / 10) +
    (Float64 rng (k + 3) - 1 / 2) * 100
  let cp1Y := startY + Float64 rng (k + 4) * (targetY - startY) * (3 / 10) +
    (Float64 rng (k + 5) - 1 / 2) * 100
  let cp2X := startX + Float64 rng (k + 6) * (targetX - startX) * (7 / 10) +
    (Float64 rng (k + 7) - 1 / 2) * 100
  let cp2Y := startY + Float64 rng (k + 8) * (targetY - startY) * (7 / 10) +
    (Float64 rng (k + 9) - 1 / 2) * 100
  let over : Bool := decide ((Float64 rng (k + 10) : F) > 7 / 10)
  let overshootX := if over then targetX + (Float64 rng (k + 11) - 1 / 2) * 20 else targetX
  let overshootY := if over then targetY + (Float64 rng (k + 12) - 1 / 2) * 20 else targetY
  let k1 := if over then k + 13 else k + 11
  let steps := Intn rng k1 30 + 40
  let curve := curveLoop rng startX startY cp1X cp1Y cp2X cp2Y overshootX overshootY
    steps (steps + 1) (k1 + 1)
  let micro : List (MouseEvent F) × Nat :=
    if (Float64 rng curve.2 : F) > 6 / 10 then
      microLoop fl rng targetX targetY 4 0 (curve.2 + 1)
    else ([], curve.2 + 1)
  (curve.1 ++ micro.1 ++ [MouseEvent.moveTo targetX targetY], micro.2)

end Mouse

/-! ## stealth/typing.go -/

/-- What `HumanType` does to the element and the clock. -/
inductive KeyEvent where
  /-- The call `el.MustInput(string(c))`: one character is emitted. -/
  | input (c : Char)
  /-- The call `el.MustType(input.Backspace)`. -/
  | backspace
  /-- The call `time.Sleep(d)`. -/
  | sleep (d : Duration)
  deriving DecidableEq, Repr

/-- The key events of a trace: its emissions and backspaces, without the sleeps. -/
def keyEvents : List KeyEvent → List KeyEvent
  | [] => []
  | KeyEvent.sleep _ :: rest => keyEvents rest
  | e :: rest => e :: keyEvents rest

/-- The number of character emissions of a trace. -/
def emissions : List KeyEvent → Nat
  | [] => 0
  | KeyEvent.input _ :: rest => emissions rest + 1
  | _ :: rest => emissions rest

/-- The content of the field after a trace is replayed on content `field`: an emission
appends its character, Backspace deletes the last character. -/
def replay (field : List Char) : List KeyEvent → List Char
  | [] => field
  | KeyEvent.input c :: rest => replay (field ++ [c]) rest
  | KeyEvent.backspace :: rest => replay field.dropLast rest
  | KeyEvent.sleep _ :: rest => replay field rest

/-- `isSpecialChar(char)`. -/
def isSpecialChar (char : Char) : Bool :=
  char == '@' || char == '#' || char == '$' || char == '%' ||
    char == '&' || char == '*' || char == '(' || char == ')' ||
    char == '_' || char == '+' || char == '=' || char == '!' ||
    char == '?' || char == '.' || char == ','

/-- `getTypingDelay(char, index, totalLength)` with its first draw at call `k`. -/
def getTypingDelay (rng : Rand) (k : Nat) (char : Char) (index totalLength : Int) :
    Duration × Nat :=
  let baseDelay0 : Int := (Intn rng k 100 : Int) + 60
  let k0 := k + 1
  let start : Bool := decide (index < 3)
  let baseDelay1 := if start then baseDelay0 + ((Intn rng k0 80 : Int) + 40) else baseDelay0
  let k1 := if start then k0 + 1 else k0
  let space : Bool := char == ' '
  let baseDelay2 := if space then baseDelay1 + ((Intn rng k1 60 : Int) + 30) else baseDelay1
  let k2 := if space then k1 + 1 else k1
  let flow : Bool := decide (index > 3) && decide (index < totalLength - 3) && (char != ' ')
  let baseDelay3 := if flow then baseDelay2 - (Intn rng k2 30 : Int) else baseDelay2
  let k3 := if flow then k2 + 1 else k2
  let special : Bool := isSpecialChar char
  let baseDelay4 := if special then baseDelay3 + ((Intn rng k3 150 : Int) + 100) else baseDelay3
  let k4 := if special then k3 + 1 else k3
  (baseDelay4 * Millisecond, k4)

/-- The QWERTY adjacency map of `getAdjacentKey`; `none` for a key outside the map. -/
def adjacency : Char → Option (List Char)
  | 'a' => some ['q', 's', 'z']
  | 'b' => some ['v', 'g', 'h', 'n']
  | 'c' => some ['x', 'd', 'f', 'v']
  | 'd' => some ['s', 'e', 'r', 'f', 'c', 'x']
  | 'e' => some ['w', 'r', 'd', 's']
  | 'f' => some ['d', 'r', 't', 'g', 'v', 'c']
  | 'g' => some ['f', 't', 'y', 'h', 'b', 'v']
  | 'h' => some ['g', 'y', 'u', 'j', 'n', 'b']
  | 'i' => some ['u', 'o', 'k', 'j']
  | 'j' => some ['h', 'u', 'i', 'k', 'm', 'n']
  | 'k' => some ['j', 'i', 'o', 'l', 'm']
  | 'l' => some ['k', 'o', 'p']
  | 'm' => some ['n', 'j', 'k']
  | 'n' => some ['b', 'h', 'j', 'm']
  | 'o' => some ['i', 'p', 'l', 'k']
  | 'p' => some ['o', 'l']
  | 'q' => some ['w', 'a']
  | 'r' => some ['e', 't', 'f', 'd']
  | 's' => some ['a', 'w', 'e', 'd', 'x', 'z']
  | 't' => some ['r', 'y', 'g', 'f']
  | 'u' => some ['y', 'i', 'j', 'h']
  | 'v' => some ['c', 'f', 'g', 'b']
  | 'w' => some ['q', 'e', 's', 'a']
  | 'x' => some ['z', 's', 'd', 'c']
  | 'y' => some ['t', 'u', 'h', 'g']
  | 'z' => some ['a', 's', 'x']
  | _ => none

/-- The fallback alphabet of `getAdjacentKey`. -/
def alternatives : List Char := "abcdefghijklmnopqrstuvwxyz".toList

/-- `getAdjacentKey(char)` with its draw at call `k`.  `[]rune(string(char))` is the
one-element slice holding `char` itself, so `lower[0]` is `char`. -/
def getAdjacentKey (rng : Rand) (k : Nat) (char : Char) : Char × Nat :=
  match adjacency char with
  | some adjacent =>
    if adjacent.length > 0 then (adjacent.getD (Intn rng k adjacent.length) char, k + 1)
    else (alternatives.getD (Intn rng k alternatives.length) char, k + 1)
  | none => (alternatives.getD (Intn rng k alternatives.length) char, k + 1)

/-- The loop `for i := 0; i < len(runes); i++` of `HumanType` on the runes still to type,
at index `i` of a text of `total` runes, with the next draw at call `k`. -/
def typeLoop (rng : Rand) (total : Nat) : (runes : List Char) → (i : Nat) → (k : Nat) →
    List KeyEvent × Nat
  | [], _, k => ([], k)
  | c :: rest, i, k =>
    let typo : Bool := decide ((Float64 rng k : ℚ) < 5 / 100) && decide (i > 0)
    let wrong := getAdjacentKey rng (k + 1) c
    let keys : List KeyEvent :=
      if typo then
        [KeyEvent.input wrong.1,
          KeyEvent.sleep (((Intn rng wrong.2 150 + 100 : Nat) : Int) * Millisecond),
          KeyEvent.backspace,
          KeyEvent.sleep (((Intn rng (wrong.2 + 1) 200 + 150 : Nat) : Int) * Millisecond),
          KeyEvent.input c]
      else [KeyEvent.input c]
    let k1 := if typo then wrong.2 + 2 else k + 1
    let delay := getTypingDelay rng k1 c i total
    let think : Bool :=
      decide ((Float64 rng delay.2 : ℚ) < 15 / 100) && decide ((i : Int) < (total : Int) - 1)
    let pauses : List KeyEvent :=
      if think then
        [KeyEvent.sleep delay.1,
          KeyEvent.sleep (((Intn rng (delay.2 + 1) 400 + 300 : Nat) : Int) * Millisecond)]
      else [KeyEvent.sleep delay.1]
    let k2 := if think then delay.2 + 2 else delay.2 + 1
    let tail := typeLoop rng total rest (i + 1) k2
    (keys ++ pauses ++ tail.1, tail.2)

/-- `HumanType(el, text)` on the runes of `text`, with its first draw at call `k`. -/
def HumanType (rng : Rand) (k : Nat) (text : List Char) : List KeyEvent × Nat :=
  typeLoop rng text.length text 0 k

/-! ## stealth/scroll.go

The scroll deltas are `float64` values: every conversion and every operation is rounded
with `roundFloat64`. -/

/-- The loop `for i := 0; i < chunks; i++` of `HumanScroll`, with `remaining` iterations
left (so `i = chunks - remaining`) and the next draw at call `k`. -/
def humanScrollLoop (rng : Rand) (direction : ℚ) (scrollDistance chunks : Nat) :
    (remaining : Nat) → (k : Nat) → List (MouseEvent ℚ) × Nat
  | 0, k => ([], k)
  | remaining + 1, k =>
    let i := chunks - (remaining + 1)
    let chunkSize : ℚ :=
      roundFloat64 (roundFloat64 (scrollDistance : ℚ) / roundFloat64 (chunks : ℚ))
    let chunkSize' : ℚ :=
      if (i : Int) = 0 ∨ (i : Int) = (chunks : Int) - 1 then
        roundFloat64 (chunkSize * roundFloat64 (7 / 10))
      else chunkSize
    let delay := Intn rng k 150 + 80
    let last : Bool := decide ((i : Int) = (chunks : Int) - 1)
    let delay' := if last then delay + (Intn rng (k + 1) 300 + 200) else delay
    let k' := if last then k + 2 else k + 1
    let rest := humanScrollLoop rng direction scrollDistance chunks remaining k'
    (MouseEvent.scroll 0 (roundFloat64 (direction * chunkSize')) 1 ::
      MouseEvent.sleep ((delay' : Int) * Millisecond) :: rest.1, rest.2)

/-- `HumanScroll(page)` with its first draw at call `k`: the trace of scrolls and sleeps,
and the call counter afterwards. -/
def HumanScroll (rng : Rand) (k : Nat) : List (MouseEvent ℚ) × Nat :=
  let scrollDistance0 := Intn rng k 500 + 200
  let up : Bool := decide ((Float64 rng (k + 1) : ℚ) < roundFloat64 (15 / 100))
  let direction : ℚ := if up then -1 else 1
  let scrollDistance := if up then Intn rng (k + 2) 200 + 100 else scrollDistance0
  let k1 := if up then k + 3 else k + 2
  let chunks := Intn rng k1 4 + 3
  let loop := humanScrollLoop rng direction scrollDistance chunks chunks (k1 + 1)
  if (Float64 rng loop.2 : ℚ) < roundFloat64 (3 / 10) then
    (loop.1 ++
      [MouseEvent.sleep (((Intn rng (loop.2 + 1) 400 + 300 : Nat) : Int) * Millisecond),
        MouseEvent.scroll 0
          (roundFloat64 (direction * roundFloat64 ((Intn rng (loop.2 + 2) 50 + 20 : Nat) : ℚ)))
          1],
      loop.2 + 3)
  else (loop.1, loop.2 + 1)

/-- The bytes of an ASCII string literal. -/
def bytes (s : String) : List Nat := s.toList.map Char.toNat

/-- The loop `for i := 0; i <= len(s)-len(substr); i++` of `findSubstring`, at index `i`.
`fuel` bounds the number of tests of the loop condition. -/
def findSubstringLoop {α : Type} [DecidableEq α] (s substr : List α) :
    (fuel : Nat) → (i : Nat) → Bool
  | 0, _ => false
  | fuel + 1, i =>
    if (i : Int) ≤ (s.length : Int) - (substr.length : Int) then
      if (s.drop i).take substr.length = substr then true
      else findSubstringLoop s substr fuel (i + 1)
    else false

/-- `findSubstring(s, substr)`; the loop condition is tested at most `len(s) + 2` times. -/
def findSubstring {α : Type} [DecidableEq α] (s substr : List α) : Bool :=
  findSubstringLoop s substr (s.length + 2) 0

/-- `contains(s, substr)`. -/
def contains {α : Type} [DecidableEq α] (s substr : List α) : Bool :=
  decide (s.length ≥ substr.length) &&
    (decide (s = substr) || decide (substr.length = 0) || findSubstring s substr)

/-- Go's slice expression `s[lo:hi]` on a string: the bytes from `lo` up to `hi`, and a
run-time panic (`none`) unless `0 ≤ lo ≤ hi ≤ len(s)`. -/
def sliceChecked {α : Type} (s : List α) (lo hi : Int) : Option (List α) :=
  if 0 ≤ lo ∧ lo ≤ hi ∧ hi ≤ (s.length : Int) then
    some ((s.drop lo.toNat).take (hi - lo).toNat)
  else none

/-- The loop of `findSubstring` with the bounds check of the slice expression
`s[i:i+len(substr)]` made explicit: `none` when the slice is out of range. -/
def findSubstringLoopChecked {α : Type} [DecidableEq α] (s substr : List α) :
    (fuel : Nat) → (i : Nat) → Option Bool
  | 0, _ => some false
  | fuel + 1, i =>
    if (i : Int) ≤ (s.length : Int) - (substr.length : Int) then
      match sliceChecked s (i : Int) ((i : Int) + (substr.length : Int)) with
      | none => none
      | some w =>
        if w = substr then some true else findSubstringLoopChecked s substr fuel (i + 1)
    else some false

/-- `findSubstring(s, substr)` with the bounds checks explicit. -/
def findSubstringChecked {α : Type} [DecidableEq α] (s substr : List α) : Option Bool :=
  findSubstringLoopChecked s substr (s.length + 2) 0

/-- What the detectors read from the page at one moment: the answer of
`page.MustHas(selector)` for every selector, and the bytes of `page.MustHTML()`. -/
structure Page where
  /-- The answer of `page.MustHas(selector)`. -/
  has : String → Bool
  /-- The markup `page.MustHTML()`. -/
  html : List Nat

/-- The `captchaSelectors` of `detectCaptcha`. -/
def captchaSelectors : List String :=
  ["iframe[src*='captcha']", "iframe[src*='recaptcha']", "iframe[title*='recaptcha']",
    "#captcha", ".g-recaptcha", "[data-sitekey]", "#recaptcha", "iframe[src*='hcaptcha']",
    ".h-captcha"]

/-- The `captchaTexts` of `detectCaptcha`. -/
def captchaTexts : List String :=
  ["I'm not a robot", "Please verify you are human", "Security check",
    "Complete the security check"]

/-- `detectCaptcha(page)`: the first loop returns at the first selector present, the
second at the first phrase contained in the markup. -/
def detectCaptcha (page : Page) : Bool :=
  if captchaSelectors.any (fun selector => page.has selector) then true
  else if captchaTexts.any (fun text => contains page.html (bytes text)) then true
  else false

/-- `CheckForSecurityChallenge(page)`: the pair `(challengeType, detected)`. -/
def CheckForSecurityChallenge (page : Page) : String × Bool :=
  if page.has "input[name=pin]" || page.has "#input__phone_verification_pin" then
    ("PIN_VERIFICATION", true)
  else if detectCaptcha page then ("CAPTCHA", true)
  else if page.has "input[name='verification-code']" || page.has "#email-pin-challenge" then
    ("EMAIL_VERIFICATION", true)
  else if contains page.html (bytes "unusual activity") ||
      contains page.html (bytes "suspicious activity") then
    ("SUSPICIOUS_ACTIVITY", true)
  else ("", false)

/-! ## stealth/captcha.go: errors, session store, CAPTCHA wait, rate limiter -/

/-- The error values returned by the packages `stealth` and `auth`, one per message. -/
inductive Error where
  /-- Message "failed to marshal cookies". -/
  | marshalCookies
  /-- Message "failed to write session file". -/
  | writeSessionFile
  /-- Message "session file not found". -/
  | sessionFileNotFound
  /-- Message "failed to parse session file". -/
  | parseSessionFile
  /-- Message "no cookies found in session file". -/
  | noCookies
  /-- Message "failed to set cookies". -/
  | setCookies
  /-- Message "CAPTCHA solve timeout after ...". -/
  | captchaTimeout
  /-- Message "credentials not found in environment variables". -/
  | credentialsNotFound
  /-- Message "email input not found". -/
  | emailInputNotFound
  /-- Message "password input not found". -/
  | passwordInputNotFound
  /-- Message "login button not found". -/
  | loginButtonNotFound
  /-- Message "account flagged for suspicious activity - manual review required". -/
  | accountFlagged
  /-- Message "login failed - still on login page". -/
  | stillOnLoginPage
  deriving DecidableEq, Repr

/-- How a call that returns a Go `error` ends. -/
inductive Outcome where
  /-- The call returns `err`; `none` is Go's `nil`. -/
  | returned (err : Option Error)
  /-- The call is still waiting for a ticker tick after the last recorded one. -/
  | waiting
  deriving DecidableEq, Repr

/-- The fields of `proto.NetworkCookie` that the session store reads, and two it drops. -/
structure NetworkCookie where
  Name : String
  Value : String
  Domain : String
  Path : String
  Expires : ℚ
  Size : Int
  HTTPOnly : Bool
  Secure : Bool
  Session : Bool
  SameSite : String
  deriving DecidableEq, Repr

/-- The fields of `proto.NetworkCookieParam` that `LoadSession` fills. -/
structure NetworkCookieParam where
  Name : String
  Value : String
  Domain : String
  Path : String
  Secure : Bool
  HTTPOnly : Bool
  SameSite : String
  Expires : ℚ
  deriving DecidableEq, Repr

/-- The calls `json.MarshalIndent(cookies, "", "  ")` and `json.Unmarshal(data, &cookies)`
on file contents of type `D`; `none` is a returned error. -/
structure JsonCodec (D : Type) where
  /-- The call `json.MarshalIndent`. -/
  marshalIndent : List NetworkCookie → Option D
  /-- The call `json.Unmarshal`. -/
  unmarshal : D → Option (List NetworkCookie)

/-- The state of the session file on disk. -/
inductive FileState (D : Type) where
  /-- No such file: `os.Stat` and `os.ReadFile` fail. -/
  | absent
  /-- The file exists, `os.Stat` succeeds, and `os.ReadFile` fails. -/
  | unreadable
  /-- The file exists and holds `data`. -/
  | content (data : D)
  deriving DecidableEq, Repr

/-- The calls that `Login` and the session store issue to the browser, the operating
system and the other `stealth` procedures, one constructor per call site kind. -/
inductive Call where
  /-- The call `os.Stat(sm.sessionFile)`. -/
  | statSessionFile
  /-- The call `os.ReadFile(sm.sessionFile)`. -/
  | readSessionFile
  /-- The call `page.SetCookies(cookieParams)`. -/
  | setCookies (cookieParams : List NetworkCookieParam)
  /-- The call `os.Remove(sm.sessionFile)`. -/
  | removeSessionFile
  /-- The call `page.MustCookies()`. -/
  | mustCookies
  /-- The call `os.WriteFile(sm.sessionFile, data, 0644)`. -/
  | writeSessionFile
  /-- The call `page.MustNavigate(url)`. -/
  | navigate (url : String)
  /-- The call `time.Sleep(stealth.RandomizedTimingDelay(category))`. -/
  | sleepRandomized (category : String)
  /-- The call `time.Sleep(stealth.SmartDelay(stealth.RandomizedTimingDelay(category)))`. -/
  | sleepSmartRandomized (category : String)
  /-- The call `time.Sleep(stealth.SmartDelay(d))`. -/
  | sleepSmart (d : Duration)
  /-- The call `time.Sleep(d)`. -/
  | sleep (d : Duration)
  /-- The call `time.Sleep(time.Duration(rand.Intn(n)+base) * time.Millisecond)`. -/
  | sleepIntn (n base : Nat)
  /-- The call `stealth.RandomPageScroll(page)`. -/
  | randomPageScroll
  /-- The call `os.Getenv(name)`. -/
  | getenv (name : String)
  /-- The call `page.Element(selector)`. -/
  | element (selector : String)
  /-- The call `page.MustHas(selector)`. -/
  | mustHas (selector : String)
  /-- The call `stealth.RandomMouseWander(page)`. -/
  | randomMouseWander
  /-- The call `MustShape()` on the element found for `selector`. -/
  | mustShape (selector : String)
  /-- The call `stealth.HumanMove` to a point of the box of the element of `selector`. -/
  | humanMove (selector : String)
  /-- The call `stealth.HumanHover` at that point, for `rand.Intn(n)+base` milliseconds. -/
  | humanHover (selector : String) (n base : Nat)
  /-- The call `MustClick()` on the element found for `selector`. -/
  | mustClick (selector : String)
  /-- The call `stealth.HumanType(element, text)` on the element found for `selector`. -/
  | humanType (selector : String) (text : String)
  /-- The call `stealth.CheckForSecurityChallenge(page)`. -/
  | checkForSecurityChallenge
  /-- The call `stealth.WaitForManualCaptchaSolve(page, timeout)`. -/
  | waitForManualCaptchaSolve (timeout : Duration)
  deriving DecidableEq, Repr

/-- `SessionExists()`: `os.Stat` returns no error. -/
def SessionExists {D : Type} (file : FileState D) : Bool :=
  match file with
  | FileState.absent => false
  | _ => true

/-- `SaveSession(page)` for the cookies `page.MustCookies()` returns: the calls issued,
the returned error and the session file afterwards.  `writeOk` tells whether
`os.WriteFile` succeeds. -/
def SaveSession {D : Type} (codec : JsonCodec D) (cookies : List NetworkCookie)
    (writeOk : Bool) (file : FileState D) : List Call × Option Error × FileState D :=
  match codec.marshalIndent cookies with
  | none => ([Call.mustCookies], some Error.marshalCookies, file)
  | some data =>
    if writeOk then
      ([Call.mustCookies, Call.writeSessionFile], none, FileState.content data)
    else ([Call.mustCookies, Call.writeSessionFile], some Error.writeSessionFile, file)

/-- The conversion of `LoadSession` from a stored cookie to a cookie parameter. -/
def toCookieParam (cookie : NetworkCookie) : NetworkCookieParam :=
  { Name := cookie.Name
    Value := cookie.Value
    Domain := cookie.Domain
    Path := cookie.Path
    Secure := cookie.Secure
    HTTPOnly := cookie.HTTPOnly
    SameSite := cookie.SameSite
    Expires := cookie.Expires }

/-- `LoadSession(page)`: the calls issued and the returned error.  `setCookiesOk` tells
whether `page.SetCookies` succeeds.  The decoded list holds cookies only: a store such as
`[null]`, which decodes to a nil pointer and makes the conversion loop panic, is outside
this definition. -/
def LoadSession {D : Type} (codec : JsonCodec D) (file : FileState D) (setCookiesOk : Bool) :
    List Call × Option Error :=
  match file with
  | FileState.content data =>
    match codec.unmarshal data with
    | none => ([Call.readSessionFile], some Error.parseSessionFile)
    | some cookies =>
      if cookies.length = 0 then ([Call.readSessionFile], some Error.noCookies)
      else
        let cookieParams := cookies.map toCookieParam
        if setCookiesOk then ([Call.readSessionFile, Call.setCookies cookieParams], none)
        else ([Call.readSessionFile, Call.setCookies cookieParams], some Error.setCookies)
  | _ => ([Call.readSessionFile], some Error.sessionFileNotFound)

/-- `DeleteSession()`: the calls issued and the session file afterwards.  `removeOk` tells
whether `os.Remove` succeeds. -/
def DeleteSession {D : Type} (file : FileState D) (removeOk : Bool) :
    List Call × FileState D :=
  if !SessionExists file then ([Call.statSessionFile], file)
  else if removeOk then ([Call.statSessionFile, Call.removeSessionFile], FileState.absent)
  else ([Call.statSessionFile, Call.removeSessionFile], file)

/-- `WaitForManualCaptchaSolve(page, timeout)` on the ticks the ticker delivers: for each
tick the value of `time.Since(start)` and the page at that moment.  Returns how the wait
ends and the number of ticks handled. -/
def WaitForManualCaptchaSolve (timeout : Duration) : List (Duration × Page) → Outcome × Nat
  | [] => (Outcome.waiting, 0)
  | (elapsed, page) :: ticks =>
    if elapsed ≥ timeout then (Outcome.returned (some Error.captchaTimeout), 1)
    else if !detectCaptcha page then (Outcome.returned none, 1)
    else
      let rest := WaitForManualCaptchaSolve timeout ticks
      (rest.1, rest.2 + 1)

/-- Go `time.Time`: nanoseconds since a fixed instant. -/
abbrev Time := Int

/-- The struct `RateLimiter`; `lastAction` is `none` for the zero `time.Time`, and the
map `actionCounts` reads 0 at a missing key. -/
structure RateLimiter where
  lastAction : Option Time
  minInterval : Duration
  actionCounts : String → Int
  resetTime : Time

/-- `NewRateLimiter(minInterval)` when `time.Now()` reads `now`. -/
def NewRateLimiter (now : Time) (minInterval : Duration) : RateLimiter :=
  { lastAction := none
    minInterval := minInterval
    actionCounts := fun _ => 0
    resetTime := now + 24 * Hour }

/-- `RecordAction(actionType)` when the first `time.Now()` reads `now` and the second
one, in the reset branch, reads `now2`. -/
def RateLimiter.RecordAction (r : RateLimiter) (now now2 : Time) (actionType : String) :
    RateLimiter :=
  let r1 : RateLimiter :=
    if now > r.resetTime then
      { r with actionCounts := fun _ => 0, resetTime := now2 + 24 * Hour }
    else r
  { r1 with actionCounts :=
      fun key => if key = actionType then r1.actionCounts actionType + 1
        else r1.actionCounts key }

/-- `GetActionCount(actionType)` when `time.Now()` reads `now`. -/
def RateLimiter.GetActionCount (r : RateLimiter) (now : Time) (actionType : String) : Int :=
  if now > r.resetTime then 0 else r.actionCounts actionType

/-- `CheckLimit(actionType, maxPerDay)` when `time.Now()` reads `now`. -/
def RateLimiter.CheckLimit (r : RateLimiter) (now : Time) (actionType : String)
    (maxPerDay : Int) : Bool :=
  let count := r.GetActionCount now actionType
  if count ≥ maxPerDay then false else true

end stealth

/-! ## auth/login.go -/

namespace auth

open stealth

/-- What the world answers during one run of `Login`. -/
structure World (D : Type) where
  /-- The behaviour of `encoding/json` on cookie lists. -/
  codec : JsonCodec D
  /-- The session file `linkedin_session.json` when `Login` starts. -/
  sessionFile : FileState D
  /-- Whether `page.SetCookies` succeeds. -/
  setCookiesOk : Bool
  /-- Whether `os.Remove` succeeds. -/
  removeOk : Bool
  /-- Whether `os.WriteFile` succeeds. -/
  writeOk : Bool
  /-- The page after the navigation to the feed. -/
  feedPage : Page
  /-- The environment variable `LINKEDIN_EMAIL`. -/
  email : String
  /-- The environment variable `LINKEDIN_PASSWORD`. -/
  password : String
  /-- Whether `page.Element("#username")` finds the element. -/
  usernameFound : Bool
  /-- Whether `page.Element("#password")` finds the element. -/
  passwordFound : Bool
  /-- Whether `page.Element("button[type=submit]")` finds the element. -/
  submitFound : Bool
  /-- The outcome of the test `rand.Float64() > 0.5` before the submit button. -/
  wanderBeforeSubmit : Bool
  /-- The page three seconds after the click on submit. -/
  challengePage : Page
  /-- The ticks delivered during the CAPTCHA wait. -/
  captchaTicks : List (Duration × Page)
  /-- The page at the verification of the login. -/
  verifyPage : Page
  /-- The cookies `page.MustCookies()` at the end. -/
  browserCookies : List NetworkCookie

/-- One run of `Login`: the calls issued in order, how it ends, and the session file
afterwards. -/
structure Run (D : Type) where
  trace : List Call
  outcome : Outcome
  sessionFile : FileState D

/-- The calls of the two tests for the markers of the login page,
`!page.MustHas("input[type=password]") && !page.MustHas("#username")` and
`page.MustHas("input[type=password]") || page.MustHas("#username")`: both operators
evaluate the second call only when the first one answers false. -/
def loginMarkerCalls (page : Page) : List Call :=
  if page.has "input[type=password]" then [Call.mustHas "input[type=password]"]
  else [Call.mustHas "input[type=password]", Call.mustHas "#username"]

/-- Lines 182-190 of `Login`: save the session, log, return nil. -/
def saveAndReturn {D : Type} (w : World D) (file : FileState D) (trace : List Call) : Run D :=
  let save := SaveSession w.codec w.browserCookies w.writeOk file
  { trace := trace ++ save.1, outcome := Outcome.returned none, sessionFile := save.2.2 }

/-- Lines 174-190 of `Login`: the wait for the login to complete and the verification. -/
def verifyLogin {D : Type} (w : World D) (file : FileState D) (trace : List Call) : Run D :=
  let trace1 := trace ++ [Call.sleepSmart (5 * Second)] ++ loginMarkerCalls w.verifyPage
  if w.verifyPage.has "input[type=password]" || w.verifyPage.has "#username" then
    { trace := trace1, outcome := Outcome.returned (some Error.stillOnLoginPage),
      sessionFile := file }
  else saveAndReturn w file trace1

/-- Lines 151-172 of `Login`: the check for security challenges and the `switch`. -/
def handleChallenge {D : Type} (w : World D) (file : FileState D) (trace : List Call) : Run D :=
  let trace1 := trace ++ [Call.checkForSecurityChallenge]
  let challenge := CheckForSecurityChallenge w.challengePage
  if challenge.2 then
    if challenge.1 = "CAPTCHA" then
      let trace2 := trace1 ++ [Call.waitForManualCaptchaSolve (180 * Second)]
      match (WaitForManualCaptchaSolve (180 * Second) w.captchaTicks).1 with
      | Outcome.waiting => { trace := trace2, outcome := Outcome.waiting, sessionFile := file }
      | Outcome.returned (some err) =>
        { trace := trace2, outcome := Outcome.returned (some err), sessionFile := file }
      | Outcome.returned none => verifyLogin w file (trace2 ++ [Call.sleepSmart (5 * Second)])
    else if challenge.1 = "PIN_VERIFICATION" ∨ challenge.1 = "EMAIL_VERIFICATION" then
      verifyLogin w file (trace1 ++ [Call.sleep (120 * Second)])
    else if challenge.1 = "SUSPICIOUS_ACTIVITY" then
      { trace := trace1, outcome := Outcome.returned (some Error.accountFlagged),
        sessionFile := file }
    else verifyLogin w file trace1
  else verifyLogin w file trace1

/-- Lines 72-126 of `Login`: the entry of the email and of the password. -/
def credentialEntryCalls {D : Type} (w : World D) : List Call :=
  [Call.randomMouseWander, Call.sleepRandomized "read",
    Call.mustShape "#username", Call.humanMove "#username",
    Call.humanHover "#username" 300 200, Call.sleepRandomized "think",
    Call.mustClick "#username", Call.sleepRandomized "click",
    Call.humanType "#username" w.email, Call.sleepSmartRandomized "think",
    Call.randomMouseWander,
    Call.mustShape "#password", Call.humanMove "#password",
    Call.humanHover "#password" 200 150, Call.sleepRandomized "think",
    Call.mustClick "#password", Call.sleepRandomized "click",
    Call.humanType "#password" w.password, Call.sleepSmartRandomized "think"] ++
  (if w.wanderBeforeSubmit then [Call.randomMouseWander, Call.sleepIntn 500 300] else [])

/-- Lines 134-149 of `Login`: the move to the submit button, the click and the wait. -/
def submitCalls : List Call :=
  [Call.mustShape "button[type=submit]", Call.humanMove "button[type=submit]",
    Call.humanHover "button[type=submit]" 400 300, Call.sleepRandomized "think",
    Call.mustClick "button[type=submit]", Call.sleep (3 * Second)]

/-- Lines 40-190 of `Login`: the fresh login, entered with the session file `file` after
the calls `trace`. -/
def freshLogin {D : Type} (w : World D) (file : FileState D) (trace : List Call) : Run D :=
  let trace1 := trace ++ [Call.navigate "https://www.linkedin.com/login",
    Call.sleepRandomized "navigate", Call.randomPageScroll,
    Call.getenv "LINKEDIN_EMAIL", Call.getenv "LINKEDIN_PASSWORD"]
  if w.email = "" ∨ w.password = "" then
    { trace := trace1, outcome := Outcome.returned (some Error.credentialsNotFound),
      sessionFile := file }
  else if !w.usernameFound then
    { trace := trace1 ++ [Call.element "#username"],
      outcome := Outcome.returned (some Error.emailInputNotFound), sessionFile := file }
  else if !w.passwordFound then
    { trace := trace1 ++ [Call.element "#username", Call.element "#password"],
      outcome := Outcome.returned (some Error.passwordInputNotFound), sessionFile := file }
  else
    let trace2 := trace1 ++ [Call.element "#username", Call.element "#password"] ++
      credentialEntryCalls w ++ [Call.element "button[type=submit]"]
    if !w.submitFound then
      { trace := trace2, outcome := Outcome.returned (some Error.loginButtonNotFound),
        sessionFile := file }
    else handleChallenge w file (trace2 ++ submitCalls)

/-- `Login(page)`. -/
def Login {D : Type} (w : World D) : Run D :=
  if SessionExists w.sessionFile then
    let load := LoadSession w.codec w.sessionFile w.setCookiesOk
    if load.2 = none then
      let trace1 := [Call.statSessionFile] ++ load.1 ++
        [Call.navigate "https://www.linkedin.com/feed", Call.sleepRandomized "navigate"] ++
        loginMarkerCalls w.feedPage
      if !w.feedPage.has "input[type=password]" && !w.feedPage.has "#username" then
        { trace := trace1, outcome := Outcome.returned none, sessionFile := w.sessionFile }
      else
        let delete := DeleteSession w.sessionFile w.removeOk
        freshLogin w delete.2 (trace1 ++ delete.1)
    else freshLogin w w.sessionFile ([Call.statSessionFile] ++ load.1)
  else freshLogin w w.sessionFile [Call.statSessionFile]

/-- The calls of the session-restore attempt that opens `Login` (lines 20-38): the calls on
the session file, the cookie replay, the navigation to the feed, its delay and the tests of
the login markers. -/
def isRestoreCall : Call → Bool
  | Call.statSessionFile => true
  | Call.readSessionFile => true
  | Call.setCookies _ => true
  | Call.removeSessionFile => true
  | Call.navigate url => decide (url = "https://www.linkedin.com/feed")
  | Call.sleepRandomized _ => true
  | Call.mustHas _ => true
  | _ => false

/-- The calls that look up or act on a control of the login form or move the mouse:
`page.Element`, `MustShape`, `MustClick`, `HumanMove`, `HumanHover`, `RandomMouseWander`
and `HumanType`. -/
def touchesLoginForm : Call → Bool
  | Call.element _ => true
  | Call.randomMouseWander => true
  | Call.mustShape _ => true
  | Call.humanMove _ => true
  | Call.humanHover _ _ _ => true
  | Call.mustClick _ => true
  | Call.humanType _ _ => true
  | _ => false

/-- The calls that `Login` can issue only after the click on submit and the three-second
wait: the challenge check, the CAPTCHA wait, the smart delays and the calls of
`SaveSession`. -/
def isPostSubmitCall : Call → Bool
  | Call.checkForSecurityChallenge => true
  | Call.waitForManualCaptchaSolve _ => true
  | Call.sleepSmart _ => true
  | Call.mustCookies => true
  | Call.writeSessionFile => true
  | _ => false

end auth

/-! ## config/config.go -/

namespace config

/-- The struct `CredentialsConfig`. -/
structure CredentialsConfig where
  Email : String
  Password : String

/-- The field of `SearchConfig` that `Validate` reads. -/
structure SearchConfig where
  MaxProfiles : Int

/-- The fields of `ConnectionConfig` that `Validate` and the request loop read. -/
structure ConnectionConfig where
  MaxRequestsPerDay : Int
  MaxRequestsPerSession : Int
  SendNote : Bool
  NoteTemplates : List String

/-- The fields of `MessagingConfig` that `Validate` and the messaging procedures read. -/
structure MessagingConfig where
  Enabled : Bool
  SendFollowupToNewConnections : Bool
  AutoReplyEnabled : Bool
  AutoReplyTemplates : List String
  FollowupTemplates : List String

/-- The sections of `Config` that `Validate` reads. -/
structure Config where
  Credentials : CredentialsConfig
  Search : SearchConfig
  Connection : ConnectionConfig
  Messaging : MessagingConfig

/-- The errors of `Validate`, one per message. -/
inductive ValidationError where
  /-- Message "credentials are required (set LINKEDIN_EMAIL and LINKEDIN_PASSWORD)". -/
  | credentialsRequired
  /-- Message "search.max_profiles must be greater than 0". -/
  | maxProfiles
  /-- Message "connection.max_requests_per_day must be greater than 0". -/
  | maxRequestsPerDay
  /-- Message "connection.note_templates cannot be empty when send_note is true". -/
  | noteTemplatesEmpty
  /-- Message "messaging.followup_templates cannot be empty when enabled is true". -/
  | followupTemplatesEmpty
  deriving DecidableEq, Repr

/-- `(c *Config) Validate()`; `none` is Go's `nil`. -/
def Config.Validate (c : Config) : Option ValidationError :=
  if c.Credentials.Email = "" ∨ c.Credentials.Password = "" then
    some ValidationError.credentialsRequired
  else if c.Search.MaxProfiles ≤ 0 then some ValidationError.maxProfiles
  else if c.Connection.MaxRequestsPerDay ≤ 0 then some ValidationError.maxRequestsPerDay
  else if c.Connection.NoteTemplates.length = 0 ∧ c.Connection.SendNote = true then
    some ValidationError.noteTemplatesEmpty
  else if c.Messaging.Enabled = true ∧ c.Messaging.FollowupTemplates.length = 0 then
    some ValidationError.followupTemplatesEmpty
  else none

/-- What `os.ReadFile` and `yaml.Unmarshal` make of the file `config/config.yaml`. -/
inductive ConfigFile where
  /-- The call `os.ReadFile` fails. -/
  | unreadable
  /-- The call `yaml.Unmarshal` fails. -/
  | malformed
  /-- The file decodes to `cfg`. -/
  | parsed (cfg : Config)

/-- The errors of `LoadConfig`, one per message. -/
inductive LoadError where
  /-- Message "failed to read config file: ...". -/
  | readFile
  /-- Message "failed to parse config file: ...". -/
  | parseFile
  /-- Message "invalid configuration: ...", which wraps the error of `Validate`. -/
  | invalid (err : ValidationError)
  deriving DecidableEq, Repr

/-- `LoadConfig(filePath)`; `email` and `password` are the values of the environment
variables `LINKEDIN_EMAIL` and `LINKEDIN_PASSWORD`, empty when unset.  The overrides from
`CHROME_BIN` and `PROXY` write fields that `Validate` does not read. -/
def LoadConfig (file : ConfigFile) (email password : String) : Except LoadError Config :=
  match file with
  | ConfigFile.unreadable => Except.error LoadError.readFile
  | ConfigFile.malformed => Except.error LoadError.parseFile
  | ConfigFile.parsed cfg =>
    let cfg1 : Config :=
      if email ≠ "" then { cfg with Credentials := { cfg.Credentials with Email := email } }
      else cfg
    let cfg2 : Config :=
      if password ≠ "" then
        { cfg1 with Credentials := { cfg1.Credentials with Password := password } }
      else cfg1
    match cfg2.Validate with
    | some err => Except.error (LoadError.invalid err)
    | none => Except.ok cfg2

end config

/-! ## messaging/messaging.go: template selection

The two procedures are modelled as far as their control flow decides whether a template
is selected: what the page answers is an input, the texts typed are the output. -/

namespace messaging

open config

/-- How a run of `AutoReplyToMessages` or `SendFollowUps` ends. -/
inductive Run where
  /-- The call returns: the templates typed so far, in order, and the number of messages
  sent. -/
  | returned (typed : List String) (sent : Int)
  /-- A template selection calls `rand.Intn(0)`, which panics. -/
  | selectionPanic
  /-- The delay between messages calls `rand.Intn(n)` with `n ≤ 0`, which panics. -/
  | delayPanic
  deriving DecidableEq, Repr

/-- The expression `templates[rand.Intn(len(templates))]` when the raw draw is `draw`:
`rand.Intn(n)` panics for `n ≤ 0`, so the selection panics (`none`) on an empty list;
otherwise the index `draw % len(templates)` is read. -/
def pickTemplate (templates : List String) (draw : Nat) : Option String :=
  if templates.length ≤ 0 then none else templates[draw % templates.length]?

/-- What the page answers in one iteration of the reply loop of `AutoReplyToMessages`. -/
structure ReplyAttempt where
  /-- The number of unread threads found by the re-query; 0 also when the query fails. -/
  unreadThreads : Nat
  /-- Whether the message input is found. -/
  messageBoxFound : Bool
  /-- The raw draw of the template selection. -/
  draw : Nat
  /-- Whether the send button is found. -/
  sendButtonFound : Bool

/-- The loop `for i := 0; i < maxReplies; i++` of `AutoReplyToMessages`, with `remaining`
iterations left (so `i = maxReplies - remaining`); `delayVariance` is
`cfg.DelayBetweenMessagesMax - cfg.DelayBetweenMessagesMin`. -/
def replyLoop (cfg : MessagingConfig) (delayVariance : Int) (page : Nat → ReplyAttempt)
    (maxReplies : Nat) : (remaining : Nat) → (typed : List String) → (repliesSent : Int) → Run
  | 0, typed, repliesSent => Run.returned typed repliesSent
  | remaining + 1, typed, repliesSent =>
    let a := page (maxReplies - (remaining + 1))
    if a.unreadThreads = 0 then Run.returned typed repliesSent
    else if a.messageBoxFound = false then
      replyLoop cfg delayVariance page maxReplies remaining typed repliesSent
    else
      match pickTemplate cfg.AutoReplyTemplates a.draw with
      | none => Run.selectionPanic
      | some template =>
        if a.sendButtonFound = false then
          replyLoop cfg delayVariance page maxReplies remaining (typed ++ [template]) repliesSent
        else if delayVariance ≤ 0 then Run.delayPanic
        else
          replyLoop cfg delayVariance page maxReplies remaining (typed ++ [template])
            (repliesSent + 1)

/-- `AutoReplyToMessages(page, cfg)`: `maxAutoRepliesPerSession` and `delayVariance` are
read from `cfg`, `unreadAtStart` is the number of unread threads found by the first query
(0 also when it fails) and `page i` is what iteration `i` of the loop finds. -/
def AutoReplyToMessages (cfg : MessagingConfig) (maxAutoRepliesPerSession delayVariance : Int)
    (unreadAtStart : Nat) (page : Nat → ReplyAttempt) : Run :=
  if cfg.AutoReplyEnabled = false then Run.returned [] 0
  else if unreadAtStart = 0 then Run.returned [] 0
  else
    let maxReplies : Int :=
      if (unreadAtStart : Int) < maxAutoRepliesPerSession then (unreadAtStart : Int)
      else maxAutoRepliesPerSession
    replyLoop cfg delayVariance page maxReplies.toNat maxReplies.toNat [] 0

/-- What the page and the database answer for one profile link of `SendFollowUps`. -/
structure FollowUpAttempt where
  /-- Whether the link has an `href` attribute that contains "/in/". -/
  hrefIsProfile : Bool
  /-- Whether `cfg.SkipAlreadyMessaged` is set and the database knows the profile as
  messaged. -/
  alreadyMessaged : Bool
  /-- Whether the Message button is found. -/
  messageButtonFound : Bool
  /-- Whether the message input is found. -/
  messageBoxFound : Bool
  /-- The raw draw of the template selection. -/
  draw : Nat
  /-- Whether the Send button is found. -/
  sendButtonFound : Bool

/-- The loop `for _, profile := range profiles` of `SendFollowUps`. -/
def followUpLoop (cfg : MessagingConfig) (maxMessages delayVariance : Int) :
    List FollowUpAttempt → (typed : List String) → (messagesSent : Int) → Run
  | [], typed, messagesSent => Run.returned typed messagesSent
  | a :: rest, typed, messagesSent =>
    if messagesSent ≥ maxMessages then Run.returned typed messagesSent
    else if a.hrefIsProfile = false then
      followUpLoop cfg maxMessages delayVariance rest typed messagesSent
    else if a.alreadyMessaged = true then
      followUpLoop cfg maxMessages delayVariance rest typed messagesSent
    else if a.messageButtonFound = false then
      followUpLoop cfg maxMessages delayVariance rest typed messagesSent
    else if a.messageBoxFound = false then
      followUpLoop cfg maxMessages delayVariance rest typed messagesSent
    else
      match pickTemplate cfg.FollowupTemplates a.draw with
      | none => Run.selectionPanic
      | some template =>
        let messagesSent' := if a.sendButtonFound = true then messagesSent + 1 else messagesSent
        if delayVariance ≤ 0 then Run.delayPanic
        else followUpLoop cfg maxMessages delayVariance rest (typed ++ [template]) messagesSent'

/-- `SendFollowUps(page, db, cfg)`: `maxMessagesPerSession` and `delayVariance` are read
from `cfg`; `profiles` is `none` when the query for the profile links fails (the call
then returns an error) and the list of links otherwise. -/
def SendFollowUps (cfg : MessagingConfig) (maxMessagesPerSession delayVariance : Int)
    (profiles : Option (List FollowUpAttempt)) : Run :=
  if cfg.Enabled = false ∨ cfg.SendFollowupToNewConnections = false then Run.returned [] 0
  else
    match profiles with
    | none => Run.returned [] 0
    | some links => followUpLoop cfg maxMessagesPerSession delayVariance links [] 0

end messaging

/-! ## cmd/main.go: the start of `main` and the connection-request phase -/

namespace cmd

open stealth config

/-- `os.Setenv(key, value)` for one of the two keys of `main`: the value of the variable
after the call, `old` being its value before.  The call returns an error and leaves the
variable as it was when `value` holds a NUL byte; `main` discards the returned error. -/
def Setenv (old value : String) : String :=
  if value.data.any (fun c => c.toNat = 0) then old else value

/-- What the world answers from the start of `main` to the return of `Login`. -/
structure StartWorld (D : Type) where
  /-- The file `config/config.yaml`. -/
  configFile : ConfigFile
  /-- The environment variable `LINKEDIN_EMAIL` when the program starts, empty when
  unset. -/
  envEmail : String
  /-- The environment variable `LINKEDIN_PASSWORD` when the program starts, empty when
  unset. -/
  envPassword : String
  /-- Whether `storage.InitDB` succeeds. -/
  dbOk : Bool
  /-- Whether `browser.NewBrowser` finds a browser binary and returns. -/
  browserOk : Bool
  /-- What the session file and the browser answer during `Login`; the fields `email` and
  `password` are not read, `Login` gets the environment that `main` leaves. -/
  login : auth.World D

/-- How `main` gets on up to the return of `Login` (lines 20-69). -/
inductive Start (D : Type) where
  /-- The call `log.Fatalf("Failed to load config: %v", err)`. -/
  | fatalLoadConfig (err : LoadError)
  /-- The call `log.Fatal` of line 41, "LinkedIn credentials not found". -/
  | fatalCredentials
  /-- The call `log.Fatalf("Failed to initialize storage: %v", err)`. -/
  | fatalStorage
  /-- The browser does not start: `browser.NewBrowser` does not return. -/
  | fatalBrowser
  /-- The browser and the page exist and `Login(page)` has run. -/
  | login (run : auth.Run D)

/-- Lines 20-69 of `main`: the configuration, the credentials, the storage, the browser
and the call of `Login`.  The rate limiter is new, so `WaitIfNeeded` returns at once. -/
def main {D : Type} (w : StartWorld D) : Start D :=
  match LoadConfig w.configFile w.envEmail w.envPassword with
  | Except.error err => Start.fatalLoadConfig err
  | Except.ok cfg =>
    let email := if w.envEmail ≠ "" then w.envEmail else cfg.Credentials.Email
    let password := if w.envPassword ≠ "" then w.envPassword else cfg.Credentials.Password
    if email = "" ∨ password = "" then Start.fatalCredentials
    else if !w.dbOk then Start.fatalStorage
    else if !w.browserOk then Start.fatalBrowser
    else
      Start.login (auth.Login
        { w.login with
          email := Setenv w.envEmail email
          password := Setenv w.envPassword password })

/-- What the world answers for one found profile in the request loop of `main`. -/
structure RequestAttempt where
  /-- The answer of `storage.IsProfileProcessed(db, profileURL)`. -/
  processed : Bool
  /-- The clock read by `CheckLimit`. -/
  checkTime : Time
  /-- Whether `connect.SendConnectionRequest` returns an error. -/
  sendFails : Bool
  /-- The clock read by `RecordAction`. -/
  recordTime : Time
  /-- The second clock reading of `RecordAction`, in its reset branch. -/
  recordTime2 : Time

/-- The loop `for _, profileURL := range profiles` of phase 5 of `main`, from the state
`(connectionsSent, rateLimiter)`; `variance` is
`cfg.Connection.DelayBetweenRequestsMax - cfg.Connection.DelayBetweenRequestsMin`, and a
panic of `rand.Intn(variance)` ends the run in the state reached. -/
def requestLoop (cfg : Config) (variance : Int) :
    List RequestAttempt → (connectionsSent : Int) → RateLimiter → Int × RateLimiter
  | [], connectionsSent, rateLimiter => (connectionsSent, rateLimiter)
  | a :: rest, connectionsSent, rateLimiter =>
    if connectionsSent ≥ cfg.Connection.MaxRequestsPerSession then (connectionsSent, rateLimiter)
    else if a.processed = true then requestLoop cfg variance rest connectionsSent rateLimiter
    else if rateLimiter.CheckLimit a.checkTime "connection_request"
        cfg.Connection.MaxRequestsPerDay = false then (connectionsSent, rateLimiter)
    else if a.sendFails = true then requestLoop cfg variance rest connectionsSent rateLimiter
    else
      let rateLimiter' :=
        rateLimiter.RecordAction a.recordTime a.recordTime2 "connection_request"
      if variance ≤ 0 then (connectionsSent + 1, rateLimiter')
      else requestLoop cfg variance rest (connectionsSent + 1) rateLimiter'

/-- Phase 5 of `main`: the limit check at clock reading `now`, then the loop over the
found profiles from `connectionsSent = 0`. -/
def sendConnectionRequests (cfg : Config) (variance : Int) (rateLimiter : RateLimiter)
    (now : Time) (profiles : List RequestAttempt) : Int × RateLimiter :=
  if rateLimiter.CheckLimit now "connection_request" cfg.Connection.MaxRequestsPerDay = false
  then (0, rateLimiter)
  else requestLoop cfg variance profiles 0 rateLimiter

end cmd

/-! ## Theorems -/

theorem timingProfile_variance_pos (a : String) : 0 < (stealth.timingProfile a).2 := by
  unfold stealth.timingProfile
  split_ifs <;> decide

/-- C1: for every action-category string and every outcome of the random draw,
`RandomizedTimingDelay` is a whole number `ms` of milliseconds with
`base ≤ ms ≤ base + variance`, where `(base, variance)` is the table entry of the
category and `(400, 600)` for every other string (the empty one included). -/
theorem C1_randomizedTimingDelay_within_window (rng : Rand) (k : Nat) (actionType : String) :
    (stealth.timingProfile "click" = (300, 400) ∧
      stealth.timingProfile "type_char" = (80, 120) ∧
      stealth.timingProfile "think" = (800, 1200) ∧
      stealth.timingProfile "read" = (1500, 2000) ∧
      stealth.timingProfile "navigate" = (2000, 3000) ∧
      stealth.timingProfile "scroll" = (500, 800) ∧
      stealth.timingProfile "" = (400, 600) ∧
      (actionType ∉ ["click", "type_char", "think", "read", "navigate", "scroll"] →
        stealth.timingProfile actionType = (400, 600))) ∧
    ∃ ms : Nat,
      (stealth.RandomizedTimingDelay rng k actionType).1 = (ms : Int) * Millisecond ∧
      (stealth.timingProfile actionType).1 ≤ ms ∧
      ms ≤ (stealth.timingProfile actionType).1 + (stealth.timingProfile actionType).2 ∧
      (actionType ∉ ["click", "type_char", "think", "read", "navigate", "scroll"] →
        400 ≤ ms ∧ ms ≤ 1000) := by
  have hdef : actionType ∉ ["click", "type_char", "think", "read", "navigate", "scroll"] →
      stealth.timingProfile actionType = (400, 600) := by
    intro h
    simp only [List.mem_cons, List.mem_singleton, List.not_mem_nil, not_or, or_false] at h
    obtain ⟨h1, h2, h3, h4, h5, h6⟩ := h
    simp [stealth.timingProfile, h1, h2, h3, h4, h5, h6]
  refine ⟨⟨by decide, by decide, by decide, by decide, by decide, by decide, by decide, hdef⟩,
    (stealth.timingProfile actionType).1 +
      Intn rng k (stealth.timingProfile actionType).2, ?_, ?_, ?_, ?_⟩
  · simp [stealth.RandomizedTimingDelay]
  · omega
  · have := Nat.mod_lt (rng k) (timingProfile_variance_pos actionType)
    unfold Intn
    omega
  · intro h
    have hp := hdef h
    have := Nat.mod_lt (rng k) (timingProfile_variance_pos actionType)
    unfold Intn
    rw [hp] at this ⊢
    simp only at this ⊢
    omega

theorem waypoints_append {F : Type} (a b : List (stealth.MouseEvent F)) :
    stealth.waypoints (a ++ b) = stealth.waypoints a ++ stealth.waypoints b := by
  induction a with
  | nil => rfl
  | cons e rest ih => cases e <;> simp [stealth.waypoints, ih]

/-- The fuel of `microLoop` is enough: from index `j`, once `j + fuel ≥ 3` one more unit
of fuel changes nothing, so the four tests granted by `HumanMove` are never exhausted. -/
theorem microLoop_fuel_enough {F : Type} [LinearOrderedField F] (fl : F → F)
    (rng : Rand) (x y : F) :
    ∀ fuel j k : Nat, 3 ≤ j + fuel →
      stealth.microLoop fl rng x y (fuel + 2) j k = stealth.microLoop fl rng x y (fuel + 1) j k := by
  intro fuel
  induction fuel with
  | zero =>
    intro j k h
    have hr : Intn rng k 3 < 3 := Nat.mod_lt _ (by decide)
    have hj : ¬ j < Intn rng k 3 + 1 := by omega
    simp only [stealth.microLoop, hj, if_false]
  | succ fuel ih =>
    intro j k h
    rw [stealth.microLoop, stealth.microLoop.eq_def fl rng x y (fuel + 1 + 1) j k]
    by_cases hj : j < Intn rng k 3 + 1
    · simp only [hj, if_true]
      rw [ih (j + 1) (k + 4) (by omega)]
    · simp only [hj, if_false]

/-- C2: for every target `(x, y)` and every outcome of the random draws, the last
mouse-move waypoint issued by `HumanMove` is exactly `(x, y)`; moreover that move is the
last event of the whole trace. -/
theorem C2_humanMove_ends_at_target {F : Type} [LinearOrderedField F] (fl : F → F)
    (rng : Rand) (k : Nat)
    (x y : F) :
    (stealth.waypoints (stealth.HumanMove fl rng k x y).1).getLast? = some (x, y) ∧
    (stealth.HumanMove fl rng k x y).1.getLast? = some (stealth.MouseEvent.moveTo x y) := by
  obtain ⟨body, hbody⟩ : ∃ body, (stealth.HumanMove fl rng k x y).1 =
      body ++ [stealth.MouseEvent.moveTo x y] := ⟨_, rfl⟩
  rw [hbody, waypoints_append]
  constructor
  · simp only [stealth.waypoints, List.getLast?_concat]
  · simp only [List.getLast?_concat]

theorem keyEvents_append (a b : List stealth.KeyEvent) :
    stealth.keyEvents (a ++ b) = stealth.keyEvents a ++ stealth.keyEvents b := by
  induction a with
  | nil => rfl
  | cons e rest ih => cases e <;> simp [stealth.keyEvents, ih]

theorem emissions_append (a b : List stealth.KeyEvent) :
    stealth.emissions (a ++ b) = stealth.emissions a + stealth.emissions b := by
  induction a with
  | nil => simp [stealth.emissions]
  | cons e rest ih =>
    cases e <;> simp [stealth.emissions, ih]
    omega

theorem replay_append (field : List Char) (a b : List stealth.KeyEvent) :
    stealth.replay field (a ++ b) = stealth.replay (stealth.replay field a) b := by
  induction a generalizing field with
  | nil => rfl
  | cons e rest ih => cases e <;> simp [stealth.replay, ih]

/-- A run of sleeps has no key event, no emission, and leaves the field alone. -/
theorem sleeps_silent (pauses : List stealth.KeyEvent)
    (h : ∀ e ∈ pauses, ∃ d : Duration, e = stealth.KeyEvent.sleep d) :
    stealth.keyEvents pauses = [] ∧ stealth.emissions pauses = 0 ∧
      ∀ field, stealth.replay field pauses = field := by
  induction pauses with
  | nil => exact ⟨rfl, rfl, fun _ => rfl⟩
  | cons e rest ih =>
    obtain ⟨d, hd⟩ := h e (List.mem_cons_self _ _)
    obtain ⟨h1, h2, h3⟩ := ih (fun e he => h e (List.mem_cons_of_mem _ he))
    subst hd
    exact ⟨by simpa [stealth.keyEvents] using h1, by simpa [stealth.emissions] using h2,
      fun field => by simpa [stealth.replay] using h3 field⟩

/-- The shape of the trace of one iteration of `typeLoop`. -/
theorem typeLoop_cons (rng : Rand) (total : Nat) (c : Char) (rest : List Char) (i k : Nat) :
    ∃ (keys pauses : List stealth.KeyEvent) (k2 : Nat),
      (stealth.typeLoop rng total (c :: rest) i k).1 =
        keys ++ pauses ++ (stealth.typeLoop rng total rest (i + 1) k2).1 ∧
      (keys = [stealth.KeyEvent.input c] ∨
        (0 < i ∧ ∃ (w : Char) (d1 d2 : Duration),
          keys = [stealth.KeyEvent.input w, stealth.KeyEvent.sleep d1,
            stealth.KeyEvent.backspace, stealth.KeyEvent.sleep d2, stealth.KeyEvent.input c])) ∧
      (∀ e ∈ pauses, ∃ d : Duration, e = stealth.KeyEvent.sleep d) := by
  refine ⟨_, _, _, rfl, ?_, ?_⟩
  · by_cases h1 : (Float64 rng k : ℚ) < 5 / 100 <;> by_cases h2 : i > 0
    · right
      refine ⟨h2, (stealth.getAdjacentKey rng (k + 1) c).1,
        ((Intn rng (stealth.getAdjacentKey rng (k + 1) c).2 150 + 100 : Nat) : Int) * Millisecond,
        ((Intn rng ((stealth.getAdjacentKey rng (k + 1) c).2 + 1) 200 + 150 : Nat) : Int) *
          Millisecond, ?_⟩
      simp only [h1, h2, decide_True, Bool.and_self, if_true]
    all_goals left; simp [h1, h2]
  · intro e he
    split_ifs at he
    all_goals
      simp only [List.mem_cons, List.mem_singleton, List.not_mem_nil, or_false] at he
      first
        | exact ⟨_, he⟩
        | exact he.elim (fun h => ⟨_, h⟩) (fun h => ⟨_, h⟩)

/-- The typing plan of the loop of `HumanType` from index `i` on. -/
theorem typeLoop_plan (rng : Rand) (total : Nat) (runes : List Char) :
    ∀ i k : Nat,
      (∃ blocks : List (List stealth.KeyEvent),
        blocks.length = runes.length ∧
        stealth.keyEvents (stealth.typeLoop rng total runes i k).1 = blocks.flatten ∧
        ∀ (j : Nat) (c : Char), runes[j]? = some c →
          blocks[j]? = some [stealth.KeyEvent.input c] ∨
          (0 < i + j ∧ ∃ w : Char, blocks[j]? = some [stealth.KeyEvent.input w,
            stealth.KeyEvent.backspace, stealth.KeyEvent.input c])) ∧
      runes.length ≤ stealth.emissions (stealth.typeLoop rng total runes i k).1 ∧
      ∀ field : List Char,
        stealth.replay field (stealth.typeLoop rng total runes i k).1 = field ++ runes := by
  induction runes with
  | nil =>
    intro i k
    exact ⟨⟨[], rfl, rfl, by simp⟩, by simp, by simp [stealth.typeLoop, stealth.replay]⟩
  | cons c rest ih =>
    intro i k
    obtain ⟨keys, pauses, k2, htrace, hkeys, hpauses⟩ := typeLoop_cons rng total c rest i k
    obtain ⟨⟨blocks, hlen, hflat, hblocks⟩, hemit, hreplay⟩ := ih (i + 1) k2
    obtain ⟨hpk, hpe, hpr⟩ := sleeps_silent pauses hpauses
    rw [htrace]
    refine ⟨⟨stealth.keyEvents keys :: blocks, by simp [hlen], ?_, ?_⟩, ?_, ?_⟩
    · simp [keyEvents_append, hpk, hflat]
    · intro j ch hj
      cases j with
      | zero =>
        simp only [List.getElem?_cons_zero, Option.some.injEq] at hj
        subst hj
        rcases hkeys with h | ⟨hi, w, e1, e2, h⟩
        · left
          subst h
          simp [stealth.keyEvents]
        · right
          subst h
          exact ⟨by omega, w, by simp [stealth.keyEvents]⟩
      | succ j =>
        simp only [List.getElem?_cons_succ] at hj ⊢
        rcases hblocks j ch hj with h | ⟨hpos, w, h⟩
        · exact Or.inl h
        · exact Or.inr ⟨by omega, w, h⟩
    · have hk : 1 ≤ stealth.emissions keys := by
        rcases hkeys with h | ⟨hi, w, e1, e2, h⟩ <;> subst h <;> simp [stealth.emissions]
      simp only [emissions_append, hpe, List.length_cons]
      omega
    · intro field
      have hk : stealth.replay field keys = field ++ [c] := by
        rcases hkeys with h | ⟨hi, w, e1, e2, h⟩ <;> subst h <;> simp [stealth.replay]
      simp [replay_append, hk, hpr, hreplay]

/-- C3: for every text and every outcome of the random draws, the key events of
`HumanType` are the concatenation, over the input characters in order, of either
`[emit c]` or, only at an index `i > 0`, `[emit w, Backspace, emit c]`; there are at least
as many emissions as input characters, and replaying the trace on an empty field yields
exactly the input text. -/
theorem C3_humanType_typing_plan (rng : Rand) (k : Nat) (text : List Char) :
    (∃ blocks : List (List stealth.KeyEvent),
      blocks.length = text.length ∧
      stealth.keyEvents (stealth.HumanType rng k text).1 = blocks.flatten ∧
      ∀ (i : Nat) (c : Char), text[i]? = some c →
        blocks[i]? = some [stealth.KeyEvent.input c] ∨
        (0 < i ∧ ∃ w : Char, blocks[i]? = some [stealth.KeyEvent.input w,
          stealth.KeyEvent.backspace, stealth.KeyEvent.input c])) ∧
    text.length ≤ stealth.emissions (stealth.HumanType rng k text).1 ∧
    stealth.replay [] (stealth.HumanType rng k text).1 = text := by
  obtain ⟨⟨blocks, hlen, hflat, hblocks⟩, hemit, hreplay⟩ :=
    typeLoop_plan rng text.length text 0 k
  refine ⟨⟨blocks, hlen, hflat, ?_⟩, hemit, by simpa using hreplay []⟩
  intro i c hi
  rcases hblocks i c hi with h | ⟨hpos, w, h⟩
  · exact Or.inl h
  · exact Or.inr ⟨by omega, w, h⟩

theorem scrollDeltas_append {F : Type} (a b : List (stealth.MouseEvent F)) :
    stealth.scrollDeltas (a ++ b) = stealth.scrollDeltas a ++ stealth.scrollDeltas b := by
  induction a with
  | nil => rfl
  | cons e rest ih => cases e <;> simp [stealth.scrollDeltas, ih]

/-- Rounding to the nearest integer moves a value by at most one half. -/
theorem roundHalfEven_err (y : ℚ) : |(roundHalfEven y : ℚ) - y| ≤ 1 / 2 := by
  have h1 := Int.floor_le y
  have h2 := Int.lt_floor_add_one y
  unfold roundHalfEven
  rw [abs_le]
  split_ifs with ha hb hc
  · constructor <;> linarith
  · push_cast
    constructor <;> linarith
  · constructor <;> linarith
  · push_cast
    constructor <;> linarith

/-- An integer less than one half away is the nearest one. -/
theorem roundHalfEven_of_near (y : ℚ) (m : Int) (h : |y - m| < 1 / 2) :
    roundHalfEven y = m := by
  rw [abs_lt] at h
  have hr := roundHalfEven_err y
  rw [abs_le] at hr
  have hlt : |((roundHalfEven y - m : Int) : ℚ)| < 1 := by
    rw [abs_lt]
    push_cast
    constructor <;> linarith [h.1, h.2, hr.1, hr.2]
  have hz : |roundHalfEven y - m| < 1 := by exact_mod_cast hlt
  have := Int.abs_lt_one_iff.mp hz
  omega

/-- Zero is a `float64`. -/
theorem roundFloat64_zero : roundFloat64 0 = 0 := by
  simp [roundFloat64, roundHalfEven]

/-- The binary exponent of a value between two consecutive powers of two. -/
theorem log_two_eq (x : ℚ) (e : Int) (h1 : (2 : ℚ) ^ e ≤ |x|) (h2 : |x| < (2 : ℚ) ^ (e + 1)) :
    Int.log 2 |x| = e := by
  have hpos : (0 : ℚ) < |x| := lt_of_lt_of_le (by positivity) h1
  have ha : e ≤ Int.log 2 |x| := by
    rw [← Int.zpow_le_iff_le_log (by norm_num) hpos]
    simpa using h1
  have hb : Int.log 2 |x| < e + 1 := by
    rw [← Int.lt_zpow_iff_log_lt (by norm_num) hpos]
    simpa using h2
  omega

/-- Evaluation of `roundFloat64` at a value with known exponent and mantissa. -/
theorem roundFloat64_eval (x : ℚ) (e m : Int) (h1 : (2 : ℚ) ^ e ≤ |x|)
    (h2 : |x| < (2 : ℚ) ^ (e + 1)) (h3 : |x * 2 ^ (52 - e) - m| < 1 / 2) :
    roundFloat64 x = (m : ℚ) / 2 ^ (52 - e) := by
  unfold roundFloat64
  rw [log_two_eq x e h1 h2, roundHalfEven_of_near _ m h3]

/-- Evaluation of `roundFloat64` below `2^53`, with the scaling as a natural power. -/
theorem roundFloat64_eval_nat (x : ℚ) (k : Nat) (m : Int) (h1 : (2 : ℚ) ^ 52 ≤ |x| * 2 ^ k)
    (h2 : |x| * 2 ^ k < (2 : ℚ) ^ 53) (h3 : |x * 2 ^ k - m| < 1 / 2) :
    roundFloat64 x = (m : ℚ) / 2 ^ k := by
  have hk : (2 : ℚ) ^ (52 - (52 - (k : Int))) = 2 ^ k := by
    rw [show (52 : Int) - (52 - (k : Int)) = (k : Int) by ring, zpow_natCast]
  have h := roundFloat64_eval x (52 - k) m ?_ ?_ ?_
  · rw [h, hk]
  · rw [zpow_sub₀ (by norm_num), zpow_natCast, div_le_iff₀ (by positivity)]
    exact_mod_cast h1
  · rw [show (52 : Int) - (k : Int) + 1 = 53 - (k : Int) by ring, zpow_sub₀ (by norm_num),
      zpow_natCast, lt_div_iff₀ (by positivity)]
    exact_mod_cast h2
  · rw [hk]
    exact h3

/-- One rounding moves a value by at most `2^-53` of its magnitude. -/
theorem roundFloat64_err (x : ℚ) : |roundFloat64 x - x| ≤ |x| / 2 ^ 53 := by
  by_cases hx : x = 0
  · subst hx
    simp [roundFloat64_zero]
  have hpos : (0 : ℚ) < |x| := abs_pos.mpr hx
  have hlo : (2 : ℚ) ^ Int.log 2 |x| ≤ |x| := by
    simpa using Int.zpow_log_le_self (R := ℚ) (b := 2) (by norm_num) hpos
  have hs : (0 : ℚ) < 2 ^ (52 - Int.log 2 |x|) := by positivity
  have hr := roundHalfEven_err (x * 2 ^ (52 - Int.log 2 |x|))
  unfold roundFloat64
  have heq : (roundHalfEven (x * 2 ^ (52 - Int.log 2 |x|)) : ℚ) /
      2 ^ (52 - Int.log 2 |x|) - x =
      ((roundHalfEven (x * 2 ^ (52 - Int.log 2 |x|)) : ℚ) -
        x * 2 ^ (52 - Int.log 2 |x|)) / 2 ^ (52 - Int.log 2 |x|) := by
    field_simp
    ring
  rw [heq, abs_div, abs_of_pos hs, div_le_div_iff₀ hs (by positivity)]
  have hprod : (2 : ℚ) ^ 53 = 2 * (2 ^ (52 - Int.log 2 |x|) * 2 ^ Int.log 2 |x|) := by
    rw [← zpow_add₀ (by norm_num : (2 : ℚ) ≠ 0)]
    norm_num
  calc |(roundHalfEven (x * 2 ^ (52 - Int.log 2 |x|)) : ℚ) -
        x * 2 ^ (52 - Int.log 2 |x|)| * 2 ^ 53
      ≤ 1 / 2 * 2 ^ 53 := by gcongr
    _ = 2 ^ (52 - Int.log 2 |x|) * 2 ^ Int.log 2 |x| := by rw [hprod]; ring
    _ ≤ 2 ^ (52 - Int.log 2 |x|) * |x| := by gcongr
    _ = |x| * 2 ^ (52 - Int.log 2 |x|) := by ring

/-- A natural number below `2^53` is a float64. -/
theorem roundFloat64_natCast (n : Nat) (h : n < 2 ^ 53) : roundFloat64 (n : ℚ) = n := by
  by_cases hn : n = 0
  · subst hn
    simpa using roundFloat64_zero
  have hlog : Nat.log 2 n < 53 := Nat.log_lt_of_lt_pow hn h
  have habs : |(n : ℚ)| = n := abs_of_nonneg (by positivity)
  unfold roundFloat64
  rw [habs, Int.log_natCast]
  obtain ⟨k, hk⟩ : ∃ k : Nat, (52 : Int) - (Nat.log 2 n : Int) = k :=
    ⟨52 - Nat.log 2 n, by omega⟩
  rw [hk, zpow_natCast]
  have hint : (n : ℚ) * 2 ^ k = (((n * 2 ^ k : Nat) : Int) : ℚ) := by push_cast; ring
  have hround : roundHalfEven ((n : ℚ) * 2 ^ k) = ((n * 2 ^ k : Nat) : Int) := by
    apply roundHalfEven_of_near
    rw [hint, sub_self, abs_zero]
    norm_num
  rw [hround]
  push_cast
  field_simp

/-- One more rounding on top of a relative error `ε`. -/
theorem roundFloat64_chain (a' a ε : ℚ) (h : |a' - a| ≤ ε * |a|) :
    |roundFloat64 a' - a| ≤ (ε + (1 + ε) / 2 ^ 53) * |a| := by
  have hr := roundFloat64_err a'
  have ha' : |a'| ≤ (1 + ε) * |a| := by
    calc |a'| = |(a' - a) + a| := by ring_nf
      _ ≤ |a' - a| + |a| := abs_add _ _
      _ ≤ ε * |a| + |a| := by linarith
      _ = (1 + ε) * |a| := by ring
  calc |roundFloat64 a' - a| = |(roundFloat64 a' - a') + (a' - a)| := by ring_nf
    _ ≤ |roundFloat64 a' - a'| + |a' - a| := abs_add _ _
    _ ≤ |a'| / 2 ^ 53 + ε * |a| := by linarith
    _ ≤ (1 + ε) * |a| / 2 ^ 53 + ε * |a| := by gcongr
    _ = (ε + (1 + ε) / 2 ^ 53) * |a| := by ring

/-- The relative error of a product of two approximations. -/
theorem mul_chain (a' a b' b ε η : ℚ) (hε : 0 ≤ ε) (ha : |a' - a| ≤ ε * |a|)
    (hb : |b' - b| ≤ η * |b|) : |a' * b' - a * b| ≤ (ε + η + ε * η) * |a * b| := by
  have hb' : |b'| ≤ (1 + η) * |b| := by
    calc |b'| = |(b' - b) + b| := by ring_nf
      _ ≤ |b' - b| + |b| := abs_add _ _
      _ ≤ η * |b| + |b| := by linarith
      _ = (1 + η) * |b| := by ring
  have h1 : |a' - a| * |b'| ≤ ε * |a| * ((1 + η) * |b|) :=
    mul_le_mul ha hb' (abs_nonneg _) (mul_nonneg hε (abs_nonneg _))
  have h2 : |a| * |b' - b| ≤ |a| * (η * |b|) :=
    mul_le_mul_of_nonneg_left hb (abs_nonneg _)
  calc |a' * b' - a * b| = |(a' - a) * b' + a * (b' - b)| := by ring_nf
    _ ≤ |(a' - a) * b'| + |a * (b' - b)| := abs_add _ _
    _ = |a' - a| * |b'| + |a| * |b' - b| := by rw [abs_mul, abs_mul]
    _ ≤ ε * |a| * ((1 + η) * |b|) + |a| * (η * |b|) := by linarith
    _ = (ε + η + ε * η) * |a * b| := by rw [abs_mul]; ring

/-- The two kinds of scroll delta of `HumanScroll` and `ScrollToElement`: from a numerator
`N'` that is `N` up to one rounding, a denominator `n`, a scale `c` and a direction
`dir = ±1`, the rounded even share `dir * (N / n)` and the rounded scaled share
`dir * (c * (N / n))` are off by at most `2^-50` of their magnitude. -/
theorem scroll_delta_approx (N' N n c dir : ℚ) (hN : 0 < N) (hn : 0 < n) (hc : 0 < c)
    (hdir : dir = 1 ∨ dir = -1) (hN' : |N' - N| ≤ N / 2 ^ 53) :
    |roundFloat64 (dir * roundFloat64 (N' / n)) - dir * (N / n)| ≤ 1 / 2 ^ 50 * (N / n) ∧
    |roundFloat64 (dir * roundFloat64 (roundFloat64 (N' / n) * roundFloat64 c)) -
      dir * (c * (N / n))| ≤ 1 / 2 ^ 50 * (c * (N / n)) := by
  have hq0 : 0 < N / n := div_pos hN hn
  have habsdir : |dir| = 1 := by
    rcases hdir with h | h <;> rw [h] <;> norm_num
  -- the quotient
  have h1 : |N' / n - N / n| ≤ 1 / 2 ^ 53 * |N / n| := by
    rw [← sub_div, abs_div, abs_div, abs_of_pos hn, abs_of_pos hN]
    rw [div_le_iff₀ hn]
    calc |N' - N| ≤ N / 2 ^ 53 := hN'
      _ = 1 / 2 ^ 53 * (N / n) * n := by field_simp; ring
  have hmul : ∀ X Y ε : ℚ, |X - Y| ≤ ε * |Y| → |dir * X - dir * Y| ≤ ε * |dir * Y| := by
    intro X Y ε h
    rw [← mul_sub, abs_mul, abs_mul, habsdir, one_mul, one_mul]
    exact h
  have h2 := roundFloat64_chain _ _ _ h1
  -- the even share
  have h3 := hmul _ _ _ h2
  have h4 := roundFloat64_chain _ _ _ h3
  -- the scaled share
  have hcr : |roundFloat64 c - c| ≤ 1 / 2 ^ 53 * |c| := by
    have := roundFloat64_err c
    linarith [this, (by ring : |c| / 2 ^ 53 = 1 / 2 ^ 53 * |c|)]
  have h5 := mul_chain _ _ _ _ _ _ (by norm_num) h2 hcr
  have h6 := roundFloat64_chain _ _ _ h5
  have h7 := hmul _ _ _ h6
  have h8 := roundFloat64_chain _ _ _ h7
  have hE : |dir * (N / n)| = N / n := by
    rw [abs_mul, habsdir, one_mul, abs_of_pos hq0]
  have hE2 : |dir * (N / n * c)| = c * (N / n) := by
    rw [abs_mul, habsdir, one_mul, abs_of_pos (mul_pos hq0 hc)]
    ring
  rw [hE] at h4
  rw [hE2, show N / n * c = c * (N / n) by ring] at h8
  constructor
  · refine le_trans h4 (mul_le_mul_of_nonneg_right ?_ hq0.le)
    norm_num
  · refine le_trans h8 (mul_le_mul_of_nonneg_right ?_ (mul_pos hc hq0).le)
    norm_num

/-- The sum of a list of deltas `A, B, …, B, A` against the sum of their exact values. -/
theorem edge_sum_approx (A B a b : ℚ) (m : Nat) :
    |(A :: (List.replicate m B ++ [A])).sum - (2 * a + m * b)| ≤
      2 * |A - a| + m * |B - b| := by
  have hsum : (A :: (List.replicate m B ++ [A])).sum = 2 * A + m * B := by
    simp [List.sum_replicate]
    ring
  rw [hsum]
  calc |2 * A + m * B - (2 * a + m * b)| = |2 * (A - a) + m * (B - b)| := by ring_nf
    _ ≤ |2 * (A - a)| + |(m : ℚ) * (B - b)| := abs_add _ _
    _ = 2 * |A - a| + m * |B - b| := by
      rw [abs_mul, abs_mul, abs_of_pos (by norm_num : (0 : ℚ) < 2),
        abs_of_nonneg (by positivity : (0 : ℚ) ≤ (m : ℚ))]

/-- What the loop of `findSubstring` computes: a match at an index it reaches. -/
theorem findSubstringLoop_iff {α : Type} [DecidableEq α] (s substr : List α) :
    ∀ fuel i : Nat, stealth.findSubstringLoop s substr fuel i = true ↔
      ∃ j, i ≤ j ∧ j < i + fuel ∧ j + substr.length ≤ s.length ∧
        (s.drop j).take substr.length = substr := by
  intro fuel
  induction fuel with
  | zero =>
    intro i
    simp only [stealth.findSubstringLoop, Bool.false_eq_true, false_iff, not_exists]
    intro j hj
    omega
  | succ fuel ih =>
    intro i
    rw [stealth.findSubstringLoop]
    by_cases hc : (i : Int) ≤ (s.length : Int) - (substr.length : Int)
    · rw [if_pos hc]
      by_cases hm : (s.drop i).take substr.length = substr
      · rw [if_pos hm]
        simp only [true_iff]
        exact ⟨i, le_refl _, by omega, by omega, hm⟩
      · rw [if_neg hm, ih (i + 1)]
        constructor
        · rintro ⟨j, h1, h2, h3, h4⟩
          exact ⟨j, by omega, by omega, h3, h4⟩
        · rintro ⟨j, h1, h2, h3, h4⟩
          have hne : j ≠ i := by
            rintro rfl
            exact hm h4
          exact ⟨j, by omega, by omega, h3, h4⟩
    · rw [if_neg hc]
      simp only [Bool.false_eq_true, false_iff, not_exists]
      intro j hj
      omega

/-- A slice of `s` equal to `substr` is an occurrence of `substr` in `s`. -/
theorem slice_eq_iff_occurs {α : Type} (s substr : List α) :
    (∃ j, j + substr.length ≤ s.length ∧ (s.drop j).take substr.length = substr) ↔
      substr <:+: s := by
  constructor
  · rintro ⟨j, _, hj⟩
    refine ⟨s.take j, (s.drop j).drop substr.length, ?_⟩
    calc s.take j ++ substr ++ (s.drop j).drop substr.length
        = s.take j ++ ((s.drop j).take substr.length ++ (s.drop j).drop substr.length) := by
          rw [hj, List.append_assoc]
      _ = s := by rw [List.take_append_drop, List.take_append_drop]
  · rintro ⟨pre, suf, rfl⟩
    refine ⟨pre.length, by simp only [List.length_append]; omega, ?_⟩
    simp [List.append_assoc]

/-- The helper `contains` decides exact, contiguous occurrence. -/
theorem contains_iff_occurs {α : Type} [DecidableEq α] (s substr : List α) :
    stealth.contains s substr = true ↔ substr <:+: s := by
  have hfind : stealth.findSubstring s substr = true ↔ substr <:+: s := by
    rw [stealth.findSubstring, findSubstringLoop_iff, ← slice_eq_iff_occurs]
    constructor
    · rintro ⟨j, _, _, h3, h4⟩
      exact ⟨j, h3, h4⟩
    · rintro ⟨j, h3, h4⟩
      exact ⟨j, Nat.zero_le _, by omega, h3, h4⟩
  unfold stealth.contains
  simp only [Bool.and_eq_true, Bool.or_eq_true, decide_eq_true_eq, hfind]
  constructor
  · rintro ⟨_, (h | h) | h⟩
    · rw [h]
    · rw [List.length_eq_zero.mp h]
      exact List.nil_infix
    · exact h
  · intro h
    exact ⟨h.length_le, Or.inr h⟩

/-- The detector `detectCaptcha` answers true exactly when a CAPTCHA selector is present
or a CAPTCHA phrase occurs in the markup. -/
theorem detectCaptcha_iff (page : stealth.Page) :
    stealth.detectCaptcha page = true ↔
      (∃ selector ∈ stealth.captchaSelectors, page.has selector = true) ∨
      (∃ text ∈ stealth.captchaTexts, stealth.bytes text <:+: page.html) := by
  unfold stealth.detectCaptcha
  by_cases h1 : (stealth.captchaSelectors.any fun selector => page.has selector) = true
  · rw [if_pos h1]
    simp only [true_iff]
    exact Or.inl (List.any_eq_true.mp h1)
  · rw [if_neg h1]
    by_cases h2 : (stealth.captchaTexts.any fun text =>
        stealth.contains page.html (stealth.bytes text)) = true
    · rw [if_pos h2]
      simp only [true_iff]
      obtain ⟨text, ht, hc⟩ := List.any_eq_true.mp h2
      exact Or.inr ⟨text, ht, (contains_iff_occurs _ _).mp hc⟩
    · rw [if_neg h2]
      simp only [Bool.false_eq_true, false_iff, not_or]
      constructor
      · intro h
        exact h1 (List.any_eq_true.mpr h)
      · rintro ⟨text, ht, hc⟩
        exact h2 (List.any_eq_true.mpr ⟨text, ht, (contains_iff_occurs _ _).mpr hc⟩)

/-- C5: for every page snapshot, `CheckForSecurityChallenge` returns the first matching
class in the order PIN_VERIFICATION (a PIN input is present), CAPTCHA (a CAPTCHA selector
is present or a CAPTCHA phrase occurs in the markup), EMAIL_VERIFICATION (a
verification-code input is present), SUSPICIOUS_ACTIVITY (a flagged phrase occurs in the
markup), and reports no challenge exactly when none matches; a snapshot with a PIN marker
yields PIN_VERIFICATION whatever CAPTCHA markers it has. -/
theorem C5_challenge_detection_order (page : stealth.Page) :
    let pin : Prop := page.has "input[name=pin]" = true ∨
      page.has "#input__phone_verification_pin" = true
    let captcha : Prop := (∃ selector ∈ stealth.captchaSelectors, page.has selector = true) ∨
      (∃ text ∈ stealth.captchaTexts, stealth.bytes text <:+: page.html)
    let email : Prop := page.has "input[name='verification-code']" = true ∨
      page.has "#email-pin-challenge" = true
    let flagged : Prop := stealth.bytes "unusual activity" <:+: page.html ∨
      stealth.bytes "suspicious activity" <:+: page.html
    (pin → stealth.CheckForSecurityChallenge page = ("PIN_VERIFICATION", true)) ∧
    (¬ pin → captcha → stealth.CheckForSecurityChallenge page = ("CAPTCHA", true)) ∧
    (¬ pin → ¬ captcha → email →
      stealth.CheckForSecurityChallenge page = ("EMAIL_VERIFICATION", true)) ∧
    (¬ pin → ¬ captcha → ¬ email → flagged →
      stealth.CheckForSecurityChallenge page = ("SUSPICIOUS_ACTIVITY", true)) ∧
    (¬ pin → ¬ captcha → ¬ email → ¬ flagged →
      stealth.CheckForSecurityChallenge page = ("", false)) ∧
    ((stealth.CheckForSecurityChallenge page).2 = false ↔
      ¬ pin ∧ ¬ captcha ∧ ¬ email ∧ ¬ flagged) ∧
    (pin → captcha → stealth.CheckForSecurityChallenge page ≠ ("CAPTCHA", true)) := by
  intro pin captcha email flagged
  have hpin : (page.has "input[name=pin]" || page.has "#input__phone_verification_pin") = true ↔
      pin := by simp only [Bool.or_eq_true, pin]
  have hcap : stealth.detectCaptcha page = true ↔ captcha := detectCaptcha_iff page
  have hemail : (page.has "input[name='verification-code']" ||
      page.has "#email-pin-challenge") = true ↔ email := by simp only [Bool.or_eq_true, email]
  have hflag : (stealth.contains page.html (stealth.bytes "unusual activity") ||
      stealth.contains page.html (stealth.bytes "suspicious activity")) = true ↔ flagged := by
    simp only [Bool.or_eq_true, contains_iff_occurs, flagged]
  unfold stealth.CheckForSecurityChallenge
  by_cases h1 : pin
  · rw [if_pos (hpin.mpr h1)]
    simp [h1]
  · rw [if_neg (fun h => h1 (hpin.mp h))]
    by_cases h2 : captcha
    · rw [if_pos (hcap.mpr h2)]
      simp [h1, h2]
    · rw [if_neg (fun h => h2 (hcap.mp h))]
      by_cases h3 : email
      · rw [if_pos (hemail.mpr h3)]
        simp [h1, h2, h3]
      · rw [if_neg (fun h => h3 (hemail.mp h))]
        by_cases h4 : flagged
        · rw [if_pos (hflag.mpr h4)]
          simp [h1, h2, h3, h4]
        · rw [if_neg (fun h => h4 (hflag.mp h))]
          simp [h1, h2, h3, h4]

/-- C5 at a concrete snapshot: a page with a PIN input and a reCAPTCHA widget whose markup
also holds a CAPTCHA phrase is classified PIN_VERIFICATION. -/
theorem C5_challenge_detection_order_witness :
    stealth.CheckForSecurityChallenge
      ⟨fun selector => selector = "input[name=pin]" || selector = ".g-recaptcha",
        stealth.bytes "<p>Security check</p>"⟩ = ("PIN_VERIFICATION", true) :=
  (C5_challenge_detection_order
    ⟨fun selector => selector = "input[name=pin]" || selector = ".g-recaptcha",
      stealth.bytes "<p>Security check</p>"⟩).1 (Or.inl (by decide))

/-- Without a reset, `RecordAction` adds one to the count of its action type and keeps the
reset timestamp. -/
theorem recordAction_no_reset (r : stealth.RateLimiter) (now now2 : stealth.Time)
    (x : String) (h : now ≤ r.resetTime) :
    (r.RecordAction now now2 x).resetTime = r.resetTime ∧
    (r.RecordAction now now2 x).actionCounts x = r.actionCounts x + 1 ∧
    ∀ y, y ≠ x → (r.RecordAction now now2 x).actionCounts y = r.actionCounts y := by
  have hn : ¬ now > r.resetTime := not_lt.mpr h
  refine ⟨?_, ?_, ?_⟩
  · simp [stealth.RateLimiter.RecordAction, hn]
  · simp [stealth.RateLimiter.RecordAction, hn]
  · intro y hy
    simp [stealth.RateLimiter.RecordAction, hn, hy]

/-- A run of `RecordAction(x)` calls without a reset adds its length to the count of `x`. -/
theorem recordAction_run (x : String) (calls : List (stealth.Time × stealth.Time)) :
    ∀ r : stealth.RateLimiter, (∀ c ∈ calls, c.1 ≤ r.resetTime) →
      (calls.foldl (fun r c => r.RecordAction c.1 c.2 x) r).resetTime = r.resetTime ∧
      (calls.foldl (fun r c => r.RecordAction c.1 c.2 x) r).actionCounts x =
        r.actionCounts x + calls.length := by
  induction calls with
  | nil =>
    intro r _
    simp
  | cons c rest ih =>
    intro r h
    obtain ⟨h1, h2, _⟩ := recordAction_no_reset r c.1 c.2 x (h c (List.mem_cons_self _ _))
    have hrest : ∀ c' ∈ rest, c'.1 ≤ (r.RecordAction c.1 c.2 x).resetTime := by
      intro c' hc'
      rw [h1]
      exact h c' (List.mem_cons_of_mem _ hc')
    obtain ⟨h3, h4⟩ := ih (r.RecordAction c.1 c.2 x) hrest
    rw [List.foldl_cons, h3, h4, h1, h2]
    refine ⟨rfl, ?_⟩
    simp only [List.length_cons]
    push_cast
    ring

/-- C6: on a fresh rate limiter created at time `t0`, after `n` calls of `RecordAction(x)`
and a query all made no later than the reset timestamp `t0 + 24h`, `GetActionCount(x)` is
`n` and `CheckLimit(x, maxPerDay)` is true if and only if `n < maxPerDay`. -/
theorem C6_rateLimiter_count_and_limit (t0 : stealth.Time) (minInterval : Duration)
    (x : String) (maxPerDay : Int) (calls : List (stealth.Time × stealth.Time))
    (tq : stealth.Time)
    (hcalls : ∀ c ∈ calls, c.1 ≤ t0 + 24 * Hour) (hq : tq ≤ t0 + 24 * Hour) :
    (calls.foldl (fun r c => r.RecordAction c.1 c.2 x)
      (stealth.NewRateLimiter t0 minInterval)).GetActionCount tq x = calls.length ∧
    ((calls.foldl (fun r c => r.RecordAction c.1 c.2 x)
      (stealth.NewRateLimiter t0 minInterval)).CheckLimit tq x maxPerDay = true ↔
        (calls.length : Int) < maxPerDay) := by
  obtain ⟨h1, h2⟩ := recordAction_run x calls (stealth.NewRateLimiter t0 minInterval) hcalls
  have hreset : (stealth.NewRateLimiter t0 minInterval).resetTime = t0 + 24 * Hour := rfl
  have hzero : (stealth.NewRateLimiter t0 minInterval).actionCounts x = 0 := rfl
  have hn : ¬ tq > t0 + 24 * Hour := not_lt.mpr hq
  have hcount : (calls.foldl (fun r c => r.RecordAction c.1 c.2 x)
      (stealth.NewRateLimiter t0 minInterval)).GetActionCount tq x = calls.length := by
    simp only [stealth.RateLimiter.GetActionCount, h1, hreset, hn, if_false, h2, hzero, zero_add]
  refine ⟨hcount, ?_⟩
  simp only [stealth.RateLimiter.CheckLimit, hcount]
  by_cases hlim : (calls.length : Int) ≥ maxPerDay
  · rw [if_pos hlim]
    exact ⟨fun hc => absurd hc (by decide), fun hc => absurd hlim (not_le.mpr hc)⟩
  · rw [if_neg hlim]
    exact ⟨fun _ => not_le.mp hlim, fun _ => rfl⟩

/-- C6 at the scenario of the specification: three `RecordAction("x")` calls at seconds 1,
2, 3 of the limiter's life, then `CheckLimit("x", 3)` at second 4 returns false and the
count reads 3. -/
theorem C6_rateLimiter_count_and_limit_witness :
    ([(1 * Second, 1 * Second), (2 * Second, 2 * Second), (3 * Second, 3 * Second)].foldl
      (fun r c => stealth.RateLimiter.RecordAction r c.1 c.2 "x")
      (stealth.NewRateLimiter 0 (2 * Second))).GetActionCount (4 * Second) "x" = 3 ∧
    ([(1 * Second, 1 * Second), (2 * Second, 2 * Second), (3 * Second, 3 * Second)].foldl
      (fun r c => stealth.RateLimiter.RecordAction r c.1 c.2 "x")
      (stealth.NewRateLimiter 0 (2 * Second))).CheckLimit (4 * Second) "x" 3 = false := by
  have h := C6_rateLimiter_count_and_limit 0 (2 * Second) "x" 3
    [(1 * Second, 1 * Second), (2 * Second, 2 * Second), (3 * Second, 3 * Second)]
    (4 * Second) (by decide) (by decide)
  refine ⟨h.1, ?_⟩
  have hnot : ¬ ((3 : Int) < 3) := by decide
  exact Bool.eq_false_iff.mpr (fun hc => hnot (h.2.mp hc))

/-- C7: for every rate-limiter state, a `RecordAction(x)` made strictly after the reset
timestamp leaves the count of `x` at 1, makes every other action type read 0 (in the map
and through `GetActionCount` at any later reading of the clock), and sets the reset
timestamp to 24 hours after the clock reading `now2` taken during the call. -/
theorem C7_recordAction_after_reset (r : stealth.RateLimiter) (now now2 : stealth.Time)
    (x : String) (h : now > r.resetTime) :
    (r.RecordAction now now2 x).actionCounts x = 1 ∧
    (∀ tq, tq ≤ now2 + 24 * Hour → (r.RecordAction now now2 x).GetActionCount tq x = 1) ∧
    (∀ y, y ≠ x → (r.RecordAction now now2 x).actionCounts y = 0 ∧
      ∀ tq, (r.RecordAction now now2 x).GetActionCount tq y = 0) ∧
    (r.RecordAction now now2 x).resetTime = now2 + 24 * Hour := by
  have hx : (r.RecordAction now now2 x).actionCounts x = 1 := by
    simp [stealth.RateLimiter.RecordAction, h]
  have hreset : (r.RecordAction now now2 x).resetTime = now2 + 24 * Hour := by
    simp [stealth.RateLimiter.RecordAction, h]
  have hy : ∀ y, y ≠ x → (r.RecordAction now now2 x).actionCounts y = 0 := by
    intro y hne
    simp [stealth.RateLimiter.RecordAction, h, hne]
  refine ⟨hx, ?_, ?_, hreset⟩
  · intro tq htq
    simp only [stealth.RateLimiter.GetActionCount, hreset, not_lt.mpr htq, if_false, hx]
  · intro y hne
    refine ⟨hy y hne, fun tq => ?_⟩
    simp only [stealth.RateLimiter.GetActionCount, hy y hne, ite_self]

/-- C7 at the scenario of the specification: after three `RecordAction("x")` calls and one
`RecordAction("y")` in the first day, a fourth `RecordAction("x")` at hour 25 leaves the
count of "x" at 1, the count of "y" at 0 and the reset timestamp at hour 49. -/
theorem C7_recordAction_after_reset_witness :
    ((((((stealth.NewRateLimiter 0 (2 * Second)).RecordAction 1 1 "x").RecordAction 2 2
      "x").RecordAction 3 3 "x").RecordAction 4 4 "y").RecordAction (25 * Hour) (25 * Hour)
      "x").actionCounts "x" = 1 ∧
    ((((((stealth.NewRateLimiter 0 (2 * Second)).RecordAction 1 1 "x").RecordAction 2 2
      "x").RecordAction 3 3 "x").RecordAction 4 4 "y").RecordAction (25 * Hour) (25 * Hour)
      "x").actionCounts "y" = 0 ∧
    ((((((stealth.NewRateLimiter 0 (2 * Second)).RecordAction 1 1 "x").RecordAction 2 2
      "x").RecordAction 3 3 "x").RecordAction 4 4 "y").RecordAction (25 * Hour) (25 * Hour)
      "x").resetTime = 49 * Hour := by
  have h := C7_recordAction_after_reset
    (((((stealth.NewRateLimiter 0 (2 * Second)).RecordAction 1 1 "x").RecordAction 2 2
      "x").RecordAction 3 3 "x").RecordAction 4 4 "y") (25 * Hour) (25 * Hour) "x" (by decide)
  exact ⟨h.1, (h.2.2.1 "y" (by decide)).1, h.2.2.2⟩

/-- C8: for every non-empty list of cookies, when `SaveSession` returns nil and
`json.Unmarshal` reads back what `json.MarshalIndent` wrote, `LoadSession` on the saved
file reads it and replays into the browser one cookie parameter per saved cookie, in the
same order, with the name, value, domain, path, secure, http-only, same-site and expiry
fields of the saved cookie; it returns nil exactly when `page.SetCookies` succeeds. -/
theorem C8_session_round_trip {D : Type} (codec : stealth.JsonCodec D)
    (cookies : List stealth.NetworkCookie) (writeOk setCookiesOk : Bool)
    (file : stealth.FileState D) (hne : cookies ≠ [])
    (hcodec : ∀ data, codec.marshalIndent cookies = some data →
      codec.unmarshal data = some cookies)
    (hsave : (stealth.SaveSession codec cookies writeOk file).2.1 = none) :
    ∃ cookieParams : List stealth.NetworkCookieParam,
      (stealth.LoadSession codec (stealth.SaveSession codec cookies writeOk file).2.2
        setCookiesOk).1 = [stealth.Call.readSessionFile, stealth.Call.setCookies cookieParams] ∧
      cookieParams.length = cookies.length ∧
      (∀ (i : Nat) (c : stealth.NetworkCookie), cookies[i]? = some c →
        ∃ p, cookieParams[i]? = some p ∧ p.Name = c.Name ∧ p.Value = c.Value ∧
          p.Domain = c.Domain ∧ p.Path = c.Path ∧ p.Secure = c.Secure ∧
          p.HTTPOnly = c.HTTPOnly ∧ p.SameSite = c.SameSite ∧ p.Expires = c.Expires) ∧
      ((stealth.LoadSession codec (stealth.SaveSession codec cookies writeOk file).2.2
        setCookiesOk).2 = none ↔ setCookiesOk = true) := by
  have hlen : ¬ cookies.length = 0 := fun h => hne (List.length_eq_zero.mp h)
  cases hm : codec.marshalIndent cookies with
  | none => simp [stealth.SaveSession, hm] at hsave
  | some data =>
    have hw : writeOk = true := by
      cases writeOk with
      | true => rfl
      | false => simp [stealth.SaveSession, hm] at hsave
    subst hw
    have hfile : (stealth.SaveSession codec cookies true file).2.2 =
        stealth.FileState.content data := by
      simp [stealth.SaveSession, hm]
    rw [hfile]
    refine ⟨cookies.map stealth.toCookieParam, ?_, by simp, ?_, ?_⟩
    · cases setCookiesOk <;> simp [stealth.LoadSession, hcodec data hm, hlen]
    · intro i c hi
      refine ⟨stealth.toCookieParam c, by simp [hi], ?_⟩
      simp [stealth.toCookieParam]
    · cases setCookiesOk <;> simp [stealth.LoadSession, hcodec data hm, hlen]

/-- C8 at a concrete store: with file contents that are the cookie list itself, saving
the two cookies `li_at` and `JSESSIONID` and loading them replays two parameters with the
same fields. -/
theorem C8_session_round_trip_witness :
    ∃ cookieParams : List stealth.NetworkCookieParam,
      (stealth.LoadSession (⟨some, some⟩ : stealth.JsonCodec (List stealth.NetworkCookie))
        (stealth.SaveSession (⟨some, some⟩ : stealth.JsonCodec (List stealth.NetworkCookie))
          [⟨"li_at", "AQED", ".linkedin.com", "/", 1800000000, 120, true, true, false, "None"⟩,
            ⟨"JSESSIONID", "ajax:1", ".www.linkedin.com", "/", -1, 30, false, true, true, "Lax"⟩]
          true stealth.FileState.absent).2.2 true).1 =
        [stealth.Call.readSessionFile, stealth.Call.setCookies cookieParams] ∧
      cookieParams.length = 2 ∧
      cookieParams = [⟨"li_at", "AQED", ".linkedin.com", "/", true, true, "None", 1800000000⟩,
        ⟨"JSESSIONID", "ajax:1", ".www.linkedin.com", "/", true, false, "Lax", -1⟩] := by
  obtain ⟨cookieParams, htrace, hlen, _, _⟩ := C8_session_round_trip
    (⟨some, some⟩ : stealth.JsonCodec (List stealth.NetworkCookie))
    [⟨"li_at", "AQED", ".linkedin.com", "/", 1800000000, 120, true, true, false, "None"⟩,
      ⟨"JSESSIONID", "ajax:1", ".www.linkedin.com", "/", -1, 30, false, true, true, "Lax"⟩]
    true true stealth.FileState.absent (by simp) (fun _ h => h.symm) rfl
  refine ⟨cookieParams, htrace, hlen, ?_⟩
  have h2 : (stealth.LoadSession (⟨some, some⟩ : stealth.JsonCodec (List stealth.NetworkCookie))
      (stealth.SaveSession (⟨some, some⟩ : stealth.JsonCodec (List stealth.NetworkCookie))
        [⟨"li_at", "AQED", ".linkedin.com", "/", 1800000000, 120, true, true, false, "None"⟩,
          ⟨"JSESSIONID", "ajax:1", ".www.linkedin.com", "/", -1, 30, false, true, true, "Lax"⟩]
        true stealth.FileState.absent).2.2 true).1 =
      [stealth.Call.readSessionFile, stealth.Call.setCookies
        [⟨"li_at", "AQED", ".linkedin.com", "/", true, true, "None", 1800000000⟩,
          ⟨"JSESSIONID", "ajax:1", ".www.linkedin.com", "/", true, false, "Lax", -1⟩]] := by
    simp [stealth.LoadSession, stealth.SaveSession, stealth.toCookieParam]
  rw [h2] at htrace
  simpa using htrace.symm

/-- The calls of `LoadSession` are the read of the file and, possibly, the cookie replay. -/
theorem loadSession_calls {D : Type} (codec : stealth.JsonCodec D) (file : stealth.FileState D)
    (setCookiesOk : Bool) :
    ∀ c ∈ (stealth.LoadSession codec file setCookiesOk).1,
      c = stealth.Call.readSessionFile ∨ ∃ cookieParams, c = stealth.Call.setCookies cookieParams := by
  intro c hc
  unfold stealth.LoadSession at hc
  split at hc
  · split at hc
    · simp only [List.mem_singleton] at hc
      exact Or.inl hc
    · split_ifs at hc
      all_goals
        simp only [List.mem_cons, List.mem_singleton, List.not_mem_nil, or_false] at hc
        first
          | exact Or.inl hc
          | exact hc.elim Or.inl (fun h => Or.inr ⟨_, h⟩)
  · simp only [List.mem_singleton] at hc
    exact Or.inl hc

/-- The calls of the test for the markers of the login page are `MustHas` calls. -/
theorem loginMarkerCalls_calls (page : stealth.Page) :
    ∀ c ∈ auth.loginMarkerCalls page, ∃ selector, c = stealth.Call.mustHas selector := by
  intro c hc
  unfold auth.loginMarkerCalls at hc
  split_ifs at hc
  all_goals
    simp only [List.mem_cons, List.mem_singleton, List.not_mem_nil, or_false] at hc
    first
      | exact ⟨_, hc⟩
      | exact hc.elim (fun h => ⟨_, h⟩) (fun h => ⟨_, h⟩)

/-- The verification step only extends the trace it is entered with. -/
theorem verifyLogin_extends {D : Type} (w : auth.World D) (file : stealth.FileState D)
    (trace : List stealth.Call) : trace <+: (auth.verifyLogin w file trace).trace := by
  unfold auth.verifyLogin
  dsimp only
  split_ifs
  · exact ⟨_, (List.append_assoc _ _ _).symm⟩
  · simp only [auth.saveAndReturn, List.append_assoc]
    exact List.prefix_append _ _

/-- The challenge handling only extends the trace it is entered with. -/
theorem handleChallenge_extends {D : Type} (w : auth.World D) (file : stealth.FileState D)
    (trace : List stealth.Call) : trace <+: (auth.handleChallenge w file trace).trace := by
  have hv : ∀ extra : List stealth.Call,
      trace <+: (auth.verifyLogin w file (trace ++ extra)).trace := fun extra =>
    (List.prefix_append trace extra).trans (verifyLogin_extends w file _)
  have hv0 : trace <+: (auth.verifyLogin w file trace).trace := verifyLogin_extends w file _
  unfold auth.handleChallenge
  dsimp only
  split_ifs
  · split
    · exact ⟨_, (List.append_assoc _ _ _).symm⟩
    · exact ⟨_, (List.append_assoc _ _ _).symm⟩
    · rw [List.append_assoc, List.append_assoc]
      exact hv _
  · rw [List.append_assoc]
    exact hv _
  · exact ⟨_, rfl⟩
  · exact hv _
  · exact hv _

/-- The fresh login starts by navigating to the login page and reading the credentials. -/
theorem freshLogin_extends {D : Type} (w : auth.World D) (file : stealth.FileState D)
    (trace : List stealth.Call) :
    trace ++ [stealth.Call.navigate "https://www.linkedin.com/login",
      stealth.Call.sleepRandomized "navigate", stealth.Call.randomPageScroll,
      stealth.Call.getenv "LINKEDIN_EMAIL", stealth.Call.getenv "LINKEDIN_PASSWORD"] <+:
      (auth.freshLogin w file trace).trace := by
  unfold auth.freshLogin
  dsimp only
  split_ifs
  · exact List.prefix_refl _
  · exact ⟨_, rfl⟩
  · exact ⟨_, rfl⟩
  · simp only [List.append_assoc]
    exact (List.prefix_append_right_inj _).mpr (List.prefix_append _ _)
  · refine List.IsPrefix.trans ?_ (handleChallenge_extends w file _)
    simp only [List.append_assoc]
    exact (List.prefix_append_right_inj _).mpr (List.prefix_append _ _)

/-- Every fresh login navigates to the login page. -/
theorem freshLogin_navigates {D : Type} (w : auth.World D) (file : stealth.FileState D)
    (trace : List stealth.Call) :
    stealth.Call.navigate "https://www.linkedin.com/login" ∈
      (auth.freshLogin w file trace).trace :=
  (freshLogin_extends w file trace).subset (by simp)

/-- The run of a fresh login in which every control is found, the detector reports no
challenge and the verification page shows no marker of the login page. -/
theorem freshLogin_success {D : Type} (w : auth.World D) (file : stealth.FileState D)
    (trace : List stealth.Call)
    (hemail : w.email ≠ "") (hpassword : w.password ≠ "")
    (hu : w.usernameFound = true) (hp : w.passwordFound = true) (hs : w.submitFound = true)
    (hchallenge : (stealth.CheckForSecurityChallenge w.challengePage).2 = false)
    (hpw : w.verifyPage.has "input[type=password]" = false)
    (hun : w.verifyPage.has "#username" = false) :
    (auth.freshLogin w file trace).outcome = stealth.Outcome.returned none ∧
    (auth.freshLogin w file trace).trace =
      trace ++ [stealth.Call.navigate "https://www.linkedin.com/login",
        stealth.Call.sleepRandomized "navigate", stealth.Call.randomPageScroll,
        stealth.Call.getenv "LINKEDIN_EMAIL", stealth.Call.getenv "LINKEDIN_PASSWORD",
        stealth.Call.element "#username", stealth.Call.element "#password"] ++
      auth.credentialEntryCalls w ++ [stealth.Call.element "button[type=submit]"] ++
      auth.submitCalls ++
      [stealth.Call.checkForSecurityChallenge, stealth.Call.sleepSmart (5 * Second),
        stealth.Call.mustHas "input[type=password]", stealth.Call.mustHas "#username"] ++
      (stealth.SaveSession w.codec w.browserCookies w.writeOk file).1 ∧
    (auth.freshLogin w file trace).sessionFile =
      (stealth.SaveSession w.codec w.browserCookies w.writeOk file).2.2 := by
  have hcred : ¬ (w.email = "" ∨ w.password = "") := by
    rintro (h | h)
    · exact hemail h
    · exact hpassword h
  simp [auth.freshLogin, auth.handleChallenge, auth.verifyLogin, auth.saveAndReturn,
    auth.loginMarkerCalls, hcred, hu, hp, hs, hchallenge, hpw, hun]

/-- C9: if no stored session exists, both credentials are set, the email, password and
submit controls are found, the detector reports no challenge on the post-submit page and
the verification page shows neither a password input nor `#username`, then `Login` goes
through the full credential entry (types the email, types the password, clicks submit),
calls `SaveSession` (which issues the write of the session file whenever the cookies
marshal) and returns nil; the result is nil whether or not the write succeeds. -/
theorem C9_login_fresh_success {D : Type} (w : auth.World D)
    (hfile : w.sessionFile = stealth.FileState.absent)
    (hemail : w.email ≠ "") (hpassword : w.password ≠ "")
    (hu : w.usernameFound = true) (hp : w.passwordFound = true) (hs : w.submitFound = true)
    (hchallenge : (stealth.CheckForSecurityChallenge w.challengePage).2 = false)
    (hpw : w.verifyPage.has "input[type=password]" = false)
    (hun : w.verifyPage.has "#username" = false) :
    (auth.Login w).outcome = stealth.Outcome.returned none ∧
    (auth.Login w).trace =
      [stealth.Call.statSessionFile, stealth.Call.navigate "https://www.linkedin.com/login",
        stealth.Call.sleepRandomized "navigate", stealth.Call.randomPageScroll,
        stealth.Call.getenv "LINKEDIN_EMAIL", stealth.Call.getenv "LINKEDIN_PASSWORD",
        stealth.Call.element "#username", stealth.Call.element "#password"] ++
      auth.credentialEntryCalls w ++ [stealth.Call.element "button[type=submit]"] ++
      auth.submitCalls ++
      [stealth.Call.checkForSecurityChallenge, stealth.Call.sleepSmart (5 * Second),
        stealth.Call.mustHas "input[type=password]", stealth.Call.mustHas "#username"] ++
      (stealth.SaveSession w.codec w.browserCookies w.writeOk stealth.FileState.absent).1 ∧
    stealth.Call.humanType "#username" w.email ∈ (auth.Login w).trace ∧
    stealth.Call.humanType "#password" w.password ∈ (auth.Login w).trace ∧
    stealth.Call.mustClick "button[type=submit]" ∈ (auth.Login w).trace ∧
    stealth.Call.mustCookies ∈ (auth.Login w).trace ∧
    (∀ data, w.codec.marshalIndent w.browserCookies = some data →
      stealth.Call.writeSessionFile ∈ (auth.Login w).trace ∧
      (w.writeOk = true → (auth.Login w).sessionFile = stealth.FileState.content data) ∧
      (w.writeOk = false → (auth.Login w).sessionFile = stealth.FileState.absent)) ∧
    (auth.Login { w with writeOk := false }).outcome = stealth.Outcome.returned none := by
  have hlogin : ∀ w' : auth.World D, w'.sessionFile = stealth.FileState.absent →
      auth.Login w' = auth.freshLogin w' stealth.FileState.absent [stealth.Call.statSessionFile] := by
    intro w' h
    simp [auth.Login, h, stealth.SessionExists]
  obtain ⟨h1, h2, h3⟩ := freshLogin_success w stealth.FileState.absent
    [stealth.Call.statSessionFile] hemail hpassword hu hp hs hchallenge hpw hun
  obtain ⟨h1', _, _⟩ := freshLogin_success { w with writeOk := false } stealth.FileState.absent
    [stealth.Call.statSessionFile] hemail hpassword hu hp hs hchallenge hpw hun
  have hsave : stealth.Call.mustCookies ∈
      (stealth.SaveSession w.codec w.browserCookies w.writeOk stealth.FileState.absent).1 := by
    unfold stealth.SaveSession
    split
    · simp
    · split_ifs <;> simp
  rw [hlogin w hfile, hlogin { w with writeOk := false } hfile]
  refine ⟨h1, by simpa using h2, ?_, ?_, ?_, ?_, ?_, h1'⟩
  · rw [h2]
    simp [auth.credentialEntryCalls]
  · rw [h2]
    simp [auth.credentialEntryCalls]
  · rw [h2]
    simp [auth.submitCalls]
  · rw [h2]
    exact List.mem_append_right _ hsave
  · intro data hdata
    rw [h2, h3]
    refine ⟨List.mem_append_right _ ?_, ?_, ?_⟩
    · cases hw : w.writeOk <;> simp [stealth.SaveSession, hdata]
    · intro hw
      simp [stealth.SaveSession, hdata, hw]
    · intro hw
      simp [stealth.SaveSession, hdata, hw]

/-- C9 at a concrete run: no session file, credentials `ada@example.org` / `s3cret`, a
login page with all three controls, clean pages after the submit, and a disk on which the
write of the session file fails: `Login` still returns nil, having typed both credentials
and attempted the write. -/
theorem C9_login_fresh_success_witness :
    (auth.Login (D := List stealth.NetworkCookie)
      { codec := ⟨some, some⟩, sessionFile := stealth.FileState.absent, setCookiesOk := true,
        removeOk := true, writeOk := false, feedPage := ⟨fun _ => false, []⟩,
        email := "ada@example.org", password := "s3cret", usernameFound := true,
        passwordFound := true, submitFound := true, wanderBeforeSubmit := false,
        challengePage := ⟨fun _ => false, []⟩, captchaTicks := [],
        verifyPage := ⟨fun _ => false, []⟩, browserCookies := [] }).outcome =
      stealth.Outcome.returned none ∧
    stealth.Call.humanType "#password" "s3cret" ∈
      (auth.Login (D := List stealth.NetworkCookie)
        { codec := ⟨some, some⟩, sessionFile := stealth.FileState.absent, setCookiesOk := true,
          removeOk := true, writeOk := false, feedPage := ⟨fun _ => false, []⟩,
          email := "ada@example.org", password := "s3cret", usernameFound := true,
          passwordFound := true, submitFound := true, wanderBeforeSubmit := false,
          challengePage := ⟨fun _ => false, []⟩, captchaTicks := [],
          verifyPage := ⟨fun _ => false, []⟩, browserCookies := [] }).trace ∧
    stealth.Call.writeSessionFile ∈
      (auth.Login (D := List stealth.NetworkCookie)
        { codec := ⟨some, some⟩, sessionFile := stealth.FileState.absent, setCookiesOk := true,
          removeOk := true, writeOk := false, feedPage := ⟨fun _ => false, []⟩,
          email := "ada@example.org", password := "s3cret", usernameFound := true,
          passwordFound := true, submitFound := true, wanderBeforeSubmit := false,
          challengePage := ⟨fun _ => false, []⟩, captchaTicks := [],
          verifyPage := ⟨fun _ => false, []⟩, browserCookies := [] }).trace := by
  have h := C9_login_fresh_success (D := List stealth.NetworkCookie)
    { codec := ⟨some, some⟩, sessionFile := stealth.FileState.absent, setCookiesOk := true,
      removeOk := true, writeOk := false, feedPage := ⟨fun _ => false, []⟩,
      email := "ada@example.org", password := "s3cret", usernameFound := true,
      passwordFound := true, submitFound := true, wanderBeforeSubmit := false,
      challengePage := ⟨fun _ => false, []⟩, captchaTicks := [],
      verifyPage := ⟨fun _ => false, []⟩, browserCookies := [] }
    rfl (by decide) (by decide) rfl rfl rfl (by decide) rfl rfl
  exact ⟨h.1, h.2.2.2.1, (h.2.2.2.2.2.2.1 [] rfl).1⟩

/-- The two ways through `Login`: the session is restored and the run ends there, or the
run continues with the fresh login. -/
theorem login_restore_or_fresh {D : Type} (w : auth.World D) :
    (stealth.SessionExists w.sessionFile = true ∧
      (stealth.LoadSession w.codec w.sessionFile w.setCookiesOk).2 = none ∧
      w.feedPage.has "input[type=password]" = false ∧ w.feedPage.has "#username" = false ∧
      auth.Login w =
        { trace := [stealth.Call.statSessionFile] ++
            (stealth.LoadSession w.codec w.sessionFile w.setCookiesOk).1 ++
            [stealth.Call.navigate "https://www.linkedin.com/feed",
              stealth.Call.sleepRandomized "navigate"] ++ auth.loginMarkerCalls w.feedPage,
          outcome := stealth.Outcome.returned none, sessionFile := w.sessionFile }) ∨
    (¬ (stealth.SessionExists w.sessionFile = true ∧
        (stealth.LoadSession w.codec w.sessionFile w.setCookiesOk).2 = none ∧
        w.feedPage.has "input[type=password]" = false ∧ w.feedPage.has "#username" = false) ∧
      ∃ file trace, auth.Login w = auth.freshLogin w file trace) := by
  unfold auth.Login
  by_cases hex : stealth.SessionExists w.sessionFile = true
  · rw [if_pos hex]
    dsimp only
    by_cases hload : (stealth.LoadSession w.codec w.sessionFile w.setCookiesOk).2 = none
    · rw [if_pos hload]
      by_cases hfeed : (!w.feedPage.has "input[type=password]" &&
          !w.feedPage.has "#username") = true
      · rw [if_pos hfeed]
        simp only [Bool.and_eq_true, Bool.not_eq_true'] at hfeed
        exact Or.inl ⟨hex, hload, hfeed.1, hfeed.2, rfl⟩
      · rw [if_neg hfeed]
        refine Or.inr ⟨?_, _, _, rfl⟩
        rintro ⟨_, _, h1, h2⟩
        exact hfeed (by simp [h1, h2])
    · rw [if_neg hload]
      exact Or.inr ⟨fun h => hload h.2.1, _, _, rfl⟩
  · rw [if_neg hex]
    exact Or.inr ⟨fun h => hex h.1, _, _, rfl⟩

/-- C10: `Login` returns nil without navigating to the login page, reading a credential or
typing anything if and only if a stored session exists, `LoadSession` returns nil, and
the landing page then shows neither a password input nor `#username`; on that path the
session file is neither removed nor written and is left as it was. -/
theorem C10_login_session_restore {D : Type} (w : auth.World D) :
    (((auth.Login w).outcome = stealth.Outcome.returned none ∧
        stealth.Call.navigate "https://www.linkedin.com/login" ∉ (auth.Login w).trace ∧
        (∀ name, stealth.Call.getenv name ∉ (auth.Login w).trace) ∧
        (∀ selector text, stealth.Call.humanType selector text ∉ (auth.Login w).trace)) ↔
      (stealth.SessionExists w.sessionFile = true ∧
        (stealth.LoadSession w.codec w.sessionFile w.setCookiesOk).2 = none ∧
        w.feedPage.has "input[type=password]" = false ∧
        w.feedPage.has "#username" = false)) ∧
    ((stealth.SessionExists w.sessionFile = true ∧
        (stealth.LoadSession w.codec w.sessionFile w.setCookiesOk).2 = none ∧
        w.feedPage.has "input[type=password]" = false ∧
        w.feedPage.has "#username" = false) →
      stealth.Call.removeSessionFile ∉ (auth.Login w).trace ∧
      stealth.Call.writeSessionFile ∉ (auth.Login w).trace ∧
      (auth.Login w).sessionFile = w.sessionFile) := by
  rcases login_restore_or_fresh w with ⟨hex, hload, hpw, hun, hrun⟩ | ⟨hnot, file, trace, hrun⟩
  · rw [hrun]
    have hno : ∀ c : stealth.Call, c ≠ stealth.Call.statSessionFile →
        c ≠ stealth.Call.readSessionFile → (∀ cookieParams, c ≠ stealth.Call.setCookies cookieParams) →
        c ≠ stealth.Call.navigate "https://www.linkedin.com/feed" →
        c ≠ stealth.Call.sleepRandomized "navigate" → (∀ selector, c ≠ stealth.Call.mustHas selector) →
        c ∉ [stealth.Call.statSessionFile] ++
          (stealth.LoadSession w.codec w.sessionFile w.setCookiesOk).1 ++
          [stealth.Call.navigate "https://www.linkedin.com/feed",
            stealth.Call.sleepRandomized "navigate"] ++ auth.loginMarkerCalls w.feedPage := by
      intro c h1 h2 h3 h4 h5 h6 hc
      simp only [List.mem_append, List.mem_cons, List.mem_singleton, List.not_mem_nil,
        or_false] at hc
      rcases hc with ((h | h) | h | h) | h
      · exact h1 h
      · rcases loadSession_calls _ _ _ c h with h | ⟨_, h⟩
        · exact h2 h
        · exact h3 _ h
      · exact h4 h
      · exact h5 h
      · obtain ⟨_, h⟩ := loginMarkerCalls_calls _ c h
        exact h6 _ h
    have hnav : stealth.Call.navigate "https://www.linkedin.com/login" ∉
        [stealth.Call.statSessionFile] ++
          (stealth.LoadSession w.codec w.sessionFile w.setCookiesOk).1 ++
          [stealth.Call.navigate "https://www.linkedin.com/feed",
            stealth.Call.sleepRandomized "navigate"] ++ auth.loginMarkerCalls w.feedPage :=
      hno _ (by simp) (by simp) (by simp) (by decide) (by simp) (by simp)
    refine ⟨⟨fun _ => ⟨hex, hload, hpw, hun⟩, fun _ => ⟨rfl, hnav, ?_, ?_⟩⟩, fun _ => ⟨?_, ?_, rfl⟩⟩
    · intro name
      exact hno _ (by simp) (by simp) (by simp) (by simp) (by simp) (by simp)
    · intro selector text
      exact hno _ (by simp) (by simp) (by simp) (by simp) (by simp) (by simp)
    · exact hno _ (by simp) (by simp) (by simp) (by simp) (by simp) (by simp)
    · exact hno _ (by simp) (by simp) (by simp) (by simp) (by simp) (by simp)
  · rw [hrun]
    refine ⟨⟨fun h => absurd (freshLogin_navigates w file trace) h.2.1, fun h => absurd h hnot⟩,
      fun h => absurd h hnot⟩

/-- C10 at a concrete run: a readable session file holding the cookie `li_at` and a feed
page without login markers; `Login` returns nil after the cookie replay and the navigation
to the feed, and the session file is untouched. -/
theorem C10_login_session_restore_witness :
    (auth.Login (D := List stealth.NetworkCookie)
      { codec := ⟨some, some⟩,
        sessionFile := stealth.FileState.content
          [⟨"li_at", "AQED", ".linkedin.com", "/", 1800000000, 120, true, true, false, "None"⟩],
        setCookiesOk := true, removeOk := true, writeOk := true,
        feedPage := ⟨fun _ => false, []⟩, email := "", password := "", usernameFound := false,
        passwordFound := false, submitFound := false, wanderBeforeSubmit := false,
        challengePage := ⟨fun _ => false, []⟩, captchaTicks := [],
        verifyPage := ⟨fun _ => false, []⟩, browserCookies := [] }).outcome =
      stealth.Outcome.returned none ∧
    (auth.Login (D := List stealth.NetworkCookie)
      { codec := ⟨some, some⟩,
        sessionFile := stealth.FileState.content
          [⟨"li_at", "AQED", ".linkedin.com", "/", 1800000000, 120, true, true, false, "None"⟩],
        setCookiesOk := true, removeOk := true, writeOk := true,
        feedPage := ⟨fun _ => false, []⟩, email := "", password := "", usernameFound := false,
        passwordFound := false, submitFound := false, wanderBeforeSubmit := false,
        challengePage := ⟨fun _ => false, []⟩, captchaTicks := [],
        verifyPage := ⟨fun _ => false, []⟩, browserCookies := [] }).sessionFile =
      stealth.FileState.content
        [⟨"li_at", "AQED", ".linkedin.com", "/", 1800000000, 120, true, true, false, "None"⟩] :=
  ⟨((C10_login_session_restore (D := List stealth.NetworkCookie)
      { codec := ⟨some, some⟩,
        sessionFile := stealth.FileState.content
          [⟨"li_at", "AQED", ".linkedin.com", "/", 1800000000, 120, true, true, false, "None"⟩],
        setCookiesOk := true, removeOk := true, writeOk := true,
        feedPage := ⟨fun _ => false, []⟩, email := "", password := "", usernameFound := false,
        passwordFound := false, submitFound := false, wanderBeforeSubmit := false,
        challengePage := ⟨fun _ => false, []⟩, captchaTicks := [],
        verifyPage := ⟨fun _ => false, []⟩, browserCookies := [] }).1.mpr
      ⟨rfl, rfl, rfl, rfl⟩).1,
    ((C10_login_session_restore (D := List stealth.NetworkCookie)
      { codec := ⟨some, some⟩,
        sessionFile := stealth.FileState.content
          [⟨"li_at", "AQED", ".linkedin.com", "/", 1800000000, 120, true, true, false, "None"⟩],
        setCookiesOk := true, removeOk := true, writeOk := true,
        feedPage := ⟨fun _ => false, []⟩, email := "", password := "", usernameFound := false,
        passwordFound := false, submitFound := false, wanderBeforeSubmit := false,
        challengePage := ⟨fun _ => false, []⟩, captchaTicks := [],
        verifyPage := ⟨fun _ => false, []⟩, browserCookies := [] }).2
      ⟨rfl, rfl, rfl, rfl⟩).2.2⟩

/-- While every tick is within the timeout and still shows a CAPTCHA, the wait goes on. -/
theorem wait_pending (timeout : Duration) (ticks : Nat → Duration × stealth.Page) :
    ∀ n s : Nat, (∀ j, j < n → (ticks (s + j)).1 < timeout ∧
        stealth.detectCaptcha (ticks (s + j)).2 = true) →
      stealth.WaitForManualCaptchaSolve timeout ((List.range' s n).map ticks) =
        (stealth.Outcome.waiting, n) := by
  intro n
  induction n with
  | zero =>
    intro s _
    rfl
  | succ n ih =>
    intro s h
    obtain ⟨h0, h1⟩ := h 0 (Nat.succ_pos n)
    have hrest := ih (s + 1) (fun j hj => by
      have := h (j + 1) (Nat.succ_lt_succ hj)
      rwa [show s + 1 + j = s + (j + 1) by omega])
    rw [List.range'_succ, List.map_cons, stealth.WaitForManualCaptchaSolve, hrest]
    simp only [Nat.add_zero] at h0 h1
    simp [not_le.mpr h0, h1]

/-- The wait ends at the first tick that is past the timeout or shows no CAPTCHA. -/
theorem wait_stops (timeout : Duration) (ticks : Nat → Duration × stealth.Page) :
    ∀ k s n : Nat, k < n →
      (∀ j, j < k → (ticks (s + j)).1 < timeout ∧
        stealth.detectCaptcha (ticks (s + j)).2 = true) →
      ¬ ((ticks (s + k)).1 < timeout ∧ stealth.detectCaptcha (ticks (s + k)).2 = true) →
      stealth.WaitForManualCaptchaSolve timeout ((List.range' s n).map ticks) =
        (stealth.Outcome.returned
          (if timeout ≤ (ticks (s + k)).1 then some stealth.Error.captchaTimeout else none),
          k + 1) := by
  intro k
  induction k with
  | zero =>
    intro s n hn _ hstop
    obtain ⟨m, rfl⟩ : ∃ m, n = m + 1 := ⟨n - 1, by omega⟩
    rw [List.range'_succ, List.map_cons, stealth.WaitForManualCaptchaSolve]
    simp only [Nat.add_zero] at hstop ⊢
    by_cases ht : timeout ≤ (ticks s).1
    · simp [ht]
    · have hd : stealth.detectCaptcha (ticks s).2 = false := by
        cases hdc : stealth.detectCaptcha (ticks s).2
        · rfl
        · exact absurd ⟨not_le.mp ht, hdc⟩ hstop
      simp [ht, hd]
  | succ k ih =>
    intro s n hn h hstop
    obtain ⟨m, rfl⟩ : ∃ m, n = m + 1 := ⟨n - 1, by omega⟩
    obtain ⟨h0, h1⟩ := h 0 (Nat.succ_pos k)
    have hrest := ih (s + 1) m (by omega) (fun j hj => by
      have := h (j + 1) (Nat.succ_lt_succ hj)
      rwa [show s + 1 + j = s + (j + 1) by omega]) (by
      rwa [show s + 1 + k = s + (k + 1) by omega])
    rw [List.range'_succ, List.map_cons, stealth.WaitForManualCaptchaSolve, hrest]
    simp only [Nat.add_zero] at h0 h1
    rw [show s + 1 + k = s + (k + 1) by omega]
    simp [not_le.mpr h0, h1]

/-- C12: with the ticks of `WaitForManualCaptchaSolve(timeout)` numbered from 0, elapsed
times that never decrease and are at least one second per tick, the wait always ends: there
is a tick `k` at which it returns, after `k + 1` polls, whatever ticks follow.  It returns
nil if and only if some tick within the timeout shows no CAPTCHA indicator while every
earlier tick showed one (and then it returns at that tick); otherwise it returns the
timeout error at the first tick whose elapsed time has reached the timeout. -/
theorem C12_captcha_wait_ends (timeout : Duration) (ticks : Nat → Duration × stealth.Page)
    (hmono : ∀ j k, j ≤ k → (ticks j).1 ≤ (ticks k).1)
    (hsec : ∀ k : Nat, ((k : Int) + 1) * Second ≤ (ticks k).1) :
    (∃ (k : Nat) (r : Option stealth.Error),
      (∀ n, k < n → stealth.WaitForManualCaptchaSolve timeout ((List.range n).map ticks) =
        (stealth.Outcome.returned r, k + 1)) ∧
      (r = none ↔ ∃ k', (ticks k').1 < timeout ∧ stealth.detectCaptcha (ticks k').2 = false ∧
        ∀ j, j < k' → stealth.detectCaptcha (ticks j).2 = true) ∧
      (r ≠ none → r = some stealth.Error.captchaTimeout ∧ timeout ≤ (ticks k).1 ∧
        ∀ j, j < k → (ticks j).1 < timeout)) ∧
    (∀ k, (ticks k).1 < timeout → stealth.detectCaptcha (ticks k).2 = false →
      (∀ j, j < k → stealth.detectCaptcha (ticks j).2 = true) →
      ∀ n, k < n → stealth.WaitForManualCaptchaSolve timeout ((List.range n).map ticks) =
        (stealth.Outcome.returned none, k + 1)) := by
  have hsuccess : ∀ k, (ticks k).1 < timeout → stealth.detectCaptcha (ticks k).2 = false →
      (∀ j, j < k → stealth.detectCaptcha (ticks j).2 = true) →
      ∀ n, k < n → stealth.WaitForManualCaptchaSolve timeout ((List.range n).map ticks) =
        (stealth.Outcome.returned none, k + 1) := by
    intro k hk hd hbefore n hn
    have h := wait_stops timeout ticks k 0 n hn
      (fun j hj => by
        rw [Nat.zero_add]
        exact ⟨lt_of_le_of_lt (hmono j k (le_of_lt hj)) hk, hbefore j hj⟩)
      (by
        rw [Nat.zero_add, hd]
        simp)
    rw [Nat.zero_add, if_neg (not_le.mpr hk)] at h
    rw [List.range_eq_range']
    exact h
  refine ⟨?_, hsuccess⟩
  have hex : ∃ k, ¬ ((ticks k).1 < timeout ∧ stealth.detectCaptcha (ticks k).2 = true) := by
    refine ⟨timeout.toNat, fun h => ?_⟩
    have h1 := hsec timeout.toNat
    have h2 : timeout ≤ (timeout.toNat : Int) := Int.self_le_toNat timeout
    have h3 : ((timeout.toNat : Int) + 1) * 1 ≤ ((timeout.toNat : Int) + 1) * Second :=
      mul_le_mul_of_nonneg_left (by decide) (by omega)
    have h4 : (timeout : Int) < timeout :=
      calc (timeout : Int) ≤ (timeout.toNat : Int) := h2
        _ < (timeout.toNat : Int) + 1 := Int.lt_succ_self _
        _ = ((timeout.toNat : Int) + 1) * 1 := (mul_one _).symm
        _ ≤ ((timeout.toNat : Int) + 1) * Second := h3
        _ ≤ (ticks timeout.toNat).1 := h1
        _ < timeout := h.1
    exact lt_irrefl _ h4
  classical
  have hstop := Nat.find_spec hex
  have hmin : ∀ j, j < Nat.find hex → (ticks j).1 < timeout ∧
      stealth.detectCaptcha (ticks j).2 = true := fun j hj =>
    not_not.mp (Nat.find_min hex hj)
  refine ⟨Nat.find hex,
    if timeout ≤ (ticks (Nat.find hex)).1 then some stealth.Error.captchaTimeout else none,
    ?_, ?_, ?_⟩
  · intro n hn
    have h := wait_stops timeout ticks (Nat.find hex) 0 n hn
      (fun j hj => by
        rw [Nat.zero_add]
        exact hmin j hj)
      (by
        rw [Nat.zero_add]
        exact hstop)
    rw [Nat.zero_add] at h
    rw [List.range_eq_range']
    exact h
  · constructor
    · intro hr
      have ht : ¬ timeout ≤ (ticks (Nat.find hex)).1 := by
        intro ht
        rw [if_pos ht] at hr
        exact absurd hr (by simp)
      refine ⟨Nat.find hex, not_le.mp ht, ?_, fun j hj => (hmin j hj).2⟩
      cases hd : stealth.detectCaptcha (ticks (Nat.find hex)).2
      · rfl
      · exact absurd ⟨not_le.mp ht, hd⟩ hstop
    · rintro ⟨k', hk', hd, hbefore⟩
      have hle : Nat.find hex ≤ k' := Nat.find_min' hex (by rw [hd]; simp)
      have hlt : (ticks (Nat.find hex)).1 < timeout :=
        lt_of_le_of_lt (hmono _ _ hle) hk'
      rw [if_neg (not_le.mpr hlt)]
  · intro hr
    have ht : timeout ≤ (ticks (Nat.find hex)).1 := by
      by_contra ht
      rw [if_neg ht] at hr
      exact hr rfl
    exact ⟨by rw [if_pos ht], ht, fun j hj => (hmin j hj).1⟩

/-- C12 at the scenario of the specification: ticks one second apart, a reCAPTCHA widget on
the page at the first four ticks and none from the fifth on, a timeout of 180 seconds: the
wait returns nil after exactly 5 polls. -/
theorem C12_captcha_wait_ends_witness :
    stealth.WaitForManualCaptchaSolve (180 * Second)
      ((List.range 5).map (fun k : Nat =>
        (((k : Int) + 1) * Second,
          (⟨fun selector => decide (k < 4) && decide (selector = ".g-recaptcha"), []⟩ :
            stealth.Page)))) = (stealth.Outcome.returned none, 5) :=
  (C12_captcha_wait_ends (180 * Second)
    (fun k : Nat =>
      (((k : Int) + 1) * Second,
        (⟨fun selector => decide (k < 4) && decide (selector = ".g-recaptcha"), []⟩ :
          stealth.Page)))
    (fun j k hjk => by
      have h : (j : Int) + 1 ≤ (k : Int) + 1 := by omega
      exact mul_le_mul_of_nonneg_right h (by decide))
    (fun _ => le_refl _)).2 4 (by decide) (by decide)
    (fun j hj => by
      have h : j = 0 ∨ j = 1 ∨ j = 2 ∨ j = 3 := by omega
      rcases h with rfl | rfl | rfl | rfl <;> decide) 5 (by decide)

/-- Every call of `LoadSession` belongs to the session-restore attempt. -/
theorem loadSession_restore_calls {D : Type} (codec : stealth.JsonCodec D)
    (file : stealth.FileState D) (setCookiesOk : Bool) :
    ∀ c ∈ (stealth.LoadSession codec file setCookiesOk).1, auth.isRestoreCall c = true := by
  intro c hc
  rcases loadSession_calls codec file setCookiesOk c hc with h | ⟨_, h⟩ <;> (subst h; rfl)

/-- Every test of the login markers belongs to the session-restore attempt. -/
theorem loginMarkerCalls_restore_calls (page : stealth.Page) :
    ∀ c ∈ auth.loginMarkerCalls page, auth.isRestoreCall c = true := by
  intro c hc
  obtain ⟨_, h⟩ := loginMarkerCalls_calls page c hc
  subst h
  rfl

/-- Every call of `DeleteSession` belongs to the session-restore attempt. -/
theorem deleteSession_restore_calls {D : Type} (file : stealth.FileState D) (removeOk : Bool) :
    ∀ c ∈ (stealth.DeleteSession file removeOk).1, auth.isRestoreCall c = true := by
  intro c hc
  unfold stealth.DeleteSession at hc
  split_ifs at hc
  all_goals
    simp only [List.mem_cons, List.mem_singleton, List.not_mem_nil, or_false] at hc
    first
      | (subst hc; rfl)
      | (rcases hc with h | h <;> (subst h; rfl))

/-- A run of `Login` that does not return with a restored session is a fresh login entered
after calls of the session-restore attempt only. -/
theorem login_fresh_after_restore {D : Type} (w : auth.World D)
    (hnot : ¬ (stealth.SessionExists w.sessionFile = true ∧
      (stealth.LoadSession w.codec w.sessionFile w.setCookiesOk).2 = none ∧
      w.feedPage.has "input[type=password]" = false ∧ w.feedPage.has "#username" = false)) :
    ∃ file pre, auth.Login w = auth.freshLogin w file pre ∧
      (∀ c ∈ pre, auth.isRestoreCall c = true) ∧
      ((stealth.LoadSession w.codec w.sessionFile w.setCookiesOk).2 ≠ none →
        file = w.sessionFile ∧ stealth.Call.removeSessionFile ∉ pre) := by
  have hload := loadSession_restore_calls w.codec w.sessionFile w.setCookiesOk
  have hmark := loginMarkerCalls_restore_calls w.feedPage
  have hdel := deleteSession_restore_calls w.sessionFile w.removeOk
  unfold auth.Login
  by_cases hex : stealth.SessionExists w.sessionFile = true
  · rw [if_pos hex]
    dsimp only
    by_cases hl : (stealth.LoadSession w.codec w.sessionFile w.setCookiesOk).2 = none
    · rw [if_pos hl]
      have hfeed : ¬ (!w.feedPage.has "input[type=password]" &&
          !w.feedPage.has "#username") = true := by
        intro h
        simp only [Bool.and_eq_true, Bool.not_eq_true'] at h
        exact hnot ⟨hex, hl, h.1, h.2⟩
      rw [if_neg hfeed]
      refine ⟨_, _, rfl, ?_, fun h => absurd hl h⟩
      intro c hc
      simp only [List.mem_append, List.mem_cons, List.mem_singleton, List.not_mem_nil,
        or_false] at hc
      rcases hc with (((h | h) | h | h) | h) | h
      · subst h
        rfl
      · exact hload c h
      · subst h
        rfl
      · subst h
        rfl
      · exact hmark c h
      · exact hdel c h
    · rw [if_neg hl]
      refine ⟨_, _, rfl, ?_, fun _ => ⟨rfl, ?_⟩⟩
      · intro c hc
        simp only [List.mem_append, List.mem_singleton] at hc
        rcases hc with h | h
        · subst h
          rfl
        · exact hload c h
      · intro hc
        simp only [List.mem_append, List.mem_singleton] at hc
        rcases hc with h | h
        · exact absurd h (by simp)
        · rcases loadSession_calls _ _ _ _ h with h' | ⟨_, h'⟩ <;> exact absurd h' (by simp)
  · rw [if_neg hex]
    refine ⟨_, _, rfl, ?_, fun _ => ⟨rfl, by simp⟩⟩
    intro c hc
    simp only [List.mem_singleton] at hc
    subst hc
    rfl

/-- The CAPTCHA wait returns no error but the timeout. -/
theorem wait_error (timeout : Duration) :
    ∀ ticks : List (Duration × stealth.Page),
      (stealth.WaitForManualCaptchaSolve timeout ticks).1 ≠
        stealth.Outcome.returned (some stealth.Error.credentialsNotFound) := by
  intro ticks
  induction ticks with
  | nil =>
    intro h
    cases h
  | cons tick ticks ih =>
    obtain ⟨elapsed, page⟩ := tick
    rw [stealth.WaitForManualCaptchaSolve]
    split_ifs
    · intro h
      cases h
    · intro h
      cases h
    · exact ih

/-- The verification step does not return the missing-credentials error. -/
theorem verifyLogin_outcome {D : Type} (w : auth.World D) (file : stealth.FileState D)
    (trace : List stealth.Call) :
    (auth.verifyLogin w file trace).outcome ≠
      stealth.Outcome.returned (some stealth.Error.credentialsNotFound) := by
  unfold auth.verifyLogin
  dsimp only
  split_ifs
  · intro h
    cases h
  · intro h
    cases h

/-- The challenge handling does not return the missing-credentials error. -/
theorem handleChallenge_outcome {D : Type} (w : auth.World D) (file : stealth.FileState D)
    (trace : List stealth.Call) :
    (auth.handleChallenge w file trace).outcome ≠
      stealth.Outcome.returned (some stealth.Error.credentialsNotFound) := by
  have hwait := wait_error (180 * Second) w.captchaTicks
  unfold auth.handleChallenge
  dsimp only
  split_ifs
  · split
    · intro h
      cases h
    · rename_i err herr
      intro h
      apply hwait
      rw [herr]
      exact h
    · exact verifyLogin_outcome w file _
  · exact verifyLogin_outcome w file _
  · intro h
    cases h
  · exact verifyLogin_outcome w file _
  · exact verifyLogin_outcome w file _

/-- A run of `Login` that returns the missing-credentials error ends with the navigation
to the login page, its delay, `RandomPageScroll` and the two reads of the environment,
preceded only by calls of the session-restore attempt. -/
theorem login_credentialsNotFound {D : Type} (w : auth.World D)
    (hout : (auth.Login w).outcome =
      stealth.Outcome.returned (some stealth.Error.credentialsNotFound)) :
    ∃ pre, (auth.Login w).trace =
        pre ++ [stealth.Call.navigate "https://www.linkedin.com/login",
          stealth.Call.sleepRandomized "navigate", stealth.Call.randomPageScroll,
          stealth.Call.getenv "LINKEDIN_EMAIL", stealth.Call.getenv "LINKEDIN_PASSWORD"] ∧
      ∀ c ∈ pre, auth.isRestoreCall c = true := by
  rcases login_restore_or_fresh w with ⟨_, _, _, _, hrun⟩ | ⟨hnot, _⟩
  · rw [hrun] at hout
    cases hout
  · obtain ⟨file, pre, hrun, hpre, _⟩ := login_fresh_after_restore w hnot
    rw [hrun] at hout ⊢
    unfold auth.freshLogin at hout ⊢
    dsimp only at hout ⊢
    split_ifs at hout ⊢
    · exact ⟨pre, rfl, hpre⟩
    · cases hout
    · cases hout
    · cases hout
    · exact absurd hout (handleChallenge_outcome w file _)

/-- A configuration that `LoadConfig` returns passes `Validate` and holds the credentials
of the environment where they are set. -/
theorem loadConfig_ok (file : config.ConfigFile) (email password : String)
    (cfg : config.Config) (h : config.LoadConfig file email password = Except.ok cfg) :
    cfg.Validate = none ∧ (email ≠ "" → cfg.Credentials.Email = email) ∧
      (password ≠ "" → cfg.Credentials.Password = password) := by
  unfold config.LoadConfig at h
  cases file with
  | unreadable => cases h
  | malformed => cases h
  | parsed cfg0 =>
    dsimp only at h
    split at h
    · cases h
    · rename_i hval
      injection h with h
      subst h
      refine ⟨hval, ?_, ?_⟩
      · intro he
        by_cases hp : password = "" <;> simp [he, hp]
      · intro hp
        simp [hp]

/-- The run of `Login` that `main` starts: the configuration is loaded with two non-empty
credentials and `Login` reads the environment that the two calls of `os.Setenv` leave. -/
theorem main_login {D : Type} (w : cmd.StartWorld D) (run : auth.Run D)
    (hrun : cmd.main w = cmd.Start.login run) :
    ∃ cfg, config.LoadConfig w.configFile w.envEmail w.envPassword = Except.ok cfg ∧
      cfg.Credentials.Email ≠ "" ∧ cfg.Credentials.Password ≠ "" ∧
      run = auth.Login
        { w.login with
          email := cmd.Setenv w.envEmail cfg.Credentials.Email
          password := cmd.Setenv w.envPassword cfg.Credentials.Password } := by
  unfold cmd.main at hrun
  cases hload : config.LoadConfig w.configFile w.envEmail w.envPassword with
  | error err =>
    rw [hload] at hrun
    cases hrun
  | ok cfg =>
    rw [hload] at hrun
    obtain ⟨hval, hemail, hpassword⟩ := loadConfig_ok _ _ _ _ hload
    have he : (if w.envEmail ≠ "" then w.envEmail else cfg.Credentials.Email) =
        cfg.Credentials.Email := by
      by_cases h : w.envEmail = ""
      · simp [h]
      · rw [if_pos h, hemail h]
    have hp : (if w.envPassword ≠ "" then w.envPassword else cfg.Credentials.Password) =
        cfg.Credentials.Password := by
      by_cases h : w.envPassword = ""
      · simp [h]
      · rw [if_pos h, hpassword h]
    dsimp only at hrun
    rw [he, hp] at hrun
    split_ifs at hrun with hcred
    injection hrun with hrun
    exact ⟨cfg, rfl, fun h => hcred (Or.inl h), fun h => hcred (Or.inr h), hrun.symm⟩

/-- C13, the claim as stated fails on a run of the program: the config file gives the
email `"ada\x00@example.org"` (a double-quoted YAML scalar with the escape for the NUL
byte) and the password `"s3cret"`, and neither variable is set in the environment.
`Validate` and the check of `main` accept the two non-empty credentials; `os.Setenv`
rejects the email, so `LINKEDIN_EMAIL` stays unset.  `Login`, with no session file, reads
the empty email and returns the missing-credentials error only after it has navigated to
the login page, waited and called `RandomPageScroll` in the browser. -/
theorem C13_missing_credentials_counterexample :
    cmd.main (D := List stealth.NetworkCookie)
      { configFile := config.ConfigFile.parsed
          { Credentials := ⟨"ada\x00@example.org", "s3cret"⟩, Search := ⟨50⟩,
            Connection := ⟨20, 10, false, []⟩,
            Messaging := ⟨false, false, false, [], []⟩ },
        envEmail := "", envPassword := "", dbOk := true, browserOk := true,
        login :=
          { codec := ⟨some, some⟩, sessionFile := stealth.FileState.absent,
            setCookiesOk := true, removeOk := true, writeOk := true,
            feedPage := ⟨fun _ => false, []⟩, email := "", password := "",
            usernameFound := true, passwordFound := true, submitFound := true,
            wanderBeforeSubmit := false, challengePage := ⟨fun _ => false, []⟩,
            captchaTicks := [], verifyPage := ⟨fun _ => false, []⟩,
            browserCookies := [] } } =
      cmd.Start.login
        { trace := [stealth.Call.statSessionFile,
            stealth.Call.navigate "https://www.linkedin.com/login",
            stealth.Call.sleepRandomized "navigate", stealth.Call.randomPageScroll,
            stealth.Call.getenv "LINKEDIN_EMAIL", stealth.Call.getenv "LINKEDIN_PASSWORD"],
          outcome := stealth.Outcome.returned (some stealth.Error.credentialsNotFound),
          sessionFile := stealth.FileState.absent } := by
  rfl

/-- C13, amended: when the email or the password is set neither in the environment nor in
the config file, the program stops in `LoadConfig` with the error of `Validate`,
"credentials are required": the browser is never started and `Login` is not called, so no
call reaches the browser.  `Login` is called only when the configuration holds two
non-empty credentials.  `Login` itself reads the two variables only after the navigation
to the login page: whenever it returns its missing-credentials error, its trace ends with
that navigation, the delay, `RandomPageScroll` and the two reads, preceded only by calls
of the session-restore attempt. -/
theorem C13_missing_credentials_amended {D : Type} (w : cmd.StartWorld D) :
    (∀ cfg, w.configFile = config.ConfigFile.parsed cfg →
      (w.envEmail = "" ∧ cfg.Credentials.Email = "") ∨
        (w.envPassword = "" ∧ cfg.Credentials.Password = "") →
      cmd.main w = cmd.Start.fatalLoadConfig
        (config.LoadError.invalid config.ValidationError.credentialsRequired)) ∧
    (∀ run, cmd.main w = cmd.Start.login run →
      ∃ cfg, config.LoadConfig w.configFile w.envEmail w.envPassword = Except.ok cfg ∧
        cfg.Credentials.Email ≠ "" ∧ cfg.Credentials.Password ≠ "" ∧
        run = auth.Login
          { w.login with
            email := cmd.Setenv w.envEmail cfg.Credentials.Email
            password := cmd.Setenv w.envPassword cfg.Credentials.Password }) ∧
    (∀ run, cmd.main w = cmd.Start.login run →
      run.outcome = stealth.Outcome.returned (some stealth.Error.credentialsNotFound) →
      ∃ pre, run.trace =
          pre ++ [stealth.Call.navigate "https://www.linkedin.com/login",
            stealth.Call.sleepRandomized "navigate", stealth.Call.randomPageScroll,
            stealth.Call.getenv "LINKEDIN_EMAIL", stealth.Call.getenv "LINKEDIN_PASSWORD"] ∧
        ∀ c ∈ pre, auth.isRestoreCall c = true) := by
  refine ⟨?_, main_login w, ?_⟩
  · intro cfg hfile hcred
    unfold cmd.main config.LoadConfig
    rw [hfile]
    dsimp only
    have hval : ∀ c : config.Config,
        (c.Credentials.Email = "" ∨ c.Credentials.Password = "") →
        c.Validate = some config.ValidationError.credentialsRequired := by
      intro c hc
      unfold config.Config.Validate
      rw [if_pos hc]
    rcases hcred with ⟨h1, h2⟩ | ⟨h1, h2⟩
    · rw [hval _ (Or.inl (by by_cases hp : w.envPassword = "" <;> simp [h1, h2, hp]))]
    · rw [hval _ (Or.inr (by by_cases he : w.envEmail = "" <;> simp [h1, h2, he]))]
  · intro run hrun hout
    obtain ⟨cfg, -, -, -, hlogin⟩ := main_login w run hrun
    rw [hlogin] at hout ⊢
    exact login_credentialsNotFound _ hout

/-- C13 amended, at a concrete run: a config file without credentials and an empty
environment; the program stops with the error of `Validate` before the browser exists. -/
theorem C13_missing_credentials_amended_witness :
    cmd.main (D := List stealth.NetworkCookie)
      { configFile := config.ConfigFile.parsed
          { Credentials := ⟨"", ""⟩, Search := ⟨50⟩, Connection := ⟨20, 10, false, []⟩,
            Messaging := ⟨false, false, false, [], []⟩ },
        envEmail := "", envPassword := "s3cret", dbOk := true, browserOk := true,
        login :=
          { codec := ⟨some, some⟩, sessionFile := stealth.FileState.absent,
            setCookiesOk := true, removeOk := true, writeOk := true,
            feedPage := ⟨fun _ => false, []⟩, email := "", password := "",
            usernameFound := true, passwordFound := true, submitFound := true,
            wanderBeforeSubmit := false, challengePage := ⟨fun _ => false, []⟩,
            captchaTicks := [], verifyPage := ⟨fun _ => false, []⟩,
            browserCookies := [] } } =
      cmd.Start.fatalLoadConfig
        (config.LoadError.invalid config.ValidationError.credentialsRequired) :=
  (C13_missing_credentials_amended (D := List stealth.NetworkCookie)
      { configFile := config.ConfigFile.parsed
          { Credentials := ⟨"", ""⟩, Search := ⟨50⟩, Connection := ⟨20, 10, false, []⟩,
            Messaging := ⟨false, false, false, [], []⟩ },
        envEmail := "", envPassword := "s3cret", dbOk := true, browserOk := true,
        login :=
          { codec := ⟨some, some⟩, sessionFile := stealth.FileState.absent,
            setCookiesOk := true, removeOk := true, writeOk := true,
            feedPage := ⟨fun _ => false, []⟩, email := "", password := "",
            usernameFound := true, passwordFound := true, submitFound := true,
            wanderBeforeSubmit := false, challengePage := ⟨fun _ => false, []⟩,
            captchaTicks := [], verifyPage := ⟨fun _ => false, []⟩,
            browserCookies := [] } }).1 _ rfl (Or.inl ⟨rfl, rfl⟩)

/-- A wait that has handled no tick has not returned. -/
theorem wait_no_poll (timeout : Duration) (ticks : List (Duration × stealth.Page))
    (h : (stealth.WaitForManualCaptchaSolve timeout ticks).2 = 0) :
    (stealth.WaitForManualCaptchaSolve timeout ticks).1 = stealth.Outcome.waiting := by
  cases ticks with
  | nil => rfl
  | cons tick rest =>
    exfalso
    rw [stealth.WaitForManualCaptchaSolve] at h
    split_ifs at h
    all_goals simp at h

/-- What one poll within the timeout does: it ends the wait with nil exactly when
`detectCaptcha` finds nothing on the page. -/
theorem wait_first_poll (timeout elapsed : Duration) (page : stealth.Page)
    (rest : List (Duration × stealth.Page)) (h : elapsed < timeout) :
    stealth.WaitForManualCaptchaSolve timeout ((elapsed, page) :: rest) =
      (stealth.Outcome.returned none, 1) ↔ stealth.detectCaptcha page = false := by
  rw [stealth.WaitForManualCaptchaSolve, if_neg (not_le.mpr h)]
  cases hd : stealth.detectCaptcha page
  · simp
  · simp only [Bool.not_true, Bool.false_eq_true, if_false]
    refine ⟨fun heq => ?_, fun hf => absurd hf (by decide)⟩
    exfalso
    have h2 : (stealth.WaitForManualCaptchaSolve timeout rest).2 = 0 := by
      have := congrArg Prod.snd heq
      simpa using this
    have h1 := congrArg Prod.fst heq
    rw [wait_no_poll timeout rest h2] at h1
    exact absurd h1 (by simp)

/-- C14, the claim as stated fails: at a poll one second into a 180-second wait, on a page
with a verification-code input and no CAPTCHA indicator, the detector reports
EMAIL_VERIFICATION and `WaitForManualCaptchaSolve` returns nil at that poll. -/
theorem C14_captcha_poll_counterexample :
    stealth.CheckForSecurityChallenge
      ⟨fun selector => selector = "input[name='verification-code']", []⟩ =
      ("EMAIL_VERIFICATION", true) ∧
    stealth.WaitForManualCaptchaSolve (180 * Second)
      [(1 * Second, ⟨fun selector => selector = "input[name='verification-code']", []⟩)] =
      (stealth.Outcome.returned none, 1) := by
  constructor <;> decide

/-- C14, amended: a poll within the timeout counts as success if and only if
`detectCaptcha` finds no CAPTCHA selector and no CAPTCHA phrase on the page at that poll;
the other challenge classes are not consulted.  So the wait returns nil at a poll whose
page the detector classifies as no challenge, EMAIL_VERIFICATION or SUSPICIOUS_ACTIVITY,
never at one it classifies as CAPTCHA, and at one it classifies as PIN_VERIFICATION exactly
when the page has no CAPTCHA indicator. -/
theorem C14_captcha_poll_amended (timeout elapsed : Duration) (page : stealth.Page)
    (rest : List (Duration × stealth.Page)) (h : elapsed < timeout) :
    (stealth.WaitForManualCaptchaSolve timeout ((elapsed, page) :: rest) =
      (stealth.Outcome.returned none, 1) ↔ stealth.detectCaptcha page = false) ∧
    (stealth.CheckForSecurityChallenge page = ("", false) ∨
      stealth.CheckForSecurityChallenge page = ("EMAIL_VERIFICATION", true) ∨
      stealth.CheckForSecurityChallenge page = ("SUSPICIOUS_ACTIVITY", true) →
      stealth.WaitForManualCaptchaSolve timeout ((elapsed, page) :: rest) =
        (stealth.Outcome.returned none, 1)) ∧
    (stealth.CheckForSecurityChallenge page = ("CAPTCHA", true) →
      stealth.WaitForManualCaptchaSolve timeout ((elapsed, page) :: rest) ≠
        (stealth.Outcome.returned none, 1)) := by
  have hpoll := wait_first_poll timeout elapsed page rest h
  refine ⟨hpoll, ?_, ?_⟩
  · intro hclass
    rw [hpoll]
    unfold stealth.CheckForSecurityChallenge at hclass
    by_cases hpin : (page.has "input[name=pin]" ||
        page.has "#input__phone_verification_pin") = true
    · rw [if_pos hpin] at hclass
      rcases hclass with hc | hc | hc <;> exact absurd (congrArg Prod.fst hc) (by decide)
    · rw [if_neg hpin] at hclass
      cases hd : stealth.detectCaptcha page
      · rfl
      · rw [hd, if_pos rfl] at hclass
        rcases hclass with hc | hc | hc <;> exact absurd (congrArg Prod.fst hc) (by decide)
  · intro hclass hsucc
    have hd := hpoll.mp hsucc
    unfold stealth.CheckForSecurityChallenge at hclass
    rw [hd] at hclass
    simp only [Bool.false_eq_true, if_false] at hclass
    split_ifs at hclass <;> exact absurd (congrArg Prod.fst hclass) (by decide)

/-- C14 amended, at a concrete poll: one second into a 180-second wait, on a page with a
PIN input and no CAPTCHA indicator, the wait returns nil although the detector reports
PIN_VERIFICATION. -/
theorem C14_captcha_poll_amended_witness :
    stealth.CheckForSecurityChallenge ⟨fun selector => selector = "input[name=pin]", []⟩ =
      ("PIN_VERIFICATION", true) ∧
    stealth.WaitForManualCaptchaSolve (180 * Second)
      [(1 * Second, ⟨fun selector => selector = "input[name=pin]", []⟩)] =
      (stealth.Outcome.returned none, 1) :=
  ⟨by decide, (C14_captcha_poll_amended (180 * Second) (1 * Second)
    ⟨fun selector => selector = "input[name=pin]", []⟩ [] (by decide)).1.mpr (by decide)⟩

/-- The calls of a restored-session run all belong to the session-restore attempt. -/
theorem restored_trace_calls {D : Type} (w : auth.World D) :
    ∀ c ∈ [stealth.Call.statSessionFile] ++
      (stealth.LoadSession w.codec w.sessionFile w.setCookiesOk).1 ++
      [stealth.Call.navigate "https://www.linkedin.com/feed",
        stealth.Call.sleepRandomized "navigate"] ++ auth.loginMarkerCalls w.feedPage,
      auth.isRestoreCall c = true := by
  intro c hc
  simp only [List.mem_append, List.mem_cons, List.mem_singleton, List.not_mem_nil,
    or_false] at hc
  rcases hc with ((h | h) | h | h) | h
  · subst h
    rfl
  · exact loadSession_restore_calls _ _ _ c h
  · subst h
    rfl
  · subst h
    rfl
  · exact loginMarkerCalls_restore_calls _ c h

/-- No call of the session-restore attempt is a post-submit call. -/
theorem restoreCall_not_postSubmit (c : stealth.Call) (h : auth.isRestoreCall c = true) :
    auth.isPostSubmitCall c = false := by
  cases c <;> simp [auth.isRestoreCall, auth.isPostSubmitCall] at h ⊢

/-- The credential entry issues no post-submit call. -/
theorem credentialEntryCalls_not_postSubmit {D : Type} (w : auth.World D) :
    ∀ c ∈ auth.credentialEntryCalls w, auth.isPostSubmitCall c = false := by
  unfold auth.credentialEntryCalls
  split_ifs <;> simp [auth.isPostSubmitCall]

/-- A fresh login either reaches the challenge check, having issued no post-submit call
before it, or ends without any post-submit call. -/
theorem freshLogin_challenge_or_early {D : Type} (w : auth.World D)
    (file : stealth.FileState D) (pre : List stealth.Call)
    (hpre : ∀ c ∈ pre, auth.isPostSubmitCall c = false) :
    (∃ t, auth.freshLogin w file pre = auth.handleChallenge w file t ∧
      ∀ c ∈ t, auth.isPostSubmitCall c = false) ∨
    (∀ c ∈ (auth.freshLogin w file pre).trace, auth.isPostSubmitCall c = false) := by
  have hce := credentialEntryCalls_not_postSubmit w
  have hstart : ∀ c ∈ pre ++ [stealth.Call.navigate "https://www.linkedin.com/login",
      stealth.Call.sleepRandomized "navigate", stealth.Call.randomPageScroll,
      stealth.Call.getenv "LINKEDIN_EMAIL", stealth.Call.getenv "LINKEDIN_PASSWORD"],
      auth.isPostSubmitCall c = false := by
    have hfive : ∀ c ∈ [stealth.Call.navigate "https://www.linkedin.com/login",
        stealth.Call.sleepRandomized "navigate", stealth.Call.randomPageScroll,
        stealth.Call.getenv "LINKEDIN_EMAIL", stealth.Call.getenv "LINKEDIN_PASSWORD"],
        auth.isPostSubmitCall c = false := by decide
    intro c hc
    rcases List.mem_append.mp hc with h | h
    · exact hpre c h
    · exact hfive c h
  have hctl : ∀ c ∈ [stealth.Call.element "#username", stealth.Call.element "#password"],
      auth.isPostSubmitCall c = false := by decide
  have hsub : ∀ c ∈ auth.submitCalls, auth.isPostSubmitCall c = false := by decide
  have hjoin : ∀ a b : List stealth.Call, (∀ c ∈ a, auth.isPostSubmitCall c = false) →
      (∀ c ∈ b, auth.isPostSubmitCall c = false) →
      ∀ c ∈ a ++ b, auth.isPostSubmitCall c = false := by
    intro a b ha hb c hc
    rcases List.mem_append.mp hc with h | h
    · exact ha c h
    · exact hb c h
  unfold auth.freshLogin
  dsimp only
  split_ifs
  · exact Or.inr hstart
  · exact Or.inr (hjoin _ _ hstart (by decide))
  · exact Or.inr (hjoin _ _ hstart hctl)
  · exact Or.inr (hjoin _ _ (hjoin _ _ (hjoin _ _ hstart hctl) hce) (by decide))
  · exact Or.inl ⟨_, rfl,
      hjoin _ _ (hjoin _ _ (hjoin _ _ (hjoin _ _ hstart hctl) hce) (by decide)) hsub⟩

/-- A run of `Login` that issues the challenge check is a fresh login that reached the
challenge handling without any post-submit call before it. -/
theorem login_reaches_challenge {D : Type} (w : auth.World D)
    (hrun : stealth.Call.checkForSecurityChallenge ∈ (auth.Login w).trace) :
    ∃ file t, auth.Login w = auth.handleChallenge w file t ∧
      ∀ c ∈ t, auth.isPostSubmitCall c = false := by
  rcases login_restore_or_fresh w with ⟨_, _, _, _, hrestored⟩ | ⟨hnot, _⟩
  · rw [hrestored] at hrun
    have := restoreCall_not_postSubmit _ (restored_trace_calls w _ hrun)
    exact absurd this (by decide)
  · obtain ⟨file, pre, hfresh, hpre, _⟩ := login_fresh_after_restore w hnot
    rcases freshLogin_challenge_or_early w file pre
      (fun c hc => restoreCall_not_postSubmit c (hpre c hc)) with ⟨t, ht, hcalls⟩ | hearly
    · exact ⟨file, t, hfresh.trans ht, hcalls⟩
    · rw [hfresh] at hrun
      exact absurd (hearly _ hrun) (by decide)

/-- C15: whenever `Login` runs the post-submit challenge check and the detector reports
SUSPICIOUS_ACTIVITY, `Login` returns the account-flagged error and the check is its last
call: no post-submit call precedes it and nothing follows it, so there is no CAPTCHA wait,
no smart delay, no verification of the login markers after the check, and no call of
`SaveSession` (neither `MustCookies` nor the write of the session file). -/
theorem C15_login_account_flagged {D : Type} (w : auth.World D)
    (hrun : stealth.Call.checkForSecurityChallenge ∈ (auth.Login w).trace)
    (hdet : stealth.CheckForSecurityChallenge w.challengePage =
      ("SUSPICIOUS_ACTIVITY", true)) :
    (auth.Login w).outcome = stealth.Outcome.returned (some stealth.Error.accountFlagged) ∧
    (∃ pre, (auth.Login w).trace = pre ++ [stealth.Call.checkForSecurityChallenge] ∧
      ∀ c ∈ pre, auth.isPostSubmitCall c = false) ∧
    (auth.Login w).trace.getLast? = some stealth.Call.checkForSecurityChallenge ∧
    (∀ timeout, stealth.Call.waitForManualCaptchaSolve timeout ∉ (auth.Login w).trace) ∧
    (∀ d, stealth.Call.sleepSmart d ∉ (auth.Login w).trace) ∧
    stealth.Call.mustCookies ∉ (auth.Login w).trace ∧
    stealth.Call.writeSessionFile ∉ (auth.Login w).trace := by
  obtain ⟨file, t, hlogin, ht⟩ := login_reaches_challenge w hrun
  have hflag : auth.handleChallenge w file t =
      { trace := t ++ [stealth.Call.checkForSecurityChallenge],
        outcome := stealth.Outcome.returned (some stealth.Error.accountFlagged),
        sessionFile := file } := by
    unfold auth.handleChallenge
    dsimp only
    rw [hdet]
    rw [if_pos rfl, if_neg (by decide), if_neg (by decide), if_pos rfl]
  have hnot : ∀ c, auth.isPostSubmitCall c = true → c ≠ stealth.Call.checkForSecurityChallenge →
      c ∉ t ++ [stealth.Call.checkForSecurityChallenge] := by
    intro c hc hne hmem
    rcases List.mem_append.mp hmem with h | h
    · rw [ht c h] at hc
      exact absurd hc (by decide)
    · exact hne (List.mem_singleton.mp h)
  rw [hlogin, hflag]
  refine ⟨rfl, ⟨t, rfl, ht⟩, List.getLast?_concat _, ?_, ?_, ?_, ?_⟩
  · intro timeout
    exact hnot _ rfl (by simp)
  · intro d
    exact hnot _ rfl (by simp)
  · exact hnot _ rfl (by simp)
  · exact hnot _ rfl (by simp)

/-- C15 at a concrete run: a fresh login whose post-submit page says "unusual activity";
`Login` returns the account-flagged error and writes no session file. -/
theorem C15_login_account_flagged_witness :
    (auth.Login (D := List stealth.NetworkCookie)
      { codec := ⟨some, some⟩, sessionFile := stealth.FileState.absent, setCookiesOk := true,
        removeOk := true, writeOk := true, feedPage := ⟨fun _ => false, []⟩,
        email := "ada@example.org", password := "s3cret", usernameFound := true,
        passwordFound := true, submitFound := true, wanderBeforeSubmit := false,
        challengePage := ⟨fun _ => false, stealth.bytes "<p>unusual activity</p>"⟩,
        captchaTicks := [], verifyPage := ⟨fun _ => false, []⟩, browserCookies := [] }).outcome =
      stealth.Outcome.returned (some stealth.Error.accountFlagged) ∧
    stealth.Call.writeSessionFile ∉ (auth.Login (D := List stealth.NetworkCookie)
      { codec := ⟨some, some⟩, sessionFile := stealth.FileState.absent, setCookiesOk := true,
        removeOk := true, writeOk := true, feedPage := ⟨fun _ => false, []⟩,
        email := "ada@example.org", password := "s3cret", usernameFound := true,
        passwordFound := true, submitFound := true, wanderBeforeSubmit := false,
        challengePage := ⟨fun _ => false, stealth.bytes "<p>unusual activity</p>"⟩,
        captchaTicks := [], verifyPage := ⟨fun _ => false, []⟩, browserCookies := [] }).trace :=
  ⟨(C15_login_account_flagged (D := List stealth.NetworkCookie)
      { codec := ⟨some, some⟩, sessionFile := stealth.FileState.absent, setCookiesOk := true,
        removeOk := true, writeOk := true, feedPage := ⟨fun _ => false, []⟩,
        email := "ada@example.org", password := "s3cret", usernameFound := true,
        passwordFound := true, submitFound := true, wanderBeforeSubmit := false,
        challengePage := ⟨fun _ => false, stealth.bytes "<p>unusual activity</p>"⟩,
        captchaTicks := [], verifyPage := ⟨fun _ => false, []⟩, browserCookies := [] } (by decide) (by decide)).1,
    (C15_login_account_flagged (D := List stealth.NetworkCookie)
      { codec := ⟨some, some⟩, sessionFile := stealth.FileState.absent, setCookiesOk := true,
        removeOk := true, writeOk := true, feedPage := ⟨fun _ => false, []⟩,
        email := "ada@example.org", password := "s3cret", usernameFound := true,
        passwordFound := true, submitFound := true, wanderBeforeSubmit := false,
        challengePage := ⟨fun _ => false, stealth.bytes "<p>unusual activity</p>"⟩,
        captchaTicks := [], verifyPage := ⟨fun _ => false, []⟩, browserCookies := [] } (by decide) (by decide)).2.2.2.2.2.2⟩

/-- The calls of `SaveSession` do not remove the session file. -/
theorem saveSession_never_removes {D : Type} (codec : stealth.JsonCodec D)
    (cookies : List stealth.NetworkCookie) (writeOk : Bool) (file : stealth.FileState D) :
    stealth.Call.removeSessionFile ∉ (stealth.SaveSession codec cookies writeOk file).1 := by
  unfold stealth.SaveSession
  split
  · simp
  · split_ifs <;> simp

/-- The verification step does not remove the session file. -/
theorem verifyLogin_never_removes {D : Type} (w : auth.World D) (file : stealth.FileState D)
    (t : List stealth.Call)
    (h : stealth.Call.removeSessionFile ∈ (auth.verifyLogin w file t).trace) :
    stealth.Call.removeSessionFile ∈ t := by
  have hs := saveSession_never_removes w.codec w.browserCookies w.writeOk file
  unfold auth.verifyLogin auth.saveAndReturn auth.loginMarkerCalls at h
  dsimp only at h
  split_ifs at h <;> simp [hs] at h <;> exact h

/-- The challenge handling does not remove the session file. -/
theorem handleChallenge_never_removes {D : Type} (w : auth.World D) (file : stealth.FileState D)
    (t : List stealth.Call)
    (h : stealth.Call.removeSessionFile ∈ (auth.handleChallenge w file t).trace) :
    stealth.Call.removeSessionFile ∈ t := by
  unfold auth.handleChallenge at h
  dsimp only at h
  split_ifs at h
  · split at h
    · simpa using h
    · simpa using h
    · simpa using verifyLogin_never_removes w file _ h
  · simpa using verifyLogin_never_removes w file _ h
  · simpa using h
  · simpa using verifyLogin_never_removes w file _ h
  · simpa using verifyLogin_never_removes w file _ h

/-- The fresh login does not remove the session file. -/
theorem freshLogin_never_removes {D : Type} (w : auth.World D) (file : stealth.FileState D)
    (t : List stealth.Call)
    (h : stealth.Call.removeSessionFile ∈ (auth.freshLogin w file t).trace) :
    stealth.Call.removeSessionFile ∈ t := by
  unfold auth.freshLogin at h
  dsimp only at h
  split_ifs at h
  · simpa using h
  · simpa using h
  · simpa using h
  · simpa [auth.credentialEntryCalls] using h
  · have := handleChallenge_never_removes w file _ h
    simpa [auth.credentialEntryCalls, auth.submitCalls] using this

/-- C16, what the code does: when a stored session exists and `LoadSession` fails with the
parse error or the empty error, `Login` drops the error and runs the fresh login on the
session file as it is; `os.Remove` is never called, so the stored session is not deleted. -/
theorem C16_login_load_failure_keeps_session {D : Type} (w : auth.World D)
    (hex : stealth.SessionExists w.sessionFile = true)
    (hfail : (stealth.LoadSession w.codec w.sessionFile w.setCookiesOk).2 =
        some stealth.Error.parseSessionFile ∨
      (stealth.LoadSession w.codec w.sessionFile w.setCookiesOk).2 =
        some stealth.Error.noCookies) :
    auth.Login w = auth.freshLogin w w.sessionFile
      ([stealth.Call.statSessionFile] ++
        (stealth.LoadSession w.codec w.sessionFile w.setCookiesOk).1) ∧
    stealth.Call.navigate "https://www.linkedin.com/login" ∈ (auth.Login w).trace ∧
    stealth.Call.removeSessionFile ∉ (auth.Login w).trace := by
  have hload : ¬ (stealth.LoadSession w.codec w.sessionFile w.setCookiesOk).2 = none := by
    rcases hfail with h | h <;> (rw [h]; simp)
  have hrun : auth.Login w = auth.freshLogin w w.sessionFile
      ([stealth.Call.statSessionFile] ++
        (stealth.LoadSession w.codec w.sessionFile w.setCookiesOk).1) := by
    unfold auth.Login
    rw [if_pos hex]
    dsimp only
    rw [if_neg hload]
  refine ⟨hrun, ?_, ?_⟩
  · rw [hrun]
    exact freshLogin_navigates w _ _
  · rw [hrun]
    intro h
    have hpre := freshLogin_never_removes w _ _ h
    rcases List.mem_append.mp hpre with h1 | h1
    · exact absurd h1 (by simp)
    · rcases loadSession_calls _ _ _ _ h1 with h2 | ⟨_, h2⟩ <;> exact absurd h2 (by simp)

/-- C16 at a concrete run: the session file holds the empty list, so `LoadSession` returns
the empty error; the login page then fails to show `#username`.  `Login` has attempted the
fresh login without any call of `os.Remove`, and the session file is still there. -/
theorem C16_login_load_failure_keeps_session_witness :
    (stealth.LoadSession (⟨some, some⟩ : stealth.JsonCodec (List stealth.NetworkCookie))
      (stealth.FileState.content []) true).2 = some stealth.Error.noCookies ∧
    stealth.Call.removeSessionFile ∉ (auth.Login (D := List stealth.NetworkCookie)
      { codec := ⟨some, some⟩, sessionFile := stealth.FileState.content [],
        setCookiesOk := true, removeOk := true, writeOk := true,
        feedPage := ⟨fun _ => false, []⟩,
        email := "ada@example.org", password := "s3cret", usernameFound := false,
        passwordFound := true, submitFound := true, wanderBeforeSubmit := false,
        challengePage := ⟨fun _ => false, []⟩, captchaTicks := [],
        verifyPage := ⟨fun _ => false, []⟩, browserCookies := [] }).trace ∧
    (auth.Login (D := List stealth.NetworkCookie)
      { codec := ⟨some, some⟩, sessionFile := stealth.FileState.content [],
        setCookiesOk := true, removeOk := true, writeOk := true,
        feedPage := ⟨fun _ => false, []⟩,
        email := "ada@example.org", password := "s3cret", usernameFound := false,
        passwordFound := true, submitFound := true, wanderBeforeSubmit := false,
        challengePage := ⟨fun _ => false, []⟩, captchaTicks := [],
        verifyPage := ⟨fun _ => false, []⟩, browserCookies := [] }).sessionFile = stealth.FileState.content [] ∧
    (auth.Login (D := List stealth.NetworkCookie)
      { codec := ⟨some, some⟩, sessionFile := stealth.FileState.content [],
        setCookiesOk := true, removeOk := true, writeOk := true,
        feedPage := ⟨fun _ => false, []⟩,
        email := "ada@example.org", password := "s3cret", usernameFound := false,
        passwordFound := true, submitFound := true, wanderBeforeSubmit := false,
        challengePage := ⟨fun _ => false, []⟩, captchaTicks := [],
        verifyPage := ⟨fun _ => false, []⟩, browserCookies := [] }).trace =
      [stealth.Call.statSessionFile, stealth.Call.readSessionFile,
        stealth.Call.navigate "https://www.linkedin.com/login",
        stealth.Call.sleepRandomized "navigate", stealth.Call.randomPageScroll,
        stealth.Call.getenv "LINKEDIN_EMAIL", stealth.Call.getenv "LINKEDIN_PASSWORD",
        stealth.Call.element "#username"] :=
  ⟨rfl, (C16_login_load_failure_keeps_session (D := List stealth.NetworkCookie)
      { codec := ⟨some, some⟩, sessionFile := stealth.FileState.content [],
        setCookiesOk := true, removeOk := true, writeOk := true,
        feedPage := ⟨fun _ => false, []⟩,
        email := "ada@example.org", password := "s3cret", usernameFound := false,
        passwordFound := true, submitFound := true, wanderBeforeSubmit := false,
        challengePage := ⟨fun _ => false, []⟩, captchaTicks := [],
        verifyPage := ⟨fun _ => false, []⟩, browserCookies := [] } rfl (Or.inr rfl)).2.2, rfl, rfl⟩

/-- C17: `LoadSession` only reads the file and returns an error, without any cookie replay,
when the session file cannot be read (not-found error), when its contents do not parse
(parse error) and when they parse to zero cookies (empty error); the three errors are
distinct, the read is tried before the parse and the parse before the count, and a cookie
replay is issued only for a readable file that parses to at least one cookie. -/
theorem C17_loadSession_errors {D : Type} (codec : stealth.JsonCodec D)
    (setCookiesOk : Bool) :
    (stealth.LoadSession codec stealth.FileState.absent setCookiesOk =
      ([stealth.Call.readSessionFile], some stealth.Error.sessionFileNotFound)) ∧
    (stealth.LoadSession codec stealth.FileState.unreadable setCookiesOk =
      ([stealth.Call.readSessionFile], some stealth.Error.sessionFileNotFound)) ∧
    (∀ data, codec.unmarshal data = none →
      stealth.LoadSession codec (stealth.FileState.content data) setCookiesOk =
        ([stealth.Call.readSessionFile], some stealth.Error.parseSessionFile)) ∧
    (∀ data, codec.unmarshal data = some [] →
      stealth.LoadSession codec (stealth.FileState.content data) setCookiesOk =
        ([stealth.Call.readSessionFile], some stealth.Error.noCookies)) ∧
    (stealth.Error.sessionFileNotFound ≠ stealth.Error.parseSessionFile ∧
      stealth.Error.parseSessionFile ≠ stealth.Error.noCookies ∧
      stealth.Error.sessionFileNotFound ≠ stealth.Error.noCookies) ∧
    (∀ (file : stealth.FileState D) (cookieParams : List stealth.NetworkCookieParam),
      stealth.Call.setCookies cookieParams ∈ (stealth.LoadSession codec file setCookiesOk).1 →
      ∃ data cookies, file = stealth.FileState.content data ∧
        codec.unmarshal data = some cookies ∧ cookies ≠ [] ∧
        cookieParams = cookies.map stealth.toCookieParam) ∧
    (∀ file : stealth.FileState D,
      (stealth.LoadSession codec file setCookiesOk).2 = none →
      ∃ data cookies, file = stealth.FileState.content data ∧
        codec.unmarshal data = some cookies ∧ cookies ≠ []) := by
  have hshape : ∀ file : stealth.FileState D,
      (∃ err, stealth.LoadSession codec file setCookiesOk =
        ([stealth.Call.readSessionFile], some err)) ∨
      ∃ data cookies, file = stealth.FileState.content data ∧
        codec.unmarshal data = some cookies ∧ cookies ≠ [] ∧
        (stealth.LoadSession codec file setCookiesOk).1 =
          [stealth.Call.readSessionFile,
            stealth.Call.setCookies (cookies.map stealth.toCookieParam)] := by
    intro file
    cases file with
    | absent => exact Or.inl ⟨_, rfl⟩
    | unreadable => exact Or.inl ⟨_, rfl⟩
    | content data =>
      cases hu : codec.unmarshal data with
      | none =>
        exact Or.inl ⟨stealth.Error.parseSessionFile, by simp [stealth.LoadSession, hu]⟩
      | some cookies =>
        by_cases hlen : cookies.length = 0
        · exact Or.inl ⟨stealth.Error.noCookies, by simp [stealth.LoadSession, hu, hlen]⟩
        · refine Or.inr ⟨data, cookies, rfl, hu, fun h => hlen (by rw [h]; rfl), ?_⟩
          cases setCookiesOk <;> simp [stealth.LoadSession, hu, hlen]
  refine ⟨rfl, rfl, ?_, ?_, ⟨by decide, by decide, by decide⟩, ?_, ?_⟩
  · intro data hu
    simp [stealth.LoadSession, hu]
  · intro data hu
    simp [stealth.LoadSession, hu]
  · intro file cookieParams hmem
    rcases hshape file with ⟨err, herr⟩ | ⟨data, cookies, hfile, hu, hne, htrace⟩
    · rw [herr] at hmem
      exact absurd hmem (by simp)
    · refine ⟨data, cookies, hfile, hu, hne, ?_⟩
      rw [htrace] at hmem
      simpa using hmem
  · intro file hnil
    rcases hshape file with ⟨err, herr⟩ | ⟨data, cookies, hfile, hu, hne, _⟩
    · rw [herr] at hnil
      exact absurd hnil (by simp)
    · exact ⟨data, cookies, hfile, hu, hne⟩

/-- C17 at a concrete store: a session file holding the empty list makes `LoadSession`
return the empty error after the read alone, whether or not the browser would accept
cookies. -/
theorem C17_loadSession_errors_witness :
    stealth.LoadSession (⟨some, some⟩ : stealth.JsonCodec (List stealth.NetworkCookie))
      (stealth.FileState.content []) true =
      ([stealth.Call.readSessionFile], some stealth.Error.noCookies) :=
  (C17_loadSession_errors (⟨some, some⟩ : stealth.JsonCodec (List stealth.NetworkCookie))
    true).2.2.2.1 [] rfl

/-- C19: `Validate` returns an error for every configuration that enables note sending
with an empty list of note templates, and it returns nil if and only if the email and the
password are non-empty, `search.max_profiles` and `connection.max_requests_per_day` are
positive, `send_note` comes with a non-empty `note_templates` and `messaging.enabled` with
a non-empty `followup_templates`. -/
theorem C19_config_validate (c : config.Config) :
    (c.Connection.SendNote = true → c.Connection.NoteTemplates = [] → c.Validate ≠ none) ∧
    (c.Validate = none ↔
      c.Credentials.Email ≠ "" ∧ c.Credentials.Password ≠ "" ∧
      0 < c.Search.MaxProfiles ∧ 0 < c.Connection.MaxRequestsPerDay ∧
      (c.Connection.SendNote = true → c.Connection.NoteTemplates ≠ []) ∧
      (c.Messaging.Enabled = true → c.Messaging.FollowupTemplates ≠ [])) := by
  have hiff : c.Validate = none ↔
      c.Credentials.Email ≠ "" ∧ c.Credentials.Password ≠ "" ∧
      0 < c.Search.MaxProfiles ∧ 0 < c.Connection.MaxRequestsPerDay ∧
      (c.Connection.SendNote = true → c.Connection.NoteTemplates ≠ []) ∧
      (c.Messaging.Enabled = true → c.Messaging.FollowupTemplates ≠ []) := by
    unfold config.Config.Validate
    split_ifs with h1 h2 h3 h4 h5
    · simp only [reduceCtorEq, false_iff]
      rintro ⟨he, hp, _⟩
      rcases h1 with h | h
      · exact he h
      · exact hp h
    · simp only [reduceCtorEq, false_iff]
      rintro ⟨_, _, hm, _⟩
      exact absurd hm (not_lt.mpr h2)
    · simp only [reduceCtorEq, false_iff]
      rintro ⟨_, _, _, hm, _⟩
      exact absurd hm (not_lt.mpr h3)
    · simp only [reduceCtorEq, false_iff]
      rintro ⟨_, _, _, _, hn, _⟩
      exact hn h4.2 (List.length_eq_zero.mp h4.1)
    · simp only [reduceCtorEq, false_iff]
      rintro ⟨_, _, _, _, _, hf⟩
      exact hf h5.1 (List.length_eq_zero.mp h5.2)
    · simp only [true_iff]
      refine ⟨fun h => h1 (Or.inl h), fun h => h1 (Or.inr h), not_le.mp h2, not_le.mp h3,
        fun hs hn => h4 ⟨by rw [hn]; rfl, hs⟩, fun he hf => h5 ⟨he, by rw [hf]; rfl⟩⟩
  refine ⟨fun hs hn hv => ?_, hiff⟩
  exact (hiff.mp hv).2.2.2.2.1 hs hn

/-- C19 at a concrete configuration: credentials and both limits are set, note sending is
enabled and the list of note templates is empty; `Validate` returns an error. -/
theorem C19_config_validate_witness :
    config.Config.Validate
      { Credentials := ⟨"ada@example.org", "s3cret"⟩, Search := ⟨50⟩,
        Connection := ⟨20, 10, true, []⟩,
        Messaging := ⟨false, false, false, [], []⟩ } ≠ none :=
  (C19_config_validate
    { Credentials := ⟨"ada@example.org", "s3cret"⟩, Search := ⟨50⟩,
      Connection := ⟨20, 10, true, []⟩,
      Messaging := ⟨false, false, false, [], []⟩ }).1 rfl rfl

/-- The sampling loop issues one waypoint per iteration. -/
theorem curveLoop_waypoints {F : Type} [LinearOrderedField F] (rng : Rand)
    (startX startY cp1X cp1Y cp2X cp2Y overshootX overshootY : F) (steps : Nat) :
    ∀ remaining k : Nat,
      (stealth.waypoints (stealth.curveLoop rng startX startY cp1X cp1Y cp2X cp2Y overshootX
        overshootY steps remaining k).1).length = remaining := by
  intro remaining
  induction remaining with
  | zero =>
    intro k
    rfl
  | succ n ih =>
    intro k
    rw [stealth.curveLoop]
    simp only [stealth.waypoints, List.length_cons]
    rw [ih]

/-- From index `j` on, the micro-correction loop issues at most `3 - j` waypoints. -/
theorem microLoop_waypoints {F : Type} [LinearOrderedField F] (fl : F → F)
    (rng : Rand) (x y : F) :
    ∀ fuel j k : Nat,
      (stealth.waypoints (stealth.microLoop fl rng x y fuel j k).1).length ≤ 3 - j := by
  intro fuel
  induction fuel with
  | zero =>
    intro j k
    simp [stealth.microLoop, stealth.waypoints]
  | succ fuel ih =>
    intro j k
    rw [stealth.microLoop]
    have hr : Intn rng k 3 < 3 := Nat.mod_lt _ (by decide)
    by_cases hj : j < Intn rng k 3 + 1
    · simp only [hj, if_true, stealth.waypoints, List.length_cons]
      have := ih (j + 1) (k + 4)
      omega
    · simp [hj, stealth.waypoints]

/-- The trace of `HumanMove`: the samples of a curve of 40 to 69 steps, one per step and
one more, then at most three micro-corrections, then the move to the target. -/
theorem humanMove_trace_shape {F : Type} [LinearOrderedField F] (fl : F → F)
    (rng : Rand) (k : Nat)
    (x y : F) :
    ∃ (steps : Nat) (curve micro : List (stealth.MouseEvent F)),
      (stealth.HumanMove fl rng k x y).1 = curve ++ micro ++ [stealth.MouseEvent.moveTo x y] ∧
      (stealth.waypoints curve).length = steps + 1 ∧ 40 ≤ steps ∧ steps ≤ 69 ∧
      (stealth.waypoints micro).length ≤ 3 := by
  refine ⟨?steps, ?curve, ?micro, ?heq, ?hcurve, ?hlo, ?hhi, ?hmicro⟩
  case heq => exact rfl
  case hcurve => exact curveLoop_waypoints (F := F) rng _ _ _ _ _ _ _ _ _ _ _
  case hlo => omega
  case hhi =>
    have : ∀ k1, Intn rng k1 30 < 30 := fun k1 => Nat.mod_lt _ (by decide)
    have := this (if decide ((Float64 rng (k + 10) : F) > 7 / 10) = true then k + 13 else k + 11)
    omega
  case hmicro =>
    split_ifs
    all_goals first
      | exact microLoop_waypoints fl rng x y 4 0 _
      | exact Nat.zero_le _

/-- C20, the claim as stated fails: when every raw draw is 9007199254740989 (so the step
count is 69, the micro-correction test passes and each loop bound is 3), `HumanMove` to
(300, 200) issues 70 curve samples, 3 micro-corrections and the final waypoint: 74
waypoints, more than 73. -/
theorem C20_humanMove_waypoint_count_counterexample :
    (stealth.waypoints
      (stealth.HumanMove roundFloat64 (fun _ => 9007199254740989) 0 300 200).1).length = 74 ∧
    ¬ (stealth.waypoints
      (stealth.HumanMove roundFloat64 (fun _ => 9007199254740989) 0 300 200).1).length ≤ 73 := by
  have hI : ∀ k n, Intn (fun _ => 9007199254740989) k n = 9007199254740989 % n := fun _ _ => rfl
  have hF : ∀ k, (Float64 (fun _ => 9007199254740989) k : ℚ) =
      ((9007199254740989 % 2 ^ 53 : ℕ) : ℚ) / 2 ^ 53 := fun _ => rfl
  have hm : ∀ k, (stealth.waypoints (stealth.microLoop roundFloat64 (fun _ => 9007199254740989)
      300 200 4 0 k).1).length = 3 := by
    intro k
    simp [stealth.microLoop, stealth.waypoints, hI]
  have hcount : (stealth.waypoints
      (stealth.HumanMove roundFloat64 (fun _ => 9007199254740989) 0 300 200).1).length = 74 := by
    unfold stealth.HumanMove
    simp only [waypoints_append, List.length_append, curveLoop_waypoints, hI, hF]
    norm_num [hm, stealth.waypoints]
  rw [hcount]
  exact ⟨rfl, by decide⟩

/-- C20, amended: for every target and every outcome of the random draws, `HumanMove`
issues at least 42 and at most 74 waypoints: 41 to 70 curve samples (one per step of a
curve of 40 to 69 steps, both ends included), at most 3 micro-corrections and the final
exact waypoint. -/
theorem C20_humanMove_waypoint_count_amended {F : Type} [LinearOrderedField F] (fl : F → F)
    (rng : Rand)
    (k : Nat) (x y : F) :
    42 ≤ (stealth.waypoints (stealth.HumanMove fl rng k x y).1).length ∧
    (stealth.waypoints (stealth.HumanMove fl rng k x y).1).length ≤ 74 ∧
    ∃ (steps : Nat) (curve micro : List (stealth.MouseEvent F)),
      (stealth.HumanMove fl rng k x y).1 = curve ++ micro ++ [stealth.MouseEvent.moveTo x y] ∧
      (stealth.waypoints curve).length = steps + 1 ∧ 40 ≤ steps ∧ steps ≤ 69 ∧
      (stealth.waypoints micro).length ≤ 3 := by
  obtain ⟨steps, curve, micro, heq, hcurve, hlo, hhi, hmicro⟩ := humanMove_trace_shape fl rng k x y
  have hlen : (stealth.waypoints (stealth.HumanMove fl rng k x y).1).length =
      (stealth.waypoints curve).length + (stealth.waypoints micro).length + 1 := by
    rw [heq]
    simp only [waypoints_append, List.length_append, stealth.waypoints, List.length_cons,
      List.length_nil]
  refine ⟨by omega, by omega, steps, curve, micro, heq, hcurve, hlo, hhi, hmicro⟩

/-- A `rand.Float64()` draw is at least 0. -/
theorem float64_nonneg {F : Type} [LinearOrderedField F] (rng : Rand) (k : Nat) :
    (0 : F) ≤ Float64 rng k := by
  unfold Float64
  positivity

/-- A `rand.Float64()` draw is below 1. -/
theorem float64_lt_one {F : Type} [LinearOrderedField F] (rng : Rand) (k : Nat) :
    (Float64 rng k : F) < 1 := by
  unfold Float64
  rw [div_lt_one (by positivity)]
  have h : rng k % 2 ^ 53 < 2 ^ 53 := Nat.mod_lt _ (by positivity)
  exact_mod_cast h

/-- A draw recentred on zero and scaled by `2 * r` stays within `r` of zero. -/
theorem float64_jitter {F : Type} [LinearOrderedField F] (rng : Rand) (k : Nat) (r : F)
    (hr : 0 ≤ r) : |(Float64 rng k - 1 / 2) * (2 * r)| ≤ r := by
  have h0 := float64_nonneg (F := F) rng k
  have h1 := float64_lt_one (F := F) rng k
  rw [abs_le]
  constructor <;> nlinarith

/-- The sampling loop issues two events per iteration. -/
theorem curveLoop_length {F : Type} [LinearOrderedField F] (rng : Rand)
    (startX startY cp1X cp1Y cp2X cp2Y overshootX overshootY : F) (steps : Nat) :
    ∀ remaining k : Nat,
      (stealth.curveLoop rng startX startY cp1X cp1Y cp2X cp2Y overshootX
        overshootY steps remaining k).1.length = 2 * remaining := by
  intro remaining
  induction remaining with
  | zero =>
    intro k
    rfl
  | succ n ih =>
    intro k
    rw [stealth.curveLoop]
    simp only [List.length_cons]
    rw [ih]
    omega

/-- Sample `j` of the sampling loop, counted from a state with `remaining` iterations
left: the move to the Bézier point at the eased parameter `i / steps` plus a jitter of
two draws, then a sleep of `ms` milliseconds with `3 ≤ ms`, `ms ≤ 19` near the ends and
`ms ≤ 10` elsewhere; here `i = steps - (remaining - 1 - j)`. -/
theorem curveLoop_sample {F : Type} [LinearOrderedField F] (rng : Rand)
    (startX startY cp1X cp1Y cp2X cp2Y overshootX overshootY : F) (steps : Nat) :
    ∀ remaining k j : Nat, j < remaining →
      ∃ (kj ms : Nat),
        (stealth.curveLoop rng startX startY cp1X cp1Y cp2X cp2Y overshootX
          overshootY steps remaining k).1[2 * j]? =
          some (stealth.MouseEvent.moveTo
            (stealth.bezier (stealth.easeInOutCubic
              (((steps - (remaining - 1 - j) : Nat) : F) / (steps : F)))
              startX cp1X cp2X overshootX + (Float64 rng kj - 1 / 2) * 2)
            (stealth.bezier (stealth.easeInOutCubic
              (((steps - (remaining - 1 - j) : Nat) : F) / (steps : F)))
              startY cp1Y cp2Y overshootY + (Float64 rng (kj + 1) - 1 / 2) * 2)) ∧
        (stealth.curveLoop rng startX startY cp1X cp1Y cp2X cp2Y overshootX
          overshootY steps remaining k).1[2 * j + 1]? =
          some (stealth.MouseEvent.sleep ((ms : Int) * Millisecond)) ∧
        3 ≤ ms ∧
        ((((steps - (remaining - 1 - j) : Nat) : Int) < 5 ∨
          ((steps - (remaining - 1 - j) : Nat) : Int) > (steps : Int) - 5) → ms ≤ 19) ∧
        (¬ (((steps - (remaining - 1 - j) : Nat) : Int) < 5 ∨
          ((steps - (remaining - 1 - j) : Nat) : Int) > (steps : Int) - 5) → ms ≤ 10) := by
  intro remaining
  induction remaining with
  | zero =>
    intro k j hj
    omega
  | succ n ih =>
    intro k j hj
    rw [stealth.curveLoop]
    cases j with
    | zero =>
      have h8 : Intn rng (k + 2) 8 < 8 := Nat.mod_lt _ (by decide)
      have h10 : Intn rng (k + 3) 10 < 10 := Nat.mod_lt _ (by decide)
      by_cases hslow : ((steps - n : Nat) : Int) < 5 ∨ ((steps - n : Nat) : Int) > (steps : Int) - 5
      · refine ⟨k, Intn rng (k + 2) 8 + 3 + Intn rng (k + 3) 10, ?_, ?_, by omega, ?_, ?_⟩
        · simp
        · have hd : decide (((steps - n : Nat) : Int) < 5 ∨
              ((steps - n : Nat) : Int) > (steps : Int) - 5) = true := decide_eq_true hslow
          simp only [Nat.zero_eq, Nat.mul_zero, Nat.zero_add, List.getElem?_cons_succ,
            List.getElem?_cons_zero, hd, if_true]
        · intro _
          omega
        · intro hn
          exact absurd (by simpa using hslow) hn
      · refine ⟨k, Intn rng (k + 2) 8 + 3, ?_, ?_, by omega, ?_, ?_⟩
        · simp
        · have hd : decide (((steps - n : Nat) : Int) < 5 ∨
              ((steps - n : Nat) : Int) > (steps : Int) - 5) = false := decide_eq_false hslow
          simp only [Nat.zero_eq, Nat.mul_zero, Nat.zero_add, List.getElem?_cons_succ,
            List.getElem?_cons_zero, hd, Bool.false_eq_true, if_false]
        · intro _
          omega
        · intro _
          omega
    | succ j =>
      obtain ⟨kj, ms, hm, hs, h3, hnear, hmid⟩ := ih
        (if decide (((steps - n : Nat) : Int) < 5 ∨ ((steps - n : Nat) : Int) > (steps : Int) - 5)
          = true then k + 4 else k + 3) j (by omega)
      have hidx : n + 1 - 1 - (j + 1) = n - 1 - j := by omega
      rw [hidx]
      refine ⟨kj, ms, ?_, ?_, h3, hnear, hmid⟩
      · have h2 : 2 * (j + 1) = 2 * j + 1 + 1 := by omega
        rw [h2]
        simpa using hm
      · have h2 : 2 * (j + 1) + 1 = 2 * j + 1 + 1 + 1 := by omega
        rw [h2]
        simpa using hs
/-- The trace of `HumanMove` in full: the samples of the curve from the start point to
the overshoot point (the target itself, or the target moved by two draws of at most 10
units), then the micro-corrections when the draw at call `k2` exceeds 0.6, then the move
to the target. -/
theorem humanMove_curve {F : Type} [LinearOrderedField F] (fl : F → F)
    (rng : Rand) (k : Nat)
    (x y : F) :
    ∃ (sx sy c1x c1y c2x c2y ox oy : F) (steps k1 k2 : Nat)
      (curve : List (stealth.MouseEvent F) × Nat) (micro : List (stealth.MouseEvent F)),
      (stealth.HumanMove fl rng k x y).1 =
        curve.1 ++ micro ++ [stealth.MouseEvent.moveTo x y] ∧
      curve = stealth.curveLoop rng sx sy c1x c1y c2x c2y ox oy steps (steps + 1) k1 ∧
      40 ≤ steps ∧ steps ≤ 69 ∧
      ((ox = x ∧ oy = y) ∨
        ∃ kc, ox = x + (Float64 rng kc - 1 / 2) * 20 ∧
          oy = y + (Float64 rng (kc + 1) - 1 / 2) * 20) ∧
      (((Float64 rng k2 : F) > 6 / 10 ∧
          micro = (stealth.microLoop fl rng x y 4 0 (k2 + 1)).1) ∨
        (¬ (Float64 rng k2 : F) > 6 / 10 ∧ micro = [])) := by
  refine ⟨?sx, ?sy, ?c1x, ?c1y, ?c2x, ?c2y, ?ox, ?oy, ?steps, ?k1, ?k2, ?curve, ?micro, ?heq,
    ?hc, ?hlo, ?hhi, ?hover, ?hmicro⟩
  case heq => exact rfl
  case hc => with_reducible exact rfl
  case hlo => omega
  case hhi =>
    have : ∀ k1, Intn rng k1 30 < 30 := fun k1 => Nat.mod_lt _ (by decide)
    have := this (if decide ((Float64 rng (k + 10) : F) > 7 / 10) = true then k + 13 else k + 11)
    omega
  case hover =>
    by_cases h : (Float64 rng (k + 10) : F) > 7 / 10
    · right
      exact ⟨k + 11, by simp [h], by simp [h]⟩
    · left
      exact ⟨by simp [h], by simp [h]⟩
  case k2 => exact (?curve).2
  case hmicro =>
    by_cases h : (Float64 rng (?curve).2 : F) > 6 / 10
    · exact Or.inl ⟨h, by rw [if_pos h]⟩
    · exact Or.inr ⟨h, by rw [if_neg h]⟩

/-- C21, the claim as stated fails: when every raw draw is 39, the curve of `HumanMove` to
(300, 200) has 49 steps and the sleep after its sample 0 (an index below 5) lasts
`39 % 8 + 3 + 39 % 10 = 19` ms, above 18 ms. -/
theorem C21_humanMove_sample_delay_counterexample :
    (stealth.HumanMove roundFloat64 (fun _ => 39) 0 300 200).1[1]? =
      some (stealth.MouseEvent.sleep (19 * Millisecond)) ∧
    ¬ ((19 : Int) * Millisecond ≤ 18 * Millisecond) := by
  refine ⟨?_, by decide⟩
  obtain ⟨sx, sy, c1x, c1y, c2x, c2y, ox, oy, steps, k1, k2, curve, micro, heq, hc, hlo, hhi,
    -, -⟩ := humanMove_curve roundFloat64 (fun _ => 39) 0 300 200
  rw [heq, hc, List.append_assoc, stealth.curveLoop]
  have hslow : decide ((((steps - steps : Nat) : Int) < 5 ∨
      ((steps - steps : Nat) : Int) > (steps : Int) - 5)) = true := by
    apply decide_eq_true
    left
    simp
  have hI : ∀ k n, Intn (fun _ => 39) k n = 39 % n := fun _ _ => rfl
  simp only [List.cons_append, List.getElem?_cons_succ, List.getElem?_cons_zero, hslow, if_true,
    hI]
  norm_num

/-- C21, amended: for every target and every outcome of the random draws, the trace of
`HumanMove` starts with the samples of a curve of `steps` steps, `40 ≤ steps ≤ 69`: for
every index `i ≤ steps` a move followed by a sleep of `ms` milliseconds, where
`3 ≤ ms ≤ 19` when `i < 5` or `i > steps - 5`, and `3 ≤ ms ≤ 10` otherwise. -/
theorem C21_humanMove_sample_delay_amended {F : Type} [LinearOrderedField F] (fl : F → F)
    (rng : Rand)
    (k : Nat) (x y : F) :
    ∃ (steps : Nat) (curve rest : List (stealth.MouseEvent F)),
      (stealth.HumanMove fl rng k x y).1 = curve ++ rest ∧
      curve.length = 2 * (steps + 1) ∧ 40 ≤ steps ∧ steps ≤ 69 ∧
      ∀ i : Nat, i ≤ steps →
        ∃ (px py : F) (ms : Nat),
          curve[2 * i]? = some (stealth.MouseEvent.moveTo px py) ∧
          curve[2 * i + 1]? = some (stealth.MouseEvent.sleep ((ms : Int) * Millisecond)) ∧
          3 ≤ ms ∧
          (((i : Int) < 5 ∨ (i : Int) > (steps : Int) - 5) → ms ≤ 19) ∧
          (¬ ((i : Int) < 5 ∨ (i : Int) > (steps : Int) - 5) → ms ≤ 10) := by
  obtain ⟨sx, sy, c1x, c1y, c2x, c2y, ox, oy, steps, k1, k2, curve, micro, heq, hc, hlo, hhi,
    -, -⟩ := humanMove_curve fl rng k x y
  subst hc
  refine ⟨steps, _, micro ++ [stealth.MouseEvent.moveTo x y],
    by rw [heq, List.append_assoc], curveLoop_length rng _ _ _ _ _ _ _ _ _ _ _, hlo, hhi, ?_⟩
  intro i hi
  obtain ⟨kj, ms, hm, hs, h3, hnear, hmid⟩ :=
    curveLoop_sample rng sx sy c1x c1y c2x c2y ox oy steps (steps + 1) k1 i (by omega)
  have hidx : steps - (steps + 1 - 1 - i) = i := by omega
  rw [hidx] at hm hnear hmid
  exact ⟨_, _, ms, hm, hs, h3, hnear, hmid⟩
/-- The tests `rand.Float64() > 0.7` and `rand.Float64() > 0.6` of `HumanMove` compare a
multiple of `2^-53` with the `float64` nearest to the decimal constant; the outcome is the
same as for the exact constant. -/
theorem float64_gt_const (rng : Rand) (k : Nat) :
    ((Float64 rng k : ℚ) > 7 / 10 ↔ (Float64 rng k : ℚ) > roundFloat64 (7 / 10)) ∧
    ((Float64 rng k : ℚ) > 6 / 10 ↔ (Float64 rng k : ℚ) > roundFloat64 (6 / 10)) := by
  have e7 : roundFloat64 (7 / 10) = 6305039478318694 / 2 ^ 53 := by
    rw [roundFloat64_eval_nat _ 53 6305039478318694 (by norm_num [abs_of_pos])
      (by norm_num [abs_of_pos]) (by norm_num [abs_lt])]
    norm_num
  have e6 : roundFloat64 (6 / 10) = 5404319552844595 / 2 ^ 53 := by
    rw [roundFloat64_eval_nat _ 53 5404319552844595 (by norm_num [abs_of_pos])
      (by norm_num [abs_of_pos]) (by norm_num [abs_lt])]
    norm_num
  rw [e7, e6]
  unfold Float64
  generalize rng k % 2 ^ 53 = j
  have hpos : (0 : ℚ) < 2 ^ 53 := by positivity
  constructor
  · rw [gt_iff_lt, gt_iff_lt, lt_div_iff₀ hpos, div_lt_div_iff_of_pos_right hpos]
    have h1 : ((7 : ℚ) / 10 * 2 ^ 53 < (j : ℚ)) ↔ ((63050394783186944 : ℚ) < 10 * (j : ℚ)) := by
      constructor <;> intro h <;> norm_num at h ⊢ <;> linarith
    rw [h1]
    have h2 : ((63050394783186944 : ℚ) < 10 * (j : ℚ)) ↔ 63050394783186944 < 10 * j := by
      exact_mod_cast Iff.rfl
    have h3 : ((6305039478318694 : ℚ) < (j : ℚ)) ↔ 6305039478318694 < j := by
      exact_mod_cast Iff.rfl
    rw [h2, h3]
    omega
  · rw [gt_iff_lt, gt_iff_lt, lt_div_iff₀ hpos, div_lt_div_iff_of_pos_right hpos]
    have h1 : ((6 : ℚ) / 10 * 2 ^ 53 < (j : ℚ)) ↔ ((54043195528445952 : ℚ) < 10 * (j : ℚ)) := by
      constructor <;> intro h <;> norm_num at h ⊢ <;> linarith
    rw [h1]
    have h2 : ((54043195528445952 : ℚ) < 10 * (j : ℚ)) ↔ 54043195528445952 < 10 * j := by
      exact_mod_cast Iff.rfl
    have h3 : ((5404319552844595 : ℚ) < (j : ℚ)) ↔ 5404319552844595 < j := by
      exact_mod_cast Iff.rfl
    rw [h2, h3]
    omega

/-- The call counter after the sampling loop: every iteration makes three draws and the
iterations at the first five and the last five indices make a fourth one. -/
theorem curveLoop_counter {F : Type} [LinearOrderedField F] (rng : Rand)
    (startX startY cp1X cp1Y cp2X cp2Y overshootX overshootY : F) (steps : Nat)
    (hsteps : 9 ≤ steps) :
    ∀ remaining k : Nat, remaining ≤ steps + 1 →
      (stealth.curveLoop rng startX startY cp1X cp1Y cp2X cp2Y overshootX
        overshootY steps remaining k).2 =
        k + 3 * remaining + min remaining 5 + (remaining - (steps - 4)) := by
  intro remaining
  induction remaining with
  | zero =>
    intro k _
    rw [stealth.curveLoop]
    simp
  | succ n ih =>
    intro k hn
    rw [stealth.curveLoop]
    simp only []
    rw [ih _ (by omega)]
    by_cases hslow : (((steps - n : Nat) : Int) < 5 ∨ ((steps - n : Nat) : Int) > (steps : Int) - 5)
    · rw [decide_eq_true hslow]
      simp only [if_true]
      omega
    · rw [decide_eq_false hslow]
      simp only [Bool.false_eq_true, if_false]
      omega

/-- The micro-correction loop from index `j` on, with enough fuel: it issues `m`
corrections, where `m` is the first index at which the redrawn test fails; correction `i`
reads its test at call `k + 4 * i` and its two offsets and its pause at the three calls
after it. -/
theorem microLoop_pinned {F : Type} [LinearOrderedField F] (fl : F → F) (rng : Rand)
    (x y : F) :
    ∀ fuel j k : Nat, 4 ≤ fuel + j → j ≤ 3 →
      ∃ m : Nat,
        j + m ≤ 3 ∧ (j = 0 → 1 ≤ m) ∧
        (∀ i, i < m → j + i < Intn rng (k + 4 * i) 3 + 1) ∧
        ¬ (j + m < Intn rng (k + 4 * m) 3 + 1) ∧
        (stealth.microLoop fl rng x y fuel j k).1 =
          ((List.range m).map (fun i =>
            [stealth.MouseEvent.moveTo
                (fl (x + fl (fl (Float64 rng (k + 4 * i + 1) - 1 / 2) * 6)))
                (fl (y + fl (fl (Float64 rng (k + 4 * i + 2) - 1 / 2) * 6))),
              stealth.MouseEvent.sleep
                (((Intn rng (k + 4 * i + 3) 30 + 20 : Nat) : Int) * Millisecond)])).flatten := by
  intro fuel
  induction fuel with
  | zero =>
    intro j k hj hj3
    omega
  | succ fuel ih =>
    intro j k hj hj3
    rw [stealth.microLoop]
    have hr : Intn rng k 3 < 3 := Nat.mod_lt _ (by decide)
    by_cases htest : j < Intn rng k 3 + 1
    · obtain ⟨m, hm3, -, hpass, hfail, htrace⟩ := ih (j + 1) (k + 4) (by omega) (by omega)
      refine ⟨m + 1, by omega, fun _ => by omega, ?_, ?_, ?_⟩
      · intro i hi
        rcases Nat.eq_zero_or_pos i with rfl | hpos
        · simpa using htest
        · have := hpass (i - 1) (by omega)
          have hidx : k + 4 + 4 * (i - 1) = k + 4 * i := by omega
          rw [hidx] at this
          omega
      · have hidx : k + 4 + 4 * m = k + 4 * (m + 1) := by omega
        rw [hidx] at hfail
        omega
      · simp only [htest, if_true, htrace, List.range_succ_eq_map, List.map_cons,
          List.flatten_cons, List.map_map, List.cons_append, List.nil_append, Nat.mul_zero,
          Nat.add_zero]
        refine congrArg _ (congrArg _ (congrArg _ (List.map_congr_left ?_)))
        intro i _
        have h1 : k + 4 + 4 * i + 1 = k + 4 * (i + 1) + 1 := by omega
        have h2 : k + 4 + 4 * i + 2 = k + 4 * (i + 1) + 2 := by omega
        have h3 : k + 4 + 4 * i + 3 = k + 4 * (i + 1) + 3 := by omega
        simp only [Function.comp, h1, h2, h3, Nat.succ_eq_add_one]
    · exact ⟨0, by omega, by omega, fun i hi => absurd hi (Nat.not_lt_zero i), by
        simpa using htest, by simp [htest]⟩

/-- The trace of `HumanMove` with every draw at its call: the start point, the control
points and the overshoot point, the number of steps, the sampling loop from call
`k1 + 1`, the micro-correction loop after the test at the call the sampling loop ends
with, and the move to the target. -/
theorem humanMove_split {F : Type} [LinearOrderedField F] (fl : F → F) (rng : Rand)
    (k : Nat) (x y : F) :
    ∃ (k1 steps : Nat) (curve : List (stealth.MouseEvent F) × Nat),
      k1 = (if (Float64 rng (k + 10) : F) > 7 / 10 then k + 13 else k + 11) ∧
      steps = Intn rng k1 30 + 40 ∧
      curve = stealth.curveLoop rng (Float64 rng k * 100) (Float64 rng (k + 1) * 100)
        (Float64 rng k * 100 + Float64 rng (k + 2) * (x - Float64 rng k * 100) * (3 / 10) +
          (Float64 rng (k + 3) - 1 / 2) * 100)
        (Float64 rng (k + 1) * 100 +
          Float64 rng (k + 4) * (y - Float64 rng (k + 1) * 100) * (3 / 10) +
          (Float64 rng (k + 5) - 1 / 2) * 100)
        (Float64 rng k * 100 + Float64 rng (k + 6) * (x - Float64 rng k * 100) * (7 / 10) +
          (Float64 rng (k + 7) - 1 / 2) * 100)
        (Float64 rng (k + 1) * 100 +
          Float64 rng (k + 8) * (y - Float64 rng (k + 1) * 100) * (7 / 10) +
          (Float64 rng (k + 9) - 1 / 2) * 100)
        (if (Float64 rng (k + 10) : F) > 7 / 10 then x + (Float64 rng (k + 11) - 1 / 2) * 20
          else x)
        (if (Float64 rng (k + 10) : F) > 7 / 10 then y + (Float64 rng (k + 12) - 1 / 2) * 20
          else y)
        steps (steps + 1) (k1 + 1) ∧
      (stealth.HumanMove fl rng k x y).1 =
        curve.1 ++
          (if (Float64 rng curve.2 : F) > 6 / 10 then
            (stealth.microLoop fl rng x y 4 0 (curve.2 + 1)).1 else []) ++
          [stealth.MouseEvent.moveTo x y] := by
  refine ⟨_, _, _, rfl, rfl, rfl, ?_⟩
  rw [stealth.HumanMove]
  simp only [decide_eq_true_eq]
  split_ifs <;> rfl

/-- A micro-correction coordinate computed in `float64`: the draw shifted by one half,
times 6, added to the target, each operation rounded.  It stays within 3 units of the
target up to the rounding of the three operations. -/
theorem corr_bound (x f : ℚ) (h0 : 0 ≤ f) (h1 : f < 1) :
    |roundFloat64 (x + roundFloat64 (roundFloat64 (f - 1 / 2) * 6)) - x| ≤
      3 + (|x| + 10) / 2 ^ 53 := by
  have ha := roundFloat64_err (f - 1 / 2)
  have hb := roundFloat64_err (roundFloat64 (f - 1 / 2) * 6)
  have hc := roundFloat64_err (x + roundFloat64 (roundFloat64 (f - 1 / 2) * 6))
  generalize roundFloat64 (x + roundFloat64 (roundFloat64 (f - 1 / 2) * 6)) = C at hc ⊢
  generalize roundFloat64 (roundFloat64 (f - 1 / 2) * 6) = B at hb hc
  generalize roundFloat64 (f - 1 / 2) = A at ha hb
  have ha0 : |f - 1 / 2| ≤ 1 / 2 := by
    rw [abs_le]
    constructor <;> linarith
  have hA : |A| ≤ 1 / 2 * (1 + 1 / 2 ^ 53) := by
    have := abs_sub_abs_le_abs_sub A (f - 1 / 2)
    have h2 : |f - 1 / 2| / 2 ^ 53 ≤ 1 / 2 / 2 ^ 53 :=
      div_le_div_of_nonneg_right ha0 (by positivity)
    linarith
  have hA6 : |A * 6| = 6 * |A| := by
    rw [abs_mul]
    norm_num
    ring
  have hB : |B| ≤ 3 * (1 + 1 / 2 ^ 53) * (1 + 1 / 2 ^ 53) := by
    have := abs_sub_abs_le_abs_sub B (A * 6)
    rw [hA6] at hb this
    have h2 : 6 * |A| / 2 ^ 53 ≤ 6 * (1 / 2 * (1 + 1 / 2 ^ 53)) / 2 ^ 53 :=
      div_le_div_of_nonneg_right (by linarith) (by positivity)
    linarith
  have hxB : |x + B| ≤ |x| + |B| := abs_add x B
  have hC : |C - x| ≤ |B| + (|x| + |B|) / 2 ^ 53 := by
    have h3 : |C - x| ≤ |C - (x + B)| + |B| := by
      have := abs_add (C - (x + B)) B
      have heq : C - (x + B) + B = C - x := by ring
      rw [heq] at this
      exact this
    have h4 : |x + B| / 2 ^ 53 ≤ (|x| + |B|) / 2 ^ 53 :=
      div_le_div_of_nonneg_right hxB (by positivity)
    linarith
  have hx0 := abs_nonneg x
  norm_num at hB hC ⊢
  linarith

/-- C22, the claim as stated fails in `float64`: with the target `x = 0.3` (the `float64`
nearest to three tenths) and `y = 200`, every raw draw `2^53 - 3` up to call 235 and 0
from call 236 on, `HumanMove` takes the overshoot branch, draws 69 steps, passes the test
at call 234 and enters the correction loop at call 235; the first correction reads the
draw 0 at call 236, so its offset is exactly `-3` and its x coordinate is the rounded sum
`-3039929748475085 / 2^50`, farther than 3 units from the target. -/
theorem C22_humanMove_micro_corrections_counterexample :
    (stealth.HumanMove roundFloat64 (fun i => if i < 236 then 9007199254740989 else 0) 0
        (5404319552844595 / 18014398509481984) 200).1[140]? =
      some (stealth.MouseEvent.moveTo (-3039929748475085 / 1125899906842624 : ℚ) 197) ∧
    ¬ |(-3039929748475085 / 1125899906842624 : ℚ) -
        5404319552844595 / 18014398509481984| ≤ 3 := by
  refine ⟨?_, by norm_num [abs_le]⟩
  obtain ⟨k1, steps, curve, hk1, hsteps, hcurve, htrace⟩ :=
    humanMove_split roundFloat64 (fun i => if i < 236 then 9007199254740989 else 0) 0
      (5404319552844595 / 18014398509481984) 200
  have hk1v : k1 = 13 := by
    rw [hk1]
    norm_num [Float64]
  subst hk1v
  have hstepsv : steps = 69 := by
    rw [hsteps]
    norm_num [Intn]
  subst hstepsv
  have hlen : curve.1.length = 140 := by
    rw [hcurve, curveLoop_length]
  have hcount : curve.2 = 234 := by
    rw [hcurve, curveLoop_counter _ _ _ _ _ _ _ _ _ _ (by decide) _ _ (by decide)]
    rfl
  rw [htrace, hcount, List.append_assoc, List.getElem?_append_right (by omega), hlen]
  have htest : (Float64 (fun i => if i < 236 then 9007199254740989 else 0) 234 : ℚ) > 6 / 10 := by
    norm_num [Float64]
  rw [if_pos htest, stealth.microLoop]
  have hloop : 0 < Intn (fun i => if i < 236 then 9007199254740989 else 0) (234 + 1) 3 + 1 :=
    Nat.succ_pos _
  rw [if_pos hloop]
  have hfx : (Float64 (fun i => if i < 236 then 9007199254740989 else 0) (234 + 1 + 1) : ℚ) = 0 := by
    norm_num [Float64]
  have hfy : (Float64 (fun i => if i < 236 then 9007199254740989 else 0) (234 + 1 + 2) : ℚ) = 0 := by
    norm_num [Float64]
  have e1 : roundFloat64 ((0 : ℚ) - 1 / 2) = -1 / 2 := by
    rw [roundFloat64_eval_nat _ 53 (-4503599627370496) (by norm_num [abs_of_neg])
      (by norm_num [abs_of_neg]) (by norm_num [abs_lt])]
    norm_num
  have e2 : roundFloat64 ((-1 / 2 : ℚ) * 6) = -3 := by
    rw [roundFloat64_eval_nat _ 51 (-6755399441055744) (by norm_num [abs_of_neg])
      (by norm_num [abs_of_neg]) (by norm_num [abs_lt])]
    norm_num
  have e3 : roundFloat64 ((5404319552844595 / 18014398509481984 : ℚ) + -3) =
      -3039929748475085 / 1125899906842624 := by
    rw [roundFloat64_eval_nat _ 51 (-6079859496950170) (by norm_num [abs_of_neg])
      (by norm_num [abs_of_neg]) (by norm_num [abs_lt])]
    norm_num
  have e4 : roundFloat64 ((200 : ℚ) + -3) = 197 := by
    rw [roundFloat64_eval_nat _ 45 6931321301499904 (by norm_num [abs_of_pos])
      (by norm_num [abs_of_pos]) (by norm_num [abs_lt])]
    norm_num
  rw [hfx, hfy, e1, e2, e3, e4]
  rfl

/-- C22, amended: for every target and every outcome of the random draws, with `k1` the
call of the step draw, `steps` the number of steps and `k2 = k1 + 3 * steps + 14` the
call of the correction test, the trace of `HumanMove` is the `steps + 1` samples of the
sampling loop started at call `k1 + 1`, then `n` micro-corrections, then the move to the
exact target.  When the draw at call `k2` does not exceed 0.6, `n = 0`; otherwise
`1 ≤ n ≤ 3` and `n` is the first index at which the redrawn loop test fails.
Correction `i` is the move to the two coordinates computed in `float64` from the draws
at calls `k2 + 4 * i + 2` and `k2 + 4 * i + 3`, followed by a sleep of 20 to 49 ms drawn
at call `k2 + 4 * i + 4`; each coordinate is within `3 + (|target| + 10) / 2^53` units of
the target. -/
theorem C22_humanMove_micro_corrections_amended (rng : Rand) (k : Nat) (x y : ℚ) :
    ∃ (k1 steps k2 n : Nat) (curve : List (stealth.MouseEvent ℚ) × Nat),
      k1 = (if (Float64 rng (k + 10) : ℚ) > 7 / 10 then k + 13 else k + 11) ∧
      steps = Intn rng k1 30 + 40 ∧
      k2 = k1 + 3 * steps + 14 ∧
      curve = stealth.curveLoop rng (Float64 rng k * 100) (Float64 rng (k + 1) * 100)
        (Float64 rng k * 100 + Float64 rng (k + 2) * (x - Float64 rng k * 100) * (3 / 10) +
          (Float64 rng (k + 3) - 1 / 2) * 100)
        (Float64 rng (k + 1) * 100 +
          Float64 rng (k + 4) * (y - Float64 rng (k + 1) * 100) * (3 / 10) +
          (Float64 rng (k + 5) - 1 / 2) * 100)
        (Float64 rng k * 100 + Float64 rng (k + 6) * (x - Float64 rng k * 100) * (7 / 10) +
          (Float64 rng (k + 7) - 1 / 2) * 100)
        (Float64 rng (k + 1) * 100 +
          Float64 rng (k + 8) * (y - Float64 rng (k + 1) * 100) * (7 / 10) +
          (Float64 rng (k + 9) - 1 / 2) * 100)
        (if (Float64 rng (k + 10) : ℚ) > 7 / 10 then x + (Float64 rng (k + 11) - 1 / 2) * 20
          else x)
        (if (Float64 rng (k + 10) : ℚ) > 7 / 10 then y + (Float64 rng (k + 12) - 1 / 2) * 20
          else y)
        steps (steps + 1) (k1 + 1) ∧
      curve.2 = k2 ∧ curve.1.length = 2 * (steps + 1) ∧
      (stealth.waypoints curve.1).length = steps + 1 ∧
      (stealth.HumanMove roundFloat64 rng k x y).1 =
        curve.1 ++
          ((List.range n).map (fun i =>
            [stealth.MouseEvent.moveTo
                (roundFloat64 (x + roundFloat64
                  (roundFloat64 (Float64 rng (k2 + 4 * i + 2) - 1 / 2) * 6)))
                (roundFloat64 (y + roundFloat64
                  (roundFloat64 (Float64 rng (k2 + 4 * i + 3) - 1 / 2) * 6))),
              stealth.MouseEvent.sleep
                (((Intn rng (k2 + 4 * i + 4) 30 + 20 : Nat) : Int) * Millisecond)])).flatten ++
          [stealth.MouseEvent.moveTo x y] ∧
      (if (Float64 rng k2 : ℚ) > 6 / 10 then
          1 ≤ n ∧ n ≤ 3 ∧ (∀ i, i < n → i < Intn rng (k2 + 4 * i + 1) 3 + 1) ∧
            ¬ (n < Intn rng (k2 + 4 * n + 1) 3 + 1)
        else n = 0) ∧
      ∀ i, i < n →
        |roundFloat64 (x + roundFloat64
            (roundFloat64 (Float64 rng (k2 + 4 * i + 2) - 1 / 2) * 6)) - x| ≤
          3 + (|x| + 10) / 2 ^ 53 ∧
        |roundFloat64 (y + roundFloat64
            (roundFloat64 (Float64 rng (k2 + 4 * i + 3) - 1 / 2) * 6)) - y| ≤
          3 + (|y| + 10) / 2 ^ 53 ∧
        (20 : Int) * Millisecond ≤
          ((Intn rng (k2 + 4 * i + 4) 30 + 20 : Nat) : Int) * Millisecond ∧
        ((Intn rng (k2 + 4 * i + 4) 30 + 20 : Nat) : Int) * Millisecond ≤
          49 * Millisecond := by
  obtain ⟨k1, steps, curve, hk1, hsteps, hcurve, htrace⟩ :=
    humanMove_split roundFloat64 rng k x y
  have hcount : curve.2 = k1 + 3 * steps + 14 := by
    rw [hcurve, curveLoop_counter _ _ _ _ _ _ _ _ _ _ (by omega) _ _ (le_refl _)]
    omega
  have hbounds : ∀ n i : Nat, i < n →
      |roundFloat64 (x + roundFloat64
          (roundFloat64 (Float64 rng (k1 + 3 * steps + 14 + 4 * i + 2) - 1 / 2) * 6)) - x| ≤
        3 + (|x| + 10) / 2 ^ 53 ∧
      |roundFloat64 (y + roundFloat64
          (roundFloat64 (Float64 rng (k1 + 3 * steps + 14 + 4 * i + 3) - 1 / 2) * 6)) - y| ≤
        3 + (|y| + 10) / 2 ^ 53 ∧
      (20 : Int) * Millisecond ≤
        ((Intn rng (k1 + 3 * steps + 14 + 4 * i + 4) 30 + 20 : Nat) : Int) * Millisecond ∧
      ((Intn rng (k1 + 3 * steps + 14 + 4 * i + 4) 30 + 20 : Nat) : Int) * Millisecond ≤
        49 * Millisecond := by
    intro n i _
    have hp : Intn rng (k1 + 3 * steps + 14 + 4 * i + 4) 30 < 30 := Nat.mod_lt _ (by decide)
    refine ⟨corr_bound x _ (float64_nonneg rng _) (float64_lt_one rng _),
      corr_bound y _ (float64_nonneg rng _) (float64_lt_one rng _), ?_, ?_⟩
    · unfold Millisecond
      omega
    · unfold Millisecond
      omega
  by_cases htest : (Float64 rng curve.2 : ℚ) > 6 / 10
  · obtain ⟨m, hm3, hm1, hpass, hfail, hmicro⟩ :=
      microLoop_pinned roundFloat64 rng x y 4 0 (curve.2 + 1) (by decide) (by decide)
    rw [if_pos htest, hmicro] at htrace
    rw [hcount] at htrace htest hpass hfail
    refine ⟨k1, steps, k1 + 3 * steps + 14, m, curve, hk1, hsteps, rfl, hcurve, hcount, ?_, ?_,
      ?_, ?_, hbounds m⟩
    · rw [hcurve, curveLoop_length]
    · rw [hcurve, curveLoop_waypoints]
    · rw [htrace]
      refine congrArg (fun l => curve.1 ++ l ++ [stealth.MouseEvent.moveTo x y])
        (congrArg List.flatten (List.map_congr_left ?_))
      intro i _
      have h1 : k1 + 3 * steps + 14 + 1 + 4 * i + 1 = k1 + 3 * steps + 14 + 4 * i + 2 := by
        omega
      have h2 : k1 + 3 * steps + 14 + 1 + 4 * i + 2 = k1 + 3 * steps + 14 + 4 * i + 3 := by
        omega
      have h3 : k1 + 3 * steps + 14 + 1 + 4 * i + 3 = k1 + 3 * steps + 14 + 4 * i + 4 := by
        omega
      rw [h1, h2, h3]
    · rw [if_pos htest]
      refine ⟨hm1 rfl, by omega, ?_, ?_⟩
      · intro i hi
        have := hpass i hi
        have hidx : k1 + 3 * steps + 14 + 1 + 4 * i = k1 + 3 * steps + 14 + 4 * i + 1 := by
          omega
        rw [hidx] at this
        omega
      · have hidx : k1 + 3 * steps + 14 + 1 + 4 * m = k1 + 3 * steps + 14 + 4 * m + 1 := by
          omega
        rw [hidx] at hfail
        omega
  · rw [if_neg htest] at htrace
    rw [hcount] at htest
    refine ⟨k1, steps, k1 + 3 * steps + 14, 0, curve, hk1, hsteps, rfl, hcurve, hcount, ?_, ?_,
      ?_, ?_, hbounds 0⟩
    · rw [hcurve, curveLoop_length]
    · rw [hcurve, curveLoop_waypoints]
    · rw [htrace]
      rfl
    · rw [if_neg htest]

/-- The easing function is symmetric about the point (1/2, 1/2). -/
theorem easeInOutCubic_symm {F : Type} [LinearOrderedField F] (t : F) :
    stealth.easeInOutCubic (1 - t) = 1 - stealth.easeInOutCubic t := by
  unfold stealth.easeInOutCubic
  split_ifs with h1 h2 h2
  · linarith
  · ring
  · ring
  · have ht : t = 1 / 2 := by linarith
    subst ht
    norm_num

/-- The easing function is non-decreasing on the whole line. -/
theorem easeInOutCubic_mono {F : Type} [LinearOrderedField F] (a b : F) (hab : a ≤ b) :
    stealth.easeInOutCubic a ≤ stealth.easeInOutCubic b := by
  unfold stealth.easeInOutCubic
  split_ifs with ha hb hb
  · nlinarith [sq_nonneg (a + b), sq_nonneg a, sq_nonneg b, sq_nonneg (a - b)]
  · have h1 : (4 : F) * a * a * a ≤ 1 / 2 := by
      nlinarith [sq_nonneg (a + 1 / 2), sq_nonneg a, sq_nonneg (a - 1 / 2)]
    by_cases hb1 : b ≤ 1
    · have h2 : (-2 * b + 2) ^ 3 ≤ 1 := by
        have h01 : (0 : F) ≤ -2 * b + 2 := by linarith
        have h11 : -2 * b + 2 ≤ (1 : F) := by linarith
        exact pow_le_one₀ h01 h11
      linarith
    · have h2 : (-2 * b + 2) ^ 3 ≤ 0 := by
        have h01 : -2 * b + 2 ≤ (0 : F) := by linarith
        have : (-2 * b + 2) ^ 3 = (-2 * b + 2) * (-2 * b + 2) ^ 2 := by ring
        rw [this]
        exact mul_nonpos_of_nonpos_of_nonneg h01 (sq_nonneg _)
      linarith
  · linarith
  · have h : (-2 * b + 2) ^ 3 ≤ (-2 * a + 2) ^ 3 := by
      nlinarith [sq_nonneg ((-2 * a + 2) + (-2 * b + 2)), sq_nonneg (-2 * a + 2),
        sq_nonneg (-2 * b + 2), sq_nonneg (a - b)]
    linarith

/-- At parameter 1 the Bézier point is its last control point. -/
theorem bezier_one {F : Type} [LinearOrderedField F] (p0 p1 p2 p3 : F) :
    stealth.bezier 1 p0 p1 p2 p3 = p3 := by
  unfold stealth.bezier
  ring

/-- C29: over the real numbers `easeInOutCubic` maps 0 to 0, 1/2 to 1/2 and 1 to 1, is
non-decreasing on [0, 1] with values in [0, 1] there, and satisfies
`ease (1 - t) = 1 - ease t` on [0, 1].  The last curve sample of `HumanMove`, sample
`steps` of a curve of `steps` steps, is the move to the overshoot point (the target, or
the target displaced by two draws of at most 10 units) plus the per-sample jitter of at
most 1 unit on each axis. -/
theorem C29_easeInOutCubic_and_last_sample (fl : ℝ → ℝ) (rng : Rand) (k : Nat)
    (x y : ℝ) :
    (stealth.easeInOutCubic (0 : ℝ) = 0 ∧ stealth.easeInOutCubic (1 / 2 : ℝ) = 1 / 2 ∧
      stealth.easeInOutCubic (1 : ℝ) = 1) ∧
    (∀ a b : ℝ, 0 ≤ a → a ≤ b → b ≤ 1 →
      stealth.easeInOutCubic a ≤ stealth.easeInOutCubic b) ∧
    (∀ t : ℝ, 0 ≤ t → t ≤ 1 →
      0 ≤ stealth.easeInOutCubic t ∧ stealth.easeInOutCubic t ≤ 1) ∧
    (∀ t : ℝ, 0 ≤ t → t ≤ 1 →
      stealth.easeInOutCubic (1 - t) = 1 - stealth.easeInOutCubic t) ∧
    ∃ (steps : Nat) (curve rest : List (stealth.MouseEvent ℝ)) (ox oy jx jy : ℝ),
      (stealth.HumanMove fl rng k x y).1 = curve ++ rest ∧
      curve.length = 2 * (steps + 1) ∧
      curve[2 * steps]? = some (stealth.MouseEvent.moveTo (ox + jx) (oy + jy)) ∧
      |jx| ≤ 1 ∧ |jy| ≤ 1 ∧
      ((ox = x ∧ oy = y) ∨
        ∃ kc, ox = x + (Float64 rng kc - 1 / 2) * 20 ∧
          oy = y + (Float64 rng (kc + 1) - 1 / 2) * 20) := by
  have h0 : stealth.easeInOutCubic (0 : ℝ) = 0 := by
    unfold stealth.easeInOutCubic
    norm_num
  have h1 : stealth.easeInOutCubic (1 : ℝ) = 1 := by
    unfold stealth.easeInOutCubic
    norm_num
  have hhalf : stealth.easeInOutCubic (1 / 2 : ℝ) = 1 / 2 := by
    unfold stealth.easeInOutCubic
    norm_num
  refine ⟨⟨h0, hhalf, h1⟩, fun a b _ hab _ => easeInOutCubic_mono a b hab, ?_,
    fun t _ _ => easeInOutCubic_symm t, ?_⟩
  · intro t ht0 ht1
    constructor
    · rw [← h0]
      exact easeInOutCubic_mono 0 t ht0
    · rw [← h1]
      exact easeInOutCubic_mono t 1 ht1
  · obtain ⟨sx, sy, c1x, c1y, c2x, c2y, ox, oy, steps, k1, k2, curve, micro, heq, hc, hlo, -,
      hover, -⟩ := humanMove_curve fl rng k x y
    subst hc
    obtain ⟨kj, ms, hm, -, -, -, -⟩ :=
      curveLoop_sample rng sx sy c1x c1y c2x c2y ox oy steps (steps + 1) k1 steps (by omega)
    have hidx : steps - (steps + 1 - 1 - steps) = steps := by omega
    have hsteps : ((steps : Nat) : ℝ) ≠ 0 := by
      have : 0 < steps := by omega
      exact_mod_cast this.ne'
    rw [hidx, div_self hsteps, h1, bezier_one, bezier_one] at hm
    have hjx := float64_jitter (F := ℝ) rng kj 1 (by norm_num)
    have hjy := float64_jitter (F := ℝ) rng (kj + 1) 1 (by norm_num)
    rw [mul_one] at hjx hjy
    exact ⟨steps, _, micro ++ [stealth.MouseEvent.moveTo x y], ox, oy, _, _,
      by rw [heq, List.append_assoc], curveLoop_length rng _ _ _ _ _ _ _ _ _ _ _, hm, hjx, hjy,
      hover⟩

/-- One iteration of `humanScrollLoop` contributes one delta. -/
theorem humanScrollLoop_deltas_succ (rng : Rand) (direction : ℚ)
    (scrollDistance chunks remaining k : Nat) :
    ∃ k2 : Nat,
      stealth.scrollDeltas
        (stealth.humanScrollLoop rng direction scrollDistance chunks (remaining + 1) k).1 =
      roundFloat64 (direction *
        if ((chunks - (remaining + 1) : Nat) : Int) = 0 ∨
            ((chunks - (remaining + 1) : Nat) : Int) = (chunks : Int) - 1
        then roundFloat64 (roundFloat64
          (roundFloat64 (scrollDistance : ℚ) / roundFloat64 (chunks : ℚ)) * roundFloat64 (7 / 10))
        else roundFloat64 (roundFloat64 (scrollDistance : ℚ) / roundFloat64 (chunks : ℚ))) ::
      stealth.scrollDeltas
        (stealth.humanScrollLoop rng direction scrollDistance chunks remaining k2).1 :=
  ⟨_, rfl⟩

/-- The deltas of the iterations after the first one of `humanScrollLoop`: rounded even
shares, then the last one, scaled by 0.7. -/
theorem humanScrollLoop_deltas_tail (rng : Rand) (direction : ℚ) (scrollDistance chunks : Nat) :
    ∀ remaining k : Nat, remaining + 1 < chunks →
      stealth.scrollDeltas
        (stealth.humanScrollLoop rng direction scrollDistance chunks (remaining + 1) k).1 =
      List.replicate remaining (roundFloat64 (direction *
        roundFloat64 (roundFloat64 (scrollDistance : ℚ) / roundFloat64 (chunks : ℚ)))) ++
      [roundFloat64 (direction * roundFloat64 (roundFloat64
        (roundFloat64 (scrollDistance : ℚ) / roundFloat64 (chunks : ℚ)) *
          roundFloat64 (7 / 10)))] := by
  intro remaining
  induction remaining with
  | zero =>
    intro k hlt
    have hi : ((chunks - (0 + 1) : Nat) : Int) = (chunks : Int) - 1 := by omega
    obtain ⟨k2, hk2⟩ := humanScrollLoop_deltas_succ rng direction scrollDistance chunks 0 k
    rw [hk2]
    simp only [stealth.humanScrollLoop, stealth.scrollDeltas, hi, or_true, if_true,
      List.replicate_zero, List.nil_append]
  | succ r ih =>
    intro k hlt
    have h0 : ¬ (((chunks - (r + 1 + 1) : Nat) : Int) = 0 ∨
        ((chunks - (r + 1 + 1) : Nat) : Int) = (chunks : Int) - 1) := by omega
    obtain ⟨k2, hk2⟩ := humanScrollLoop_deltas_succ rng direction scrollDistance chunks (r + 1) k
    rw [hk2]
    simp only [h0, if_false]
    rw [ih k2 (by omega), List.replicate_succ, List.cons_append]

/-- The deltas of the whole loop of `HumanScroll` for `chunks ≥ 2`: the scaled share, the
even shares, the scaled share. -/
theorem humanScrollLoop_deltas (rng : Rand) (direction : ℚ) (scrollDistance chunks k : Nat)
    (h : 2 ≤ chunks) :
    stealth.scrollDeltas
      (stealth.humanScrollLoop rng direction scrollDistance chunks chunks k).1 =
    roundFloat64 (direction * roundFloat64 (roundFloat64
      (roundFloat64 (scrollDistance : ℚ) / roundFloat64 (chunks : ℚ)) *
        roundFloat64 (7 / 10))) ::
    (List.replicate (chunks - 2) (roundFloat64 (direction *
      roundFloat64 (roundFloat64 (scrollDistance : ℚ) / roundFloat64 (chunks : ℚ)))) ++
    [roundFloat64 (direction * roundFloat64 (roundFloat64
      (roundFloat64 (scrollDistance : ℚ) / roundFloat64 (chunks : ℚ)) *
        roundFloat64 (7 / 10)))]) := by
  obtain ⟨r, rfl⟩ : ∃ r, chunks = r + 2 := ⟨chunks - 2, by omega⟩
  have h0 : (((r + 2 - (r + 1 + 1) : Nat) : Int) = 0 ∨
      ((r + 2 - (r + 1 + 1) : Nat) : Int) = ((r + 2 : Nat) : Int) - 1) := by omega
  obtain ⟨k2, hk2⟩ :=
    humanScrollLoop_deltas_succ rng direction scrollDistance (r + 2) (r + 1) k
  rw [show r + 2 = r + 1 + 1 from rfl] at h0 hk2 ⊢
  rw [hk2]
  simp only [h0, if_true]
  rw [humanScrollLoop_deltas_tail rng direction scrollDistance (r + 1 + 1) r k2 (by omega)]
  rfl

/-- The loop of `HumanScroll` consumes one draw per chunk and one more at the last. -/
theorem humanScrollLoop_counter (rng : Rand) (direction : ℚ) (scrollDistance chunks : Nat) :
    ∀ remaining k : Nat, remaining ≤ chunks →
      (stealth.humanScrollLoop rng direction scrollDistance chunks remaining k).2 =
        if remaining = 0 then k else k + remaining + 1 := by
  intro remaining
  induction remaining with
  | zero =>
    intro k _
    rfl
  | succ r ih =>
    intro k hle
    rw [stealth.humanScrollLoop]
    dsimp only
    rw [ih _ (by omega)]
    by_cases hr : r = 0
    · subst hr
      have hlast : ((chunks - (0 + 1) : Nat) : Int) = (chunks : Int) - 1 := by omega
      simp [hlast]
    · have hlast : ¬ ((chunks - (r + 1) : Nat) : Int) = (chunks : Int) - 1 := by omega
      simp only [hlast, decide_False, Bool.false_eq_true, if_false, hr, Nat.succ_ne_zero]
      omega

/-- A positive constant rounds to a positive `float64`. -/
theorem roundFloat64_pos (c : ℚ) (hc : 0 < c) : 0 < roundFloat64 c := by
  have h := roundFloat64_err c
  rw [abs_of_pos hc, abs_le] at h
  have : c / 2 ^ 53 < c := div_lt_self hc (by norm_num)
  linarith [h.1]

/-- The scroll deltas of `HumanScroll`, in order: with the direction `dir`, the distance
`T` and the chunk count `n` read off the draws, the scaled share, `n - 2` even shares, the
scaled share, and then the micro-scroll when the draw at call `k3` is below 0.3. -/
theorem humanScroll_deltas (rng : Rand) (k : Nat) :
    ∃ (T n k3 : Nat) (dir : ℚ),
      ((¬ (Float64 rng (k + 1) : ℚ) < roundFloat64 (15 / 100) ∧ dir = 1 ∧
          T = Intn rng k 500 + 200 ∧ n = Intn rng (k + 2) 4 + 3 ∧ k3 = k + n + 4) ∨
        ((Float64 rng (k + 1) : ℚ) < roundFloat64 (15 / 100) ∧ dir = -1 ∧
          T = Intn rng (k + 2) 200 + 100 ∧ n = Intn rng (k + 3) 4 + 3 ∧ k3 = k + n + 5)) ∧
      stealth.scrollDeltas (stealth.HumanScroll rng k).1 =
        roundFloat64 (dir * roundFloat64 (roundFloat64
          (roundFloat64 (T : ℚ) / roundFloat64 (n : ℚ)) * roundFloat64 (7 / 10))) ::
        (List.replicate (n - 2) (roundFloat64 (dir *
          roundFloat64 (roundFloat64 (T : ℚ) / roundFloat64 (n : ℚ)))) ++
        [roundFloat64 (dir * roundFloat64 (roundFloat64
          (roundFloat64 (T : ℚ) / roundFloat64 (n : ℚ)) * roundFloat64 (7 / 10)))]) ++
        (if (Float64 rng k3 : ℚ) < roundFloat64 (3 / 10) then
          [roundFloat64 (dir * roundFloat64 ((Intn rng (k3 + 2) 50 + 20 : Nat) : ℚ))]
        else []) := by
  have hsleep : ∀ d : Duration,
      stealth.scrollDeltas [(stealth.MouseEvent.sleep d : stealth.MouseEvent ℚ)] = [] :=
    fun _ => rfl
  unfold stealth.HumanScroll
  by_cases hup : (Float64 rng (k + 1) : ℚ) < roundFloat64 (15 / 100)
  · have hd : decide ((Float64 rng (k + 1) : ℚ) < roundFloat64 (15 / 100)) = true :=
      decide_eq_true hup
    refine ⟨Intn rng (k + 2) 200 + 100, Intn rng (k + 3) 4 + 3,
      k + (Intn rng (k + 3) 4 + 3) + 5, -1, Or.inr ⟨hup, rfl, rfl, rfl, rfl⟩, ?_⟩
    simp only [hd, if_true]
    have hcount : (stealth.humanScrollLoop rng (-1) (Intn rng (k + 2) 200 + 100) (Intn rng (k + 3) 4 + 3)
        (Intn rng (k + 3) 4 + 3) (k + 3 + 1)).2 = k + (Intn rng (k + 3) 4 + 3) + 5 := by
      rw [humanScrollLoop_counter rng _ _ _ _ _ (le_refl _), if_neg (by omega)]
      omega
    rw [hcount]
    by_cases hmicro : (Float64 rng (k + (Intn rng (k + 3) 4 + 3) + 5) : ℚ) <
        roundFloat64 (3 / 10)
    · rw [if_pos hmicro, if_pos hmicro, scrollDeltas_append,
        humanScrollLoop_deltas rng _ _ _ _ (by omega)]
      rfl
    · rw [if_neg hmicro, if_neg hmicro, humanScrollLoop_deltas rng _ _ _ _ (by omega),
        List.append_nil]
  · have hd : decide ((Float64 rng (k + 1) : ℚ) < roundFloat64 (15 / 100)) = false :=
      decide_eq_false hup
    refine ⟨Intn rng k 500 + 200, Intn rng (k + 2) 4 + 3,
      k + (Intn rng (k + 2) 4 + 3) + 4, 1, Or.inl ⟨hup, rfl, rfl, rfl, rfl⟩, ?_⟩
    simp only [hd, Bool.false_eq_true, if_false]
    have hcount : (stealth.humanScrollLoop rng 1 (Intn rng k 500 + 200) (Intn rng (k + 2) 4 + 3)
        (Intn rng (k + 2) 4 + 3) (k + 2 + 1)).2 = k + (Intn rng (k + 2) 4 + 3) + 4 := by
      rw [humanScrollLoop_counter rng _ _ _ _ _ (le_refl _), if_neg (by omega)]
      omega
    rw [hcount]
    by_cases hmicro : (Float64 rng (k + (Intn rng (k + 2) 4 + 3) + 4) : ℚ) <
        roundFloat64 (3 / 10)
    · rw [if_pos hmicro, if_pos hmicro, scrollDeltas_append,
        humanScrollLoop_deltas rng _ _ _ _ (by omega)]
      rfl
    · rw [if_neg hmicro, if_neg hmicro, humanScrollLoop_deltas rng _ _ _ _ (by omega),
        List.append_nil]

/-- C23, the claim as stated fails: when every raw draw is 0, `HumanScroll` scrolls up by
`T = 100` in `n = 3` chunks, and its first delta is the `float64`
`-6567749456581973 / 2^48 = -23.333333333333332`, which is not `-0.7 * T / n = -70/3`
(no `float64` is). -/
theorem C23_humanScroll_chunks_counterexample :
    (stealth.scrollDeltas (stealth.HumanScroll (fun _ => 0) 0).1)[0]? =
      some (-6567749456581973 / 281474976710656 : ℚ) ∧
    (-6567749456581973 / 281474976710656 : ℚ) ≠ -(7 / 10 * (100 / 3)) := by
  refine ⟨?_, by norm_num⟩
  have hI : ∀ k n, Intn (fun _ => 0) k n = 0 % n := fun _ _ => rfl
  have hF : ∀ k, (Float64 (fun _ => 0) k : ℚ) = 0 := by
    intro k
    simp [Float64]
  obtain ⟨T, n, k3, dir, hcase, hdeltas⟩ := humanScroll_deltas (fun _ => 0) 0
  have hup : (Float64 (fun _ => 0) (0 + 1) : ℚ) < roundFloat64 (15 / 100) := by
    rw [hF]
    exact roundFloat64_pos _ (by norm_num)
  rcases hcase with ⟨hno, -⟩ | ⟨-, hdir, hT, hn, -⟩
  · exact absurd hup hno
  · rw [hI] at hT hn
    norm_num at hT hn
    subst hdir hT hn
    rw [hdeltas]
    have h100 : roundFloat64 ((100 : Nat) : ℚ) = ((100 : Nat) : ℚ) :=
      roundFloat64_natCast 100 (by norm_num)
    have h3 : roundFloat64 ((3 : Nat) : ℚ) = ((3 : Nat) : ℚ) :=
      roundFloat64_natCast 3 (by norm_num)
    have hq : roundFloat64 (((100 : Nat) : ℚ) / ((3 : Nat) : ℚ)) =
        ((4691249611844267 : Int) : ℚ) / 2 ^ 47 := by
      apply roundFloat64_eval_nat
      · rw [abs_of_pos (by norm_num)]; norm_num
      · rw [abs_of_pos (by norm_num)]; norm_num
      · rw [abs_lt]; constructor <;> norm_num
    have hc : roundFloat64 (7 / 10) = ((6305039478318694 : Int) : ℚ) / 2 ^ 53 := by
      apply roundFloat64_eval_nat
      · rw [abs_of_pos (by norm_num)]; norm_num
      · rw [abs_of_pos (by norm_num)]; norm_num
      · rw [abs_lt]; constructor <;> norm_num
    have hs : roundFloat64 (((4691249611844267 : Int) : ℚ) / 2 ^ 47 *
        (((6305039478318694 : Int) : ℚ) / 2 ^ 53)) =
        ((6567749456581973 : Int) : ℚ) / 2 ^ 48 := by
      apply roundFloat64_eval_nat
      · rw [abs_of_pos (by norm_num)]; norm_num
      · rw [abs_of_pos (by norm_num)]; norm_num
      · rw [abs_lt]; constructor <;> norm_num
    have hA : roundFloat64 (-1 * (((6567749456581973 : Int) : ℚ) / 2 ^ 48)) =
        ((-6567749456581973 : Int) : ℚ) / 2 ^ 48 := by
      apply roundFloat64_eval_nat
      · rw [abs_of_neg (by norm_num)]; norm_num
      · rw [abs_of_neg (by norm_num)]; norm_num
      · rw [abs_lt]; constructor <;> norm_num
    rw [h100, h3, hq, hc, hs, hA]
    norm_num

/-- C23, amended: for every outcome of the random draws, `HumanScroll` picks the direction
`dir` (1 downward, -1 upward, the latter when the draw at call `k + 1` is below 0.15), a
distance `T` with `200 ≤ T ≤ 700` downward and `100 ≤ T ≤ 300` upward, and a chunk count
`n` with `3 ≤ n ≤ 6`.  Its scroll deltas are, in order, `A`, `n - 2` times `B`, `A`, and
then one micro-scroll when the draw at call `k3` is below 0.3, where `B` is the `float64`
computation of `dir * (T / n)` and `A` that of `dir * ((T / n) * 0.7)`, every operation
rounded.  `A` and `B` carry the sign of `dir`; they are `0.7 * T / n` and `T / n` in
magnitude up to a relative error of `2^-50`, and the `n` main deltas sum to
`T * (n - 0.6) / n` in magnitude up to a relative error of `2^-50`. -/
theorem C23_humanScroll_chunks_amended (rng : Rand) (k : Nat) :
    ∃ (T n k3 : Nat) (dir A B : ℚ),
      ((¬ (Float64 rng (k + 1) : ℚ) < roundFloat64 (15 / 100) ∧ dir = 1 ∧
          T = Intn rng k 500 + 200 ∧ n = Intn rng (k + 2) 4 + 3 ∧ k3 = k + n + 4) ∨
        ((Float64 rng (k + 1) : ℚ) < roundFloat64 (15 / 100) ∧ dir = -1 ∧
          T = Intn rng (k + 2) 200 + 100 ∧ n = Intn rng (k + 3) 4 + 3 ∧ k3 = k + n + 5)) ∧
      ((dir = 1 ∧ 200 ≤ T ∧ T ≤ 700) ∨ (dir = -1 ∧ 100 ≤ T ∧ T ≤ 300)) ∧
      3 ≤ n ∧ n ≤ 6 ∧
      A = roundFloat64 (dir * roundFloat64 (roundFloat64 ((T : ℚ) / (n : ℚ)) *
        roundFloat64 (7 / 10))) ∧
      B = roundFloat64 (dir * roundFloat64 ((T : ℚ) / (n : ℚ))) ∧
      stealth.scrollDeltas (stealth.HumanScroll rng k).1 =
        A :: (List.replicate (n - 2) B ++ [A]) ++
        (if (Float64 rng k3 : ℚ) < roundFloat64 (3 / 10) then
          [roundFloat64 (dir * roundFloat64 ((Intn rng (k3 + 2) 50 + 20 : Nat) : ℚ))]
        else []) ∧
      |A - dir * (7 / 10 * ((T : ℚ) / (n : ℚ)))| ≤ 1 / 2 ^ 50 * (7 / 10 * ((T : ℚ) / (n : ℚ))) ∧
      |B - dir * ((T : ℚ) / (n : ℚ))| ≤ 1 / 2 ^ 50 * ((T : ℚ) / (n : ℚ)) ∧
      0 < dir * A ∧ 0 < dir * B ∧
      |(A :: (List.replicate (n - 2) B ++ [A])).sum -
          dir * ((T : ℚ) * ((n : ℚ) - 6 / 10) / (n : ℚ))| ≤
        1 / 2 ^ 50 * ((T : ℚ) * ((n : ℚ) - 6 / 10) / (n : ℚ)) := by
  obtain ⟨T, n, k3, dir, hcase, hdeltas⟩ := humanScroll_deltas rng k
  have h500 : Intn rng k 500 < 500 := Nat.mod_lt _ (by decide)
  have h200 : Intn rng (k + 2) 200 < 200 := Nat.mod_lt _ (by decide)
  have h4 : ∀ j, Intn rng j 4 < 4 := fun j => Nat.mod_lt _ (by decide)
  have hdir : dir = 1 ∨ dir = -1 := by
    rcases hcase with ⟨-, h, -⟩ | ⟨-, h, -⟩
    · exact Or.inl h
    · exact Or.inr h
  have hrange : ((dir = 1 ∧ 200 ≤ T ∧ T ≤ 699) ∨ (dir = -1 ∧ 100 ≤ T ∧ T ≤ 299)) ∧
      3 ≤ n ∧ n ≤ 6 := by
    rcases hcase with ⟨-, hd, hT, hn, -⟩ | ⟨-, hd, hT, hn, -⟩
    · have := h4 (k + 2)
      exact ⟨Or.inl ⟨hd, by omega, by omega⟩, by omega, by omega⟩
    · have := h4 (k + 3)
      exact ⟨Or.inr ⟨hd, by omega, by omega⟩, by omega, by omega⟩
  obtain ⟨hTr, hn3, hn6⟩ := hrange
  have hTlt : T < 2 ^ 53 := by
    have : T ≤ 699 := by
      rcases hTr with ⟨-, -, h⟩ | ⟨-, -, h⟩ <;> omega
    exact lt_of_le_of_lt this (by norm_num)
  have hTpos : (0 : ℚ) < (T : ℚ) := by
    have : 0 < T := by
      rcases hTr with ⟨-, h, -⟩ | ⟨-, h, -⟩ <;> omega
    exact_mod_cast this
  have hnpos : (0 : ℚ) < (n : ℚ) := by
    have : 0 < n := by omega
    exact_mod_cast this
  have hq0 : (0 : ℚ) < (T : ℚ) / (n : ℚ) := div_pos hTpos hnpos
  have hTfl : roundFloat64 (T : ℚ) = T := roundFloat64_natCast T hTlt
  have hnfl : roundFloat64 (n : ℚ) = n :=
    roundFloat64_natCast n (lt_of_le_of_lt hn6 (by norm_num))
  rw [hTfl, hnfl] at hdeltas
  obtain ⟨hB, hA⟩ := scroll_delta_approx (T : ℚ) (T : ℚ) (n : ℚ) (7 / 10) dir hTpos hnpos
    (by norm_num) hdir (by rw [sub_self, abs_zero]; positivity)
  have hdd : dir * dir = 1 := by
    rcases hdir with h | h <;> rw [h] <;> norm_num
  have habsdir : |dir| = 1 := by
    rcases hdir with h | h <;> rw [h] <;> norm_num
  have hsign : ∀ X e : ℚ, 0 < e → |X - dir * e| ≤ 1 / 2 ^ 50 * e → 0 < dir * X := by
    intro X e he h
    have h2 : |dir * X - e| ≤ 1 / 2 ^ 50 * e := by
      have : dir * X - e = dir * (X - dir * e) := by
        rw [mul_sub, ← mul_assoc, hdd, one_mul]
      rw [this, abs_mul, habsdir, one_mul]
      exact h
    rw [abs_le] at h2
    have : 1 / 2 ^ 50 * e < e := by
      have : (1 : ℚ) / 2 ^ 50 < 1 := by norm_num
      nlinarith
    linarith [h2.1]
  refine ⟨T, n, k3, dir, _, _, hcase, ?_, hn3, hn6, rfl, rfl, hdeltas, hA, hB,
    hsign _ _ (by positivity) hA, hsign _ _ hq0 hB, ?_⟩
  · rcases hTr with ⟨h, h1, h2⟩ | ⟨h, h1, h2⟩
    · exact Or.inl ⟨h, h1, by omega⟩
    · exact Or.inr ⟨h, h1, by omega⟩
  · have hsum := edge_sum_approx
      (roundFloat64 (dir * roundFloat64 (roundFloat64 ((T : ℚ) / (n : ℚ)) *
        roundFloat64 (7 / 10))))
      (roundFloat64 (dir * roundFloat64 ((T : ℚ) / (n : ℚ))))
      (dir * (7 / 10 * ((T : ℚ) / (n : ℚ)))) (dir * ((T : ℚ) / (n : ℚ))) (n - 2)
    have hcast : ((n - 2 : Nat) : ℚ) = (n : ℚ) - 2 := by
      rw [Nat.cast_sub (by omega)]
      norm_num
    have hexact : 2 * (dir * (7 / 10 * ((T : ℚ) / (n : ℚ)))) +
        ((n - 2 : Nat) : ℚ) * (dir * ((T : ℚ) / (n : ℚ))) =
        dir * ((T : ℚ) * ((n : ℚ) - 6 / 10) / (n : ℚ)) := by
      rw [hcast]
      field_simp
      ring
    rw [hexact] at hsum
    have hm : (0 : ℚ) ≤ ((n - 2 : Nat) : ℚ) := by positivity
    calc _ ≤ 2 * |roundFloat64 (dir * roundFloat64 (roundFloat64 ((T : ℚ) / (n : ℚ)) *
            roundFloat64 (7 / 10))) - dir * (7 / 10 * ((T : ℚ) / (n : ℚ)))| +
          ((n - 2 : Nat) : ℚ) * |roundFloat64 (dir * roundFloat64 ((T : ℚ) / (n : ℚ))) -
            dir * ((T : ℚ) / (n : ℚ))| := hsum
      _ ≤ 2 * (1 / 2 ^ 50 * (7 / 10 * ((T : ℚ) / (n : ℚ)))) +
          ((n - 2 : Nat) : ℚ) * (1 / 2 ^ 50 * ((T : ℚ) / (n : ℚ))) := by
        have := mul_le_mul_of_nonneg_left hB hm
        linarith
      _ = 1 / 2 ^ 50 * ((T : ℚ) * ((n : ℚ) - 6 / 10) / (n : ℚ)) := by
        rw [hcast]
        field_simp
        ring

/-- C24, the code is case-sensitive: `contains("SECURITY CHECK", "Security check")` is
false although the two strings are equal up to letter case, and so is the search for the
phrase in any text that differs from it in the case of one letter. -/
theorem C24_contains_case_sensitive :
    stealth.contains (stealth.bytes "SECURITY CHECK") (stealth.bytes "Security check") = false ∧
    "SECURITY CHECK".toList.map Char.toLower = "Security check".toList.map Char.toLower ∧
    stealth.contains (stealth.bytes "SECURITY CHECK") (stealth.bytes "SECURITY CHECK") = true := by
  decide

/-- A slice `s[i : i+n]` with `i + n ≤ len(s)` is in range. -/
theorem sliceChecked_in_range {α : Type} (s : List α) (i n : Nat) (h : i + n ≤ s.length) :
    stealth.sliceChecked s (i : Int) ((i : Int) + (n : Int)) = some ((s.drop i).take n) := by
  have hr : (0 : Int) ≤ (i : Int) ∧ (i : Int) ≤ (i : Int) + (n : Int) ∧
      (i : Int) + (n : Int) ≤ (s.length : Int) := by omega
  unfold stealth.sliceChecked
  rw [if_pos hr]
  have h1 : ((i : Int)).toNat = i := Int.toNat_natCast i
  have h2 : ((i : Int) + (n : Int) - (i : Int)).toNat = n := by omega
  rw [h1, h2]

/-- The slice taken by `findSubstring` is always in range: the loop with explicit bounds
checks never panics and computes what the loop without them computes. -/
theorem findSubstringLoopChecked_eq {α : Type} [DecidableEq α] (s substr : List α) :
    ∀ fuel i : Nat,
      stealth.findSubstringLoopChecked s substr fuel i =
        some (stealth.findSubstringLoop s substr fuel i) := by
  intro fuel
  induction fuel with
  | zero =>
    intro i
    rfl
  | succ fuel ih =>
    intro i
    rw [stealth.findSubstringLoopChecked, stealth.findSubstringLoop]
    by_cases hc : (i : Int) ≤ (s.length : Int) - (substr.length : Int)
    · have hs := sliceChecked_in_range s i substr.length (by omega)
      rw [if_pos hc, if_pos hc, hs]
      by_cases hm : (s.drop i).take substr.length = substr
      · simp only [hm, if_true]
      · simp only [hm, if_false]
        exact ih (i + 1)
    · rw [if_neg hc, if_neg hc]

/-- C30: `contains(s, substr)` is true exactly when `substr` occurs in `s` at some offset
`i` as the exact slice `s[i : i+len(substr)]`; it is true for the empty `substr` and
false when `substr` is longer than `s`; and every slice expression evaluated by
`findSubstring` is in range, so the search never panics. -/
theorem C30_contains_exact_substring {α : Type} [DecidableEq α] (s substr : List α) :
    (stealth.contains s substr = true ↔
      ∃ i : Nat, i + substr.length ≤ s.length ∧ (s.drop i).take substr.length = substr) ∧
    (∀ i : Nat, i + substr.length ≤ s.length →
      stealth.sliceChecked s (i : Int) ((i : Int) + (substr.length : Int)) =
        some ((s.drop i).take substr.length)) ∧
    stealth.contains s [] = true ∧
    (s.length < substr.length → stealth.contains s substr = false) ∧
    stealth.findSubstringChecked s substr = some (stealth.findSubstring s substr) ∧
    stealth.findSubstringChecked s substr ≠ none := by
  have hchk : stealth.findSubstringChecked s substr = some (stealth.findSubstring s substr) :=
    findSubstringLoopChecked_eq s substr (s.length + 2) 0
  refine ⟨?_, ?_, ?_, ?_, hchk, by rw [hchk]; exact Option.some_ne_none _⟩
  · rw [contains_iff_occurs, slice_eq_iff_occurs]
  · intro i hi
    exact sliceChecked_in_range s i substr.length hi
  · rw [contains_iff_occurs]
    exact List.nil_infix
  · intro hlt
    cases hcon : stealth.contains s substr with
    | false => rfl
    | true =>
      have := ((contains_iff_occurs s substr).mp hcon).length_le
      omega

/-- C28: for every character, index, total length and outcome of the random draws,
`getTypingDelay` returns a whole number `ms` of milliseconds with `31 ≤ ms ≤ 527`, hence
a strictly positive delay.  The start-of-text slow-down and the mid-string speed-up never
apply together: below index 3 the delay is at least 100 ms, at index 3 neither applies
and the delay is between 60 and 408 ms, and above index 3 it is at most 408 ms. -/
theorem C28_getTypingDelay_bounds (rng : Rand) (k : Nat) (char : Char)
    (index totalLength : Int) :
    ∃ ms : Int,
      (stealth.getTypingDelay rng k char index totalLength).1 = ms * Millisecond ∧
      31 ≤ ms ∧ ms ≤ 527 ∧
      0 < (stealth.getTypingDelay rng k char index totalLength).1 ∧
      (index < 3 → 100 ≤ ms) ∧
      (index = 3 → 60 ≤ ms ∧ ms ≤ 408) ∧
      (3 < index → ms ≤ 408) := by
  have h100 : Intn rng k 100 < 100 := Nat.mod_lt _ (by decide)
  have h80 : ∀ j, Intn rng j 80 < 80 := fun j => Nat.mod_lt _ (by decide)
  have h60 : ∀ j, Intn rng j 60 < 60 := fun j => Nat.mod_lt _ (by decide)
  have h30 : ∀ j, Intn rng j 30 < 30 := fun j => Nat.mod_lt _ (by decide)
  have h150 : ∀ j, Intn rng j 150 < 150 := fun j => Nat.mod_lt _ (by decide)
  have hspace : stealth.isSpecialChar ' ' = false := by decide
  have hbound : ∃ ms : Int,
      (stealth.getTypingDelay rng k char index totalLength).1 = ms * Millisecond ∧
      31 ≤ ms ∧ ms ≤ 527 ∧ (index < 3 → 100 ≤ ms) ∧ (index = 3 → 60 ≤ ms ∧ ms ≤ 408) ∧
      (3 < index → ms ≤ 408) := by
    refine ⟨_, rfl, ?_⟩
    by_cases hstart : index < 3
    · have hflow : ¬ index > 3 := by omega
      have := h80 (k + 1)
      by_cases hsp : char = ' '
      · subst hsp
        have := h60 (k + 1 + 1)
        simp only [hstart, hflow, hspace, decide_True, decide_False, if_true, beq_self_eq_true,
          Bool.false_and, Bool.false_eq_true, if_false]
        refine ⟨by omega, by omega, ?_, ?_, ?_⟩ <;> intro hidx <;>
          omega
      · have hne : (char == ' ') = false := by simpa using hsp
        have := h150 (k + 1 + 1)
        simp only [hstart, hflow, hne, decide_True, decide_False, if_true,
          Bool.false_and, Bool.false_eq_true, if_false]
        split_ifs <;>
          (refine ⟨by omega, by omega, ?_, ?_, ?_⟩ <;> intro hidx <;>
          first | omega | exact hidx.elim)
    · have hd : decide (index < 3) = false := decide_eq_false hstart
      simp only [hd, Bool.false_eq_true, if_false]
      by_cases hsp : char = ' '
      · subst hsp
        have := h60 (k + 1)
        simp only [hspace, beq_self_eq_true, bne_self_eq_false, Bool.and_false, if_true,
          Bool.false_eq_true, if_false]
        refine ⟨by omega, by omega, ?_, ?_, ?_⟩ <;> intro hidx <;>
          omega
      · have hne : (char == ' ') = false := by simpa using hsp
        have hne2 : (char != ' ') = true := by simpa using hsp
        have := h30 (k + 1)
        have := h150 (k + 1)
        have := h150 (k + 1 + 1)
        simp only [hne, hne2, Bool.and_true, Bool.false_eq_true, if_false, Bool.and_eq_true,
          decide_eq_true_eq]
        split_ifs <;>
          (refine ⟨by omega, by omega, ?_, ?_, ?_⟩ <;> intro hidx <;>
          omega)
  obtain ⟨ms, hms, hlo, hhi, hrest⟩ := hbound
  refine ⟨ms, hms, hlo, hhi, ?_, hrest⟩
  rw [hms]
  have hM : (0 : Int) < Millisecond := by decide
  have hpos : 0 < ms := by omega
  exact mul_pos hpos hM

/-- A template selection on a non-empty list does not panic and yields a member. -/
theorem pickTemplate_nonempty (templates : List String) (draw : Nat) (h : templates ≠ []) :
    ∃ t, messaging.pickTemplate templates draw = some t ∧ t ∈ templates := by
  have hpos : 0 < templates.length := List.length_pos.mpr h
  have hlt : draw % templates.length < templates.length := Nat.mod_lt _ hpos
  refine ⟨templates[draw % templates.length], ?_, List.getElem_mem hlt⟩
  unfold messaging.pickTemplate
  rw [if_neg (by omega), List.getElem?_eq_getElem hlt]

/-- With a non-empty list of follow-up templates no selection of the follow-up loop
panics. -/
theorem followUpLoop_no_selectionPanic (cfg : config.MessagingConfig)
    (maxMessages delayVariance : Int) (h : cfg.FollowupTemplates ≠ []) :
    ∀ (links : List messaging.FollowUpAttempt) (typed : List String) (messagesSent : Int),
      messaging.followUpLoop cfg maxMessages delayVariance links typed messagesSent ≠
        messaging.Run.selectionPanic := by
  intro links
  induction links with
  | nil =>
    intro typed messagesSent
    simp [messaging.followUpLoop]
  | cons a rest ih =>
    intro typed messagesSent
    obtain ⟨t, ht, -⟩ := pickTemplate_nonempty cfg.FollowupTemplates a.draw h
    rw [messaging.followUpLoop]
    simp only [ht]
    split_ifs
    all_goals first
      | exact ih _ _
      | simp

/-- With a non-empty list of auto-reply templates no selection of the reply loop
panics. -/
theorem replyLoop_no_selectionPanic (cfg : config.MessagingConfig) (delayVariance : Int)
    (page : Nat → messaging.ReplyAttempt) (maxReplies : Nat)
    (h : cfg.AutoReplyTemplates ≠ []) :
    ∀ (remaining : Nat) (typed : List String) (repliesSent : Int),
      messaging.replyLoop cfg delayVariance page maxReplies remaining typed repliesSent ≠
        messaging.Run.selectionPanic := by
  intro remaining
  induction remaining with
  | zero =>
    intro typed repliesSent
    simp [messaging.replyLoop]
  | succ n ih =>
    intro typed repliesSent
    obtain ⟨t, ht, -⟩ := pickTemplate_nonempty cfg.AutoReplyTemplates
      (page (maxReplies - (n + 1))).draw h
    rw [messaging.replyLoop]
    simp only [ht]
    split_ifs
    all_goals first
      | exact ih _ _
      | simp

/-- C25, the claim fails for `AutoReplyToMessages`: the configuration below passes
`Validate` although auto-reply is enabled with an empty list of auto-reply templates,
and with one unread thread whose message input is found the template selection calls
`rand.Intn(0)` and panics.  The claim holds for `SendFollowUps`: under every accepted
configuration no selection of a follow-up template panics; and `AutoReplyToMessages` is
safe whenever the list of auto-reply templates is non-empty. -/
theorem C25_template_selection :
    (config.Config.Validate
        { Credentials := ⟨"ada@example.org", "s3cret"⟩, Search := ⟨50⟩,
          Connection := ⟨20, 10, false, []⟩,
          Messaging := ⟨false, false, true, [], []⟩ } = none ∧
      messaging.AutoReplyToMessages ⟨false, false, true, [], []⟩ 5 30 1
        (fun _ => ⟨1, true, 0, true⟩) = messaging.Run.selectionPanic) ∧
    (∀ (c : config.Config) (maxMessages delayVariance : Int)
        (profiles : Option (List messaging.FollowUpAttempt)),
      c.Validate = none →
      messaging.SendFollowUps c.Messaging maxMessages delayVariance profiles ≠
        messaging.Run.selectionPanic) ∧
    (∀ (c : config.Config) (maxReplies delayVariance : Int) (unread : Nat)
        (page : Nat → messaging.ReplyAttempt),
      c.Messaging.AutoReplyTemplates ≠ [] →
      messaging.AutoReplyToMessages c.Messaging maxReplies delayVariance unread page ≠
        messaging.Run.selectionPanic) := by
  refine ⟨⟨by decide, by decide⟩, ?_, ?_⟩
  · intro c maxMessages delayVariance profiles hv
    unfold messaging.SendFollowUps
    split_ifs with hoff
    · simp
    · have hen : c.Messaging.Enabled = true := by
        cases he : c.Messaging.Enabled with
        | true => rfl
        | false => exact absurd (Or.inl he) hoff
      have hne : c.Messaging.FollowupTemplates ≠ [] := by
        intro hnil
        unfold config.Config.Validate at hv
        split_ifs at hv with h1 h2 h3 h4 h5
        exact h5 ⟨hen, by rw [hnil]; rfl⟩
      cases profiles with
      | none => simp
      | some links => exact followUpLoop_no_selectionPanic _ _ _ hne links [] 0
  · intro c maxReplies delayVariance unread page hne
    unfold messaging.AutoReplyToMessages
    split_ifs
    all_goals first
      | exact replyLoop_no_selectionPanic _ _ _ _ hne _ _ _
      | simp

/-- The invariant of the request loop: from a state with `connectionsSent` within the
session limit and the count of "connection_request" within the daily limit, and with no
clock reading after the reset time, the loop ends in such a state, the reset time is
unchanged, and the count has grown by exactly the number of requests sent. -/
theorem requestLoop_invariant (cfg : config.Config) (variance : Int) :
    ∀ (profiles : List cmd.RequestAttempt) (connectionsSent : Int)
      (rateLimiter : stealth.RateLimiter),
      connectionsSent ≤ cfg.Connection.MaxRequestsPerSession →
      rateLimiter.actionCounts "connection_request" ≤ cfg.Connection.MaxRequestsPerDay →
      (∀ a ∈ profiles, a.checkTime ≤ rateLimiter.resetTime ∧
        a.recordTime ≤ rateLimiter.resetTime) →
      (cmd.requestLoop cfg variance profiles connectionsSent rateLimiter).1 ≤
          cfg.Connection.MaxRequestsPerSession ∧
        (cmd.requestLoop cfg variance profiles connectionsSent rateLimiter).2.actionCounts
          "connection_request" ≤ cfg.Connection.MaxRequestsPerDay ∧
        connectionsSent ≤ (cmd.requestLoop cfg variance profiles connectionsSent rateLimiter).1 ∧
        (cmd.requestLoop cfg variance profiles connectionsSent rateLimiter).2.actionCounts
            "connection_request" - rateLimiter.actionCounts "connection_request" =
          (cmd.requestLoop cfg variance profiles connectionsSent rateLimiter).1 -
            connectionsSent := by
  intro profiles
  induction profiles with
  | nil =>
    intro sent r hs hc _
    simp only [cmd.requestLoop]
    omega
  | cons a rest ih =>
    intro sent r hs hc ht
    have hta := ht a (List.mem_cons_self a rest)
    have htrest : ∀ b ∈ rest, b.checkTime ≤ r.resetTime ∧ b.recordTime ≤ r.resetTime :=
      fun b hb => ht b (List.mem_cons_of_mem a hb)
    rw [cmd.requestLoop]
    by_cases h1 : sent ≥ cfg.Connection.MaxRequestsPerSession
    · rw [if_pos h1]
      simp only
      omega
    rw [if_neg h1]
    by_cases h2 : a.processed = true
    · rw [if_pos h2]
      exact ih sent r hs hc htrest
    rw [if_neg h2]
    by_cases h3 : r.CheckLimit a.checkTime "connection_request"
        cfg.Connection.MaxRequestsPerDay = false
    · rw [if_pos h3]
      simp only
      omega
    rw [if_neg h3]
    by_cases h4 : a.sendFails = true
    · rw [if_pos h4]
      exact ih sent r hs hc htrest
    rw [if_neg h4]
    have hlt : r.actionCounts "connection_request" < cfg.Connection.MaxRequestsPerDay := by
      have hnr : ¬ a.checkTime > r.resetTime := not_lt.mpr hta.1
      by_contra hge
      apply h3
      simp only [stealth.RateLimiter.CheckLimit, stealth.RateLimiter.GetActionCount, hnr,
        if_false]
      rw [if_pos (not_lt.mp hge)]
    obtain ⟨hreset, hinc, -⟩ :=
      recordAction_no_reset r a.recordTime a.recordTime2 "connection_request" hta.2
    dsimp only
    by_cases h5 : variance ≤ 0
    · rw [if_pos h5]
      simp only
      rw [hinc]
      omega
    rw [if_neg h5]
    have hrec := ih (sent + 1)
      (r.RecordAction a.recordTime a.recordTime2 "connection_request") (by omega)
      (by rw [hinc]; omega) (by rw [hreset]; exact htrest)
    rw [hinc] at hrec
    omega
/-- C26: in phase 5 of `main`, with `MaxRequestsPerSession ≥ 0`, the count of
"connection_request" within `MaxRequestsPerDay` when the phase starts (in `main` the
count is 0 and `Validate` has made the limit positive) and no clock reading after the
limiter's reset time, the state reached after any number `n` of found profiles, for every
pattern of already-processed profiles and failed sends, has
`0 ≤ connectionsSent ≤ MaxRequestsPerSession` and a count of "connection_request" that
is at most `MaxRequestsPerDay` and has grown by exactly `connectionsSent`.  A profile
whose send fails changes neither: the loop goes on, or has stopped, in the same state. -/
theorem C26_request_loop_limits (cfg : config.Config) (variance : Int)
    (rateLimiter : stealth.RateLimiter) (now : stealth.Time)
    (profiles : List cmd.RequestAttempt)
    (hsession : 0 ≤ cfg.Connection.MaxRequestsPerSession)
    (hcount : rateLimiter.actionCounts "connection_request" ≤ cfg.Connection.MaxRequestsPerDay)
    (hreset : ∀ a ∈ profiles, a.checkTime ≤ rateLimiter.resetTime ∧
      a.recordTime ≤ rateLimiter.resetTime) :
    (∀ n : Nat,
      0 ≤ (cmd.sendConnectionRequests cfg variance rateLimiter now (profiles.take n)).1 ∧
      (cmd.sendConnectionRequests cfg variance rateLimiter now (profiles.take n)).1 ≤
        cfg.Connection.MaxRequestsPerSession ∧
      (cmd.sendConnectionRequests cfg variance rateLimiter now
        (profiles.take n)).2.actionCounts "connection_request" ≤
        cfg.Connection.MaxRequestsPerDay ∧
      (cmd.sendConnectionRequests cfg variance rateLimiter now
        (profiles.take n)).2.actionCounts "connection_request" =
        rateLimiter.actionCounts "connection_request" +
          (cmd.sendConnectionRequests cfg variance rateLimiter now (profiles.take n)).1) ∧
    (∀ (a : cmd.RequestAttempt) (rest : List cmd.RequestAttempt) (connectionsSent : Int)
        (r : stealth.RateLimiter), a.sendFails = true →
      cmd.requestLoop cfg variance (a :: rest) connectionsSent r =
          cmd.requestLoop cfg variance rest connectionsSent r ∨
        cmd.requestLoop cfg variance (a :: rest) connectionsSent r = (connectionsSent, r)) := by
  constructor
  · intro n
    unfold cmd.sendConnectionRequests
    split_ifs
    · simp only
      omega
    · have h := requestLoop_invariant cfg variance (profiles.take n) 0 rateLimiter hsession
        hcount (fun a ha => hreset a (List.mem_of_mem_take ha))
      omega
  · intro a rest sent r hfail
    rw [cmd.requestLoop]
    split_ifs
    all_goals first
      | exact Or.inl rfl
      | exact Or.inr rfl

/-- C26 at a concrete run: a validated configuration with 2 requests per session and 20
per day, a fresh limiter, and five found profiles: one sent, one already processed, one
whose send fails, one sent, one more that the session limit stops.  Two requests are
sent and the count of "connection_request" is 2. -/
theorem C26_request_loop_limits_witness :
    config.Config.Validate
      { Credentials := ⟨"ada@example.org", "s3cret"⟩, Search := ⟨50⟩,
        Connection := ⟨20, 2, false, []⟩,
        Messaging := ⟨false, false, false, [], []⟩ } = none ∧
    (cmd.sendConnectionRequests
      { Credentials := ⟨"ada@example.org", "s3cret"⟩, Search := ⟨50⟩,
        Connection := ⟨20, 2, false, []⟩,
        Messaging := ⟨false, false, false, [], []⟩ } 5 (stealth.NewRateLimiter 0 0) 1
      [⟨false, 2, false, 3, 3⟩, ⟨true, 4, false, 5, 5⟩, ⟨false, 6, true, 7, 7⟩,
        ⟨false, 8, false, 9, 9⟩, ⟨false, 10, false, 11, 11⟩]).1 = 2 ∧
    (cmd.sendConnectionRequests
      { Credentials := ⟨"ada@example.org", "s3cret"⟩, Search := ⟨50⟩,
        Connection := ⟨20, 2, false, []⟩,
        Messaging := ⟨false, false, false, [], []⟩ } 5 (stealth.NewRateLimiter 0 0) 1
      [⟨false, 2, false, 3, 3⟩, ⟨true, 4, false, 5, 5⟩, ⟨false, 6, true, 7, 7⟩,
        ⟨false, 8, false, 9, 9⟩, ⟨false, 10, false, 11, 11⟩]).2.actionCounts
        "connection_request" = 2 := by
  have h := (C26_request_loop_limits
    { Credentials := ⟨"ada@example.org", "s3cret"⟩, Search := ⟨50⟩,
      Connection := ⟨20, 2, false, []⟩,
      Messaging := ⟨false, false, false, [], []⟩ } 5 (stealth.NewRateLimiter 0 0) 1
    [⟨false, 2, false, 3, 3⟩, ⟨true, 4, false, 5, 5⟩, ⟨false, 6, true, 7, 7⟩,
      ⟨false, 8, false, 9, 9⟩, ⟨false, 10, false, 11, 11⟩]
    (by decide) (by decide) (by decide)).1 5
  have hsent : (cmd.sendConnectionRequests
      { Credentials := ⟨"ada@example.org", "s3cret"⟩, Search := ⟨50⟩,
        Connection := ⟨20, 2, false, []⟩,
        Messaging := ⟨false, false, false, [], []⟩ } 5 (stealth.NewRateLimiter 0 0) 1
      [⟨false, 2, false, 3, 3⟩, ⟨true, 4, false, 5, 5⟩, ⟨false, 6, true, 7, 7⟩,
        ⟨false, 8, false, 9, 9⟩, ⟨false, 10, false, 11, 11⟩]).1 = 2 := by decide
  refine ⟨by decide, hsent, ?_⟩
  have h4 := h.2.2.2
  simp only [List.take] at h4
  rw [h4, hsent]
  rfl

end LinkedinAutomation
